import Mathlib

/-!
# Ant colony simulation: the pheromone field engine

A shallow embedding of `src/pheromones.c` (with the data model of
`src/data_structures.h` and the constants of `src/config.h`).

Modelling conventions:
* C `float` values are exact rationals (`ℚ`), and the functions compute with
  them exactly: a statement about them is a statement of exact arithmetic.
  Rounding matters to the diffusion pass only, which is modelled a second
  time with every operation rounded to binary32 (`diffuse_pheromones_f32`);
  the statements that exact arithmetic satisfies and binary32 does not are
  marked as such, with an evaluation of the rounded pass next to them.
* C `int` values are `Int`; the `uint8_t` state flags of an ant are a `Nat`.
* `Cell** grid` is a total function `Int → Int → Cell`, indexed `grid y x`
  like `world->grid[y][x]`; only indices inside the world are ever read or
  written by the code.
* A `for (int i = 0; i < n; i++)` loop is `forRange n`, a left fold over
  `0, 1, ..., n-1` (empty when `n ≤ 0`).
* A `World*` / `Ant*` argument is never `NULL` (every function returns at
  once on `NULL`) and the temporary buffers of `diffuse_pheromones` are
  allocated successfully.
-/

namespace AntColony

/-! ## Constants (`config.h`) -/

def PHEROMONE_INITIAL : ℚ := 0
def PHEROMONE_MAX : ℚ := 1000
def PHEROMONE_DEPOSIT_AMOUNT : ℚ := 100
def PHEROMONE_EVAPORATION_RATE : ℚ := 2 / 100
def PHEROMONE_DIFFUSION_RATE : ℚ := 1 / 100

def ANT_STATE_IDLE : Nat := 0x00
def ANT_STATE_SEARCHING : Nat := 0x01
def ANT_STATE_RETURNING : Nat := 0x02
def ANT_STATE_FOLLOWING : Nat := 0x04
def ANT_STATE_CARRYING : Nat := 0x08
def ANT_STATE_SCOUT : Nat := 0x10
def ANT_STATE_TIRED : Nat := 0x20
def ANT_STATE_DEAD : Nat := 0x40

/-- Modelled from the spec: the macro `PHEROMONE_TYPE_FOOD` is declared in
`pheromones.h`, which is not among the sources; it names the food-trail field
(the value of `PHEROMONE_FOOD` in `config.h`). -/
def PHEROMONE_TYPE_FOOD : Int := 0

/-- Modelled from the spec: the macro `PHEROMONE_TYPE_HOME` is declared in
`pheromones.h`, which is not among the sources; it names the home-trail field
(the value of `PHEROMONE_HOME` in `config.h`). -/
def PHEROMONE_TYPE_HOME : Int := 1

/-! ## Data model (`data_structures.h`) -/

structure Position where
  x : Int
  y : Int
deriving DecidableEq, Repr

inductive TerrainType where
  | TERRAIN_EMPTY
  | TERRAIN_WALL
  | TERRAIN_FOOD
  | TERRAIN_NEST
  | TERRAIN_WATER
deriving DecidableEq, Repr

structure Cell where
  terrain : TerrainType
  pheromone_food : ℚ
  pheromone_home : ℚ
  food_amount : Int
  colony_id : Int
  has_colony : Int
  has_food : Int
deriving DecidableEq

structure PathNode where
  pos : Position
  position : Position
  pheromone_strength : ℚ
deriving DecidableEq

/-- The record `Ant`; the `next` pointer of the linked list is the list
order of `Colony.ants_head`, and `path_history` is the list of its nodes. -/
structure Ant where
  id : Int
  pos : Position
  last_pos : Position
  position : Position
  state : Nat
  colony_id : Int
  energy : ℚ
  food_carrying : Int
  steps_taken : Int
  food_delivered : Int
  food_collected : Int
  pheromone_strength : ℚ
  exploration_rate : ℚ
  path_history : List PathNode
deriving DecidableEq

structure Colony where
  id : Int
  nest_pos : Position
  position : Position
  food_collected : Int
  total_ants : Int
  active_ants : Int
  ants_head : List Ant
  ant_count : Int
  efficiency_score : ℚ
  color : Int
  total_food_collected : Int
  total_distance_traveled : ℚ
  pheromone_strength : ℚ
  exploration_rate : ℚ
  territory_size : Int
deriving DecidableEq

structure World where
  width : Int
  height : Int
  grid : Int → Int → Cell
  colonies : List Colony
  colony_count : Int
  current_step : Int
  is_running : Int
  paused : Int
  render_delay_ms : Int

/-! ## Helpers of the embedding -/

/-- The loop `for (int i = 0; i < n; i++) s = body(i, s)`. -/
def forRange {σ : Type} (n : Int) (body : Int → σ → σ) (s : σ) : σ :=
  (List.range n.toNat).foldl (fun acc i => body (i : Int) acc) s

/-- The store `grid[y][x] = c`. -/
def setCell (g : Int → Int → Cell) (y x : Int) (c : Cell) : Int → Int → Cell :=
  fun y' x' => if y' = y ∧ x' = x then c else g y' x'

/-- Modelled from the spec: `is_valid_position` is defined in `world.c`, which
is not among the sources. A position is valid iff `0 ≤ x < width` and
`0 ≤ y < height`. -/
def is_valid_position (world : World) (x y : Int) : Bool :=
  decide (0 ≤ x) && decide (x < world.width) && decide (0 ≤ y) && decide (y < world.height)

/-- Modelled from the spec: `get_cell` is defined in `world.c`, which is not
among the sources. It is the address of `grid[y][x]` for a valid position and
`NULL` (here `none`) for an out-of-bounds one. -/
def get_cell (world : World) (x y : Int) : Option Cell :=
  if is_valid_position world x y then some (world.grid y x) else none

/-! ## Deposit -/

/-- The function `deposit_pheromone` (pheromones.c, lines 10-36). -/
def deposit_pheromone (world : World) (ant : Ant) : World :=
  match get_cell world ant.pos.x ant.pos.y with
  | none => world
  | some cell =>
    if ant.state &&& ANT_STATE_SEARCHING ≠ 0 then
      let home := cell.pheromone_home + PHEROMONE_DEPOSIT_AMOUNT
      let home := if home > PHEROMONE_MAX then PHEROMONE_MAX else home
      { world with grid := setCell world.grid ant.pos.y ant.pos.x
                             { cell with pheromone_home := home } }
    else if ant.state &&& ANT_STATE_RETURNING ≠ 0 then
      let food := cell.pheromone_food + PHEROMONE_DEPOSIT_AMOUNT
      let food := if food > PHEROMONE_MAX then PHEROMONE_MAX else food
      { world with grid := setCell world.grid ant.pos.y ant.pos.x
                             { cell with pheromone_food := food } }
    else world

/-- The function `deposit_pheromone_at_position` (pheromones.c, lines 38-55). -/
def deposit_pheromone_at_position (world : World) (x y : Int) (type : Int)
    (amount : ℚ) : World :=
  if !is_valid_position world x y then world
  else
    match get_cell world x y with
    | none => world
    | some cell =>
      if type = PHEROMONE_TYPE_FOOD then
        let food := cell.pheromone_food + amount
        let food := if food > PHEROMONE_MAX then PHEROMONE_MAX else food
        { world with grid := setCell world.grid y x { cell with pheromone_food := food } }
      else if type = PHEROMONE_TYPE_HOME then
        let home := cell.pheromone_home + amount
        let home := if home > PHEROMONE_MAX then PHEROMONE_MAX else home
        { world with grid := setCell world.grid y x { cell with pheromone_home := home } }
      else world

/-! ## Evaporation -/

/-- The body of the loops of `evaporate_pheromones` for one cell
(pheromones.c, lines 62-74). -/
def evaporate_cell (cell : Cell) : Cell :=
  let food := cell.pheromone_food * (1 - PHEROMONE_EVAPORATION_RATE)
  let food := if food < 1 / 10 then 0 else food
  let home := cell.pheromone_home * (1 - PHEROMONE_EVAPORATION_RATE)
  let home := if home < 1 / 10 then 0 else home
  { cell with pheromone_food := food, pheromone_home := home }

/-- The function `evaporate_pheromones` (pheromones.c, lines 57-77). -/
def evaporate_pheromones (world : World) : World :=
  let grid := forRange world.height (fun y g =>
    forRange world.width (fun x g => setCell g y x (evaporate_cell (g y x))) g) world.grid
  { world with grid := grid }

/-! ## Queries -/

/-- The function `get_pheromone_intensity` (pheromones.c, lines 194-207). -/
def get_pheromone_intensity (world : World) (x y : Int) (type : Int) : ℚ :=
  if !is_valid_position world x y then 0
  else
    let cell := world.grid y x
    if type = PHEROMONE_TYPE_FOOD then cell.pheromone_food
    else if type = PHEROMONE_TYPE_HOME then cell.pheromone_home
    else 0

/-- The three values `-1, 0, 1` of the loops over `dy` and `dx`. -/
def deltas : List Int := [-1, 0, 1]

/-- The loop nest `for dy in -1..1, for dx in -1..1, skip (0, 0)` shared by
the neighbourhood scans: `body dx dy` runs on the eight offsets in the order
of the source. -/
def forNeighbors {σ : Type} (body : Int → Int → σ → σ) (s : σ) : σ :=
  deltas.foldl (fun acc dy =>
    deltas.foldl (fun acc dx =>
      if dx = 0 ∧ dy = 0 then acc else body dx dy acc) acc) s

/-- The function `get_max_pheromone_neighbor` (pheromones.c, lines 209-232). -/
def get_max_pheromone_neighbor (world : World) (x y : Int) (type : Int) : ℚ :=
  if !is_valid_position world x y then 0
  else
    forNeighbors (fun dx dy max_pheromone =>
      let nx := x + dx
      let ny := y + dy
      if is_valid_position world nx ny then
        let pheromone := get_pheromone_intensity world nx ny type
        if pheromone > max_pheromone then pheromone else max_pheromone
      else max_pheromone) 0

/-! ## Reset and normalisation -/

/-- The function `reset_pheromones` (pheromones.c, lines 235-246). -/
def reset_pheromones (world : World) : World :=
  let grid := forRange world.height (fun y g =>
    forRange world.width (fun x g =>
      setCell g y x { g y x with pheromone_food := PHEROMONE_INITIAL,
                                 pheromone_home := PHEROMONE_INITIAL }) g) world.grid
  { world with grid := grid }

/-- The first loop nest of `normalize_pheromones` (lines 251-264): the pair
`(max_food, max_home)`. -/
def find_max (world : World) : ℚ × ℚ :=
  forRange world.height (fun y m =>
    forRange world.width (fun x m =>
      let max_food := if (world.grid y x).pheromone_food > m.1
                      then (world.grid y x).pheromone_food else m.1
      let max_home := if (world.grid y x).pheromone_home > m.2
                      then (world.grid y x).pheromone_home else m.2
      (max_food, max_home)) m) (0, 0)

/-- The function `normalize_pheromones` (pheromones.c, lines 248-286). -/
def normalize_pheromones (world : World) : World :=
  let max_food := (find_max world).1
  let max_home := (find_max world).2
  let g := world.grid
  let g := if max_food > 0 then
      forRange world.height (fun y g =>
        forRange world.width (fun x g =>
          setCell g y x { g y x with
            pheromone_food := ((g y x).pheromone_food / max_food) * PHEROMONE_MAX }) g) g
    else g
  let g := if max_home > 0 then
      forRange world.height (fun y g =>
        forRange world.width (fun x g =>
          setCell g y x { g y x with
            pheromone_home := ((g y x).pheromone_home / max_home) * PHEROMONE_MAX }) g) g
    else g
  { world with grid := g }

/-! ## Diffusion -/

/-- The first neighbour scan of `diffuse_pheromones` (lines 123-139): the
number of in-bounds neighbours of `(x, y)`. The sums `food_diffusion` and
`home_diffusion` accumulated by the same loop are never read afterwards and
are left out. -/
def neighbor_count (world : World) (x y : Int) : Int :=
  forNeighbors (fun dx dy n =>
    if is_valid_position world (x + dx) (y + dy) then n + 1 else n) 0

/-- The update of one neighbour in the transfer loop of `diffuse_pheromones`
(lines 155-164): both fields receive their transfer and are capped at
`PHEROMONE_MAX`. -/
def receive_transfer (cell : Cell) (food_transfer home_transfer : ℚ) : Cell :=
  let food := cell.pheromone_food + food_transfer
  let home := cell.pheromone_home + home_transfer
  let food := if food > PHEROMONE_MAX then PHEROMONE_MAX else food
  let home := if home > PHEROMONE_MAX then PHEROMONE_MAX else home
  { cell with pheromone_food := food, pheromone_home := home }

/-- The update of the source cell after the transfer loop (lines 170-179):
both fields lose `transfer * neighbor_count` and are floored at 0. -/
def remove_transferred (cell : Cell) (food_transfer home_transfer : ℚ) (n : Int) : Cell :=
  let food := cell.pheromone_food - food_transfer * n
  let home := cell.pheromone_home - home_transfer * n
  let food := if food < 0 then 0 else food
  let home := if home < 0 then 0 else home
  { cell with pheromone_food := food, pheromone_home := home }

/-- The transfer loop of `diffuse_pheromones` for the source `(x, y)`
(lines 147-167), on the live grid `g`. -/
def transfer_to_neighbors (world : World) (x y : Int) (food_transfer home_transfer : ℚ)
    (g : Int → Int → Cell) : Int → Int → Cell :=
  forNeighbors (fun dx dy g =>
    let nx := x + dx
    let ny := y + dy
    if is_valid_position world nx ny then
      setCell g ny nx (receive_transfer (g ny nx) food_transfer home_transfer)
    else g) g

/-- The body of the main loop of `diffuse_pheromones` for the cell `(x, y)`
(lines 121-180): `temp_food` and `temp_home` are the snapshots, `g` is the
live grid. -/
def diffuse_cell (world : World) (temp_food temp_home : Int → Int → ℚ)
    (x y : Int) (g : Int → Int → Cell) : Int → Int → Cell :=
  let n := neighbor_count world x y
  if n > 0 then
    let food_transfer := temp_food y x * PHEROMONE_DIFFUSION_RATE / n
    let home_transfer := temp_home y x * PHEROMONE_DIFFUSION_RATE / n
    let g := transfer_to_neighbors world x y food_transfer home_transfer g
    setCell g y x (remove_transferred (g y x) food_transfer home_transfer n)
  else g

/-- The function `diffuse_pheromones` (pheromones.c, lines 79-191). -/
def diffuse_pheromones (world : World) : World :=
  let temp_food : Int → Int → ℚ := fun y x => (world.grid y x).pheromone_food
  let temp_home : Int → Int → ℚ := fun y x => (world.grid y x).pheromone_home
  let grid := forRange world.height (fun y g =>
    forRange world.width (fun x g => diffuse_cell world temp_food temp_home x y g) g) world.grid
  { world with grid := grid }

/-! ## Rendering (`visualization.c`, `pheromones.c`)

Console output is modelled by its content: `render_cell` returns the cursor
position, the colour and the symbol it prints, and the ant it hands to
`render_ant`, if any. -/

def COLOR_BLACK : Int := 0
def COLOR_BLUE : Int := 1
def COLOR_GREEN : Int := 2
def COLOR_CYAN : Int := 3
def COLOR_RED : Int := 4
def COLOR_MAGENTA : Int := 5
def COLOR_YELLOW : Int := 6
def COLOR_WHITE : Int := 7
def COLOR_BRIGHT_BLUE : Int := 9
def COLOR_BRIGHT_GREEN : Int := 10
def COLOR_BRIGHT_CYAN : Int := 11
def COLOR_BRIGHT_RED : Int := 12
def COLOR_BRIGHT_MAGENTA : Int := 13
def COLOR_BRIGHT_YELLOW : Int := 14
def COLOR_BRIGHT_WHITE : Int := 15

/-- The function `get_pheromone_symbol` (pheromones.c, lines 294-300). -/
def get_pheromone_symbol (intensity : ℚ) : Char :=
  if intensity ≤ 0 then ' '
  else if intensity < PHEROMONE_MAX * (25 / 100) then '░'
  else if intensity < PHEROMONE_MAX * (5 / 10) then '▒'
  else if intensity < PHEROMONE_MAX * (75 / 100) then '▓'
  else '█'

/-- The function `get_pheromone_color` (pheromones.c, lines 302-308). -/
def get_pheromone_color (intensity : ℚ) : Int :=
  if intensity ≤ 0 then COLOR_WHITE
  else if intensity < PHEROMONE_MAX * (25 / 100) then COLOR_BLUE
  else if intensity < PHEROMONE_MAX * (5 / 10) then COLOR_CYAN
  else if intensity < PHEROMONE_MAX * (75 / 100) then COLOR_YELLOW
  else COLOR_BRIGHT_RED

/-- The function `get_terrain_color` (visualization.c, lines 236-245). -/
def get_terrain_color (terrain : TerrainType) : Int :=
  match terrain with
  | TerrainType.TERRAIN_EMPTY => COLOR_WHITE
  | TerrainType.TERRAIN_WALL => COLOR_BRIGHT_WHITE
  | TerrainType.TERRAIN_FOOD => COLOR_BRIGHT_GREEN
  | TerrainType.TERRAIN_NEST => COLOR_BRIGHT_YELLOW
  | TerrainType.TERRAIN_WATER => COLOR_BRIGHT_CYAN

/-- The function `get_colony_color` (visualization.c, lines 247-260); `%` is
the truncating remainder of C, and the comment in its body reads "Return
different colors for different colonies". -/
def get_colony_color (colony_id : Int) : Int :=
  let r := colony_id.tmod 8
  if r = 0 then COLOR_BRIGHT_RED
  else if r = 1 then COLOR_BRIGHT_BLUE
  else if r = 2 then COLOR_BRIGHT_GREEN
  else if r = 3 then COLOR_BRIGHT_MAGENTA
  else if r = 4 then COLOR_BRIGHT_CYAN
  else if r = 5 then COLOR_BRIGHT_YELLOW
  else if r = 6 then COLOR_BRIGHT_WHITE
  else if r = 7 then COLOR_BRIGHT_RED
  else COLOR_WHITE

/-- The function `get_terrain_symbol` (visualization.c, lines 265-274). -/
def get_terrain_symbol (terrain : TerrainType) : Char :=
  match terrain with
  | TerrainType.TERRAIN_EMPTY => ' '
  | TerrainType.TERRAIN_WALL => '█'
  | TerrainType.TERRAIN_FOOD => 'F'
  | TerrainType.TERRAIN_NEST => 'N'
  | TerrainType.TERRAIN_WATER => '~'

/-- The function `get_ant_symbol` (visualization.c, lines 276-284). -/
def get_ant_symbol (ant : Ant) : Char :=
  if ant.food_carrying > 0 then '●' else '•'

/-- The inner `while` loop of `render_cell` (lines 104-110): the first ant of
the list standing at `(x, y)` without the DEAD flag. -/
def first_living_at (x y : Int) : List Ant → Option Ant
  | [] => none
  | current :: next =>
    if current.pos.x = x ∧ current.pos.y = y ∧ ¬ (current.state &&& ANT_STATE_DEAD ≠ 0) then
      some current
    else first_living_at x y next

/-- The outer `for` loop of `render_cell` over the colonies (lines 102-113),
which stops at the first colony where an ant is found. -/
def search_colonies (x y : Int) : List Colony → Option Ant
  | [] => none
  | colony :: rest =>
    match first_living_at x y colony.ants_head with
    | some ant => some ant
    | none => search_colonies x y rest

/-- The colonies `colonies[0 .. colony_count - 1]` of the world. -/
def active_colonies (world : World) : List Colony :=
  world.colonies.take world.colony_count.toNat

/-- What `render_cell` puts on the console. -/
structure CellOutput where
  column : Int
  row : Int
  symbol : Char
  color : Int
  ant : Option Ant
deriving DecidableEq

/-- The function `render_cell` (visualization.c, lines 98-139), with
`render_ant` (lines 140-148) inlined in its first branch. -/
def render_cell (cell : Cell) (x y : Int) (world : World) : CellOutput :=
  let ant_at_position := search_colonies x y (active_colonies world)
  match ant_at_position with
  | some ant =>
    { column := x + 2, row := y + 2, symbol := get_ant_symbol ant,
      color := get_colony_color ant.colony_id, ant := some ant }
  | none =>
    let symbol := get_terrain_symbol cell.terrain
    let color := get_terrain_color cell.terrain
    if cell.terrain = TerrainType.TERRAIN_EMPTY then
      let max_pheromone :=
        if cell.pheromone_food > cell.pheromone_home then cell.pheromone_food
        else cell.pheromone_home
      if max_pheromone > 0 then
        { column := x + 2, row := y + 2, symbol := get_pheromone_symbol max_pheromone,
          color := get_pheromone_color max_pheromone, ant := none }
      else { column := x + 2, row := y + 2, symbol := symbol, color := color, ant := none }
    else { column := x + 2, row := y + 2, symbol := symbol, color := color, ant := none }

/-! ## Vocabulary of the statements -/

/-- The field named by a pheromone type: the food trail for
`PHEROMONE_TYPE_FOOD`, the home trail otherwise. -/
def field_of (type : Int) (cell : Cell) : ℚ :=
  if type = PHEROMONE_TYPE_FOOD then cell.pheromone_food else cell.pheromone_home

/-- Every food-trail and home-trail value of the world is non-negative. -/
def pheromones_nonneg (world : World) : Prop :=
  ∀ x y : Int, is_valid_position world x y = true →
    0 ≤ (world.grid y x).pheromone_food ∧ 0 ≤ (world.grid y x).pheromone_home

/-- Every food-trail and home-trail value of the world lies in
`[0, PHEROMONE_MAX]`. -/
def pheromones_in_range (world : World) : Prop :=
  ∀ x y : Int, is_valid_position world x y = true →
    (0 ≤ (world.grid y x).pheromone_food ∧ (world.grid y x).pheromone_food ≤ PHEROMONE_MAX) ∧
    (0 ≤ (world.grid y x).pheromone_home ∧ (world.grid y x).pheromone_home ≤ PHEROMONE_MAX)

/-- The eight offsets `(dx, dy)` of the Moore neighbourhood, in the order in
which `forNeighbors` visits them. -/
def neighbor_offsets : List (Int × Int) :=
  [(-1, -1), (0, -1), (1, -1), (-1, 0), (1, 0), (-1, 1), (0, 1), (1, 1)]

/-- The cell `(x + dx, y + dy)` is an in-bounds Moore neighbour of `(x, y)`. -/
def is_neighbor (world : World) (x y dx dy : Int) : Prop :=
  (dx, dy) ∈ neighbor_offsets ∧ is_valid_position world (x + dx) (y + dy) = true

instance (world : World) (x y dx dy : Int) : Decidable (is_neighbor world x y dx dy) := by
  unfold is_neighbor; infer_instance

/-- A test world of the given size: empty terrain, no colonies, and the trail
values given by the two functions of `y` and `x`. -/
def mk_world (width height : Int) (food home : Int → Int → ℚ) : World :=
  { width := width, height := height,
    grid := fun y x => { terrain := TerrainType.TERRAIN_EMPTY, pheromone_food := food y x,
                         pheromone_home := home y x, food_amount := 0, colony_id := 0,
                         has_colony := 0, has_food := 0 },
    colonies := [], colony_count := 0, current_step := 0, is_running := 0, paused := 0,
    render_delay_ms := 0 }

/-- A test ant standing at `(x, y)` with the given state flags. -/
def mk_ant (x y : Int) (state : Nat) : Ant :=
  { id := 0, pos := ⟨x, y⟩, last_pos := ⟨x, y⟩, position := ⟨x, y⟩, state := state,
    colony_id := 0, energy := 1000, food_carrying := 0, steps_taken := 0,
    food_delivered := 0, food_collected := 0, pheromone_strength := 1,
    exploration_rate := 0, path_history := [] }

/-- A 3x3 test world whose cell `(x, y)` holds `3 * y + x` on the food trail and
`x` on the home trail. -/
def ramp_world : World :=
  mk_world 3 3 (fun y x => ((3 * y + x : Int) : ℚ)) (fun _ x => ((x : Int) : ℚ))

/-- The in-bounds positions `(x, y)` of a `width` by `height` grid. -/
def cells (width height : Int) : Finset (Int × Int) :=
  Finset.Ico 0 width ×ˢ Finset.Ico 0 height

/-- The positions a row-major sweep has visited when it stands in row `y`
before column `k`. -/
def visited (width height y k : Int) : Finset (Int × Int) :=
  (cells width height).filter (fun p => p.2 < y ∨ (p.2 = y ∧ p.1 < k))

/-! ## Instrumented diffusion

The same computation as `diffuse_cell` and `diffuse_pheromones`, carrying two
flags next to the live grid: `capped` becomes true when a "Cap at maximum"
branch (lines 159-164) is taken, `floored` when an "Ensure we don't go below 0"
branch (lines 174-179) is taken. -/

/-- A cap branch of `receive_transfer` is taken. -/
def receive_caps (cell : Cell) (food_transfer home_transfer : ℚ) : Bool :=
  decide (cell.pheromone_food + food_transfer > PHEROMONE_MAX) ||
    decide (cell.pheromone_home + home_transfer > PHEROMONE_MAX)

/-- A floor branch of `remove_transferred` is taken. -/
def remove_floors (cell : Cell) (food_transfer home_transfer : ℚ) (n : Int) : Bool :=
  decide (cell.pheromone_food - food_transfer * n < 0) ||
    decide (cell.pheromone_home - home_transfer * n < 0)

/-- The instrumented copy of `transfer_to_neighbors`; the state is
`(grid, capped)`. -/
def transfer_to_neighbors_traced (world : World) (x y : Int) (food_transfer home_transfer : ℚ)
    (r : (Int → Int → Cell) × Bool) : (Int → Int → Cell) × Bool :=
  forNeighbors (fun dx dy r =>
    let nx := x + dx
    let ny := y + dy
    if is_valid_position world nx ny then
      (setCell r.1 ny nx (receive_transfer (r.1 ny nx) food_transfer home_transfer),
       r.2 || receive_caps (r.1 ny nx) food_transfer home_transfer)
    else r) r

/-- One iteration of the loop of `transfer_to_neighbors_traced`, for the
offset `d = (dx, dy)`. -/
def transfer_step (world : World) (x y : Int) (food_transfer home_transfer : ℚ)
    (r : (Int → Int → Cell) × Bool) (d : Int × Int) : (Int → Int → Cell) × Bool :=
  if is_valid_position world (x + d.1) (y + d.2) then
    (setCell r.1 (y + d.2) (x + d.1)
       (receive_transfer (r.1 (y + d.2) (x + d.1)) food_transfer home_transfer),
     r.2 || receive_caps (r.1 (y + d.2) (x + d.1)) food_transfer home_transfer)
  else r

/-- The instrumented copy of `diffuse_cell`; the state is
`(grid, capped, floored)`. -/
def diffuse_cell_traced (world : World) (temp_food temp_home : Int → Int → ℚ)
    (x y : Int) (s : (Int → Int → Cell) × Bool × Bool) : (Int → Int → Cell) × Bool × Bool :=
  let n := neighbor_count world x y
  if n > 0 then
    let food_transfer := temp_food y x * PHEROMONE_DIFFUSION_RATE / n
    let home_transfer := temp_home y x * PHEROMONE_DIFFUSION_RATE / n
    let r := transfer_to_neighbors_traced world x y food_transfer home_transfer (s.1, s.2.1)
    (setCell r.1 y x (remove_transferred (r.1 y x) food_transfer home_transfer n),
     r.2,
     s.2.2 || remove_floors (r.1 y x) food_transfer home_transfer n)
  else s

/-- The instrumented copy of `diffuse_pheromones`: the final grid and the two
flags. -/
def diffuse_pheromones_traced (world : World) : (Int → Int → Cell) × Bool × Bool :=
  let temp_food : Int → Int → ℚ := fun y x => (world.grid y x).pheromone_food
  let temp_home : Int → Int → ℚ := fun y x => (world.grid y x).pheromone_home
  forRange world.height (fun y s =>
    forRange world.width (fun x s => diffuse_cell_traced world temp_food temp_home x y s) s)
    (world.grid, false, false)

/-! ## One field at a time

The effect of one step of the main loop of `diffuse_pheromones` on a single
field, in closed form. -/

/-- The amount each in-bounds neighbour of `(x, y)` receives:
`temp[y][x] * PHEROMONE_DIFFUSION_RATE / neighbor_count`. -/
def transfer (world : World) (temp : Int → Int → ℚ) (x y : Int) : ℚ :=
  temp y x * PHEROMONE_DIFFUSION_RATE / neighbor_count world x y

/-- The field `f` after the step of the main loop at `(x, y)`: the source
loses `transfer * neighbor_count` (floored at 0), each in-bounds neighbour
gains `transfer` (capped at `PHEROMONE_MAX`). -/
def diffuse_cell_field (world : World) (temp : Int → Int → ℚ) (x y : Int)
    (f : Int → Int → ℚ) : Int → Int → ℚ :=
  fun y' x' =>
    if neighbor_count world x y > 0 then
      if y' = y ∧ x' = x then
        (if f y x - transfer world temp x y * neighbor_count world x y < 0 then 0
         else f y x - transfer world temp x y * neighbor_count world x y)
      else if (x' - x, y' - y) ∈ neighbor_offsets ∧ is_valid_position world x' y' = true then
        (if f y' x' + transfer world temp x y > PHEROMONE_MAX then PHEROMONE_MAX
         else f y' x' + transfer world temp x y)
      else f y' x'
    else f y' x'

/-- The step at `(x, y)` takes a cap branch for the field `f`. -/
def cap_hit (world : World) (temp : Int → Int → ℚ) (x y : Int) (f : Int → Int → ℚ) : Prop :=
  neighbor_count world x y > 0 ∧
    ∃ d ∈ neighbor_offsets, is_valid_position world (x + d.1) (y + d.2) = true ∧
      f (y + d.2) (x + d.1) + transfer world temp x y > PHEROMONE_MAX

/-- The step at `(x, y)` takes the floor branch for the field `f`. -/
def floor_hit (world : World) (temp : Int → Int → ℚ) (x y : Int) (f : Int → Int → ℚ) : Prop :=
  neighbor_count world x y > 0 ∧
    f y x - transfer world temp x y * neighbor_count world x y < 0

/-- The food-trail field of a grid. -/
def food_of (g : Int → Int → Cell) : Int → Int → ℚ := fun y x => (g y x).pheromone_food

/-- The home-trail field of a grid. -/
def home_of (g : Int → Int → Cell) : Int → Int → ℚ := fun y x => (g y x).pheromone_home

/-- The sum of a field over the in-bounds positions of the world. -/
def field_sum (world : World) (f : Int → Int → ℚ) : ℚ :=
  ∑ p ∈ cells world.width world.height, f p.2 p.1

/-- What the source `(x, y)` hands out in total: `transfer * neighbor_count`. -/
def loss (world : World) (temp : Int → Int → ℚ) (x y : Int) : ℚ :=
  transfer world temp x y * neighbor_count world x y

/-- What `(x, y)` receives from its in-bounds Moore neighbours: the sum over
the neighbours `m` of `temp(m) * PHEROMONE_DIFFUSION_RATE / neighbor_count(m)`. -/
def received (world : World) (temp : Int → Int → ℚ) (x y : Int) : ℚ :=
  (neighbor_offsets.map (fun d =>
    if is_valid_position world (x + d.1) (y + d.2) then
      transfer world temp (x + d.1) (y + d.2) else 0)).sum

/-- What `(x, y)` receives from the sources in the set `S`. -/
def inflow (world : World) (temp : Int → Int → ℚ) (S : Finset (Int × Int)) (x y : Int) : ℚ :=
  ∑ m ∈ S, if (x - m.1, y - m.2) ∈ neighbor_offsets then transfer world temp m.1 m.2 else 0

/-- The invariant of the main loop of `diffuse_pheromones` for one field `f`
with snapshot `temp`, when the sources in `S` have been handled: values stay
in range, unhandled cells have not lost anything, the total never grows, and
each cell holds at most its snapshot value plus what it received minus what
it handed out, with equality as long as no cap branch was taken (`exact`). -/
structure field_inv (world : World) (temp : Int → Int → ℚ) (S : Finset (Int × Int))
    (f : Int → Int → ℚ) (exact : Prop) : Prop where
  range : ∀ x y, is_valid_position world x y = true → 0 ≤ f y x ∧ f y x ≤ PHEROMONE_MAX
  pending : ∀ x y, is_valid_position world x y = true → (x, y) ∉ S → temp y x ≤ f y x
  sum_le : field_sum world f ≤ field_sum world temp
  upper : ∀ x y, is_valid_position world x y = true →
    f y x ≤ temp y x + inflow world temp S x y - (if (x, y) ∈ S then loss world temp x y else 0)
  sum_eq : exact → field_sum world f = field_sum world temp
  value_eq : exact → ∀ x y, is_valid_position world x y = true →
    f y x = temp y x + inflow world temp S x y - (if (x, y) ∈ S then loss world temp x y else 0)

/-- No cell of the field `temp` can exceed the ceiling by what it receives:
its value plus the transfers from its neighbours is at most `PHEROMONE_MAX`. -/
def has_room (world : World) (temp : Int → Int → ℚ) : Prop :=
  ∀ x y, is_valid_position world x y = true →
    temp y x + received world temp x y ≤ PHEROMONE_MAX

/-- The content of the cell under an ant after `deposit_pheromone`, as a
function of the state flags of the ant and of the content before. -/
def deposit_cell (state : Nat) (cell : Cell) : Cell :=
  if state &&& ANT_STATE_SEARCHING ≠ 0 then
    { cell with pheromone_home := min (cell.pheromone_home + PHEROMONE_DEPOSIT_AMOUNT)
                                    PHEROMONE_MAX }
  else if state &&& ANT_STATE_RETURNING ≠ 0 then
    { cell with pheromone_food := min (cell.pheromone_food + PHEROMONE_DEPOSIT_AMOUNT)
                                    PHEROMONE_MAX }
  else cell

/-- The left-right mirror of a world: cell `(x, y)` holds what cell
`(width - 1 - x, y)` held. -/
def mirror_world (world : World) : World :=
  { world with grid := fun y x => world.grid y (world.width - 1 - x) }

/-- The value `m` is the global maximum of the field `f` over the in-bounds
cells of the world: it bounds every value and one cell holds it. -/
def is_field_max (world : World) (f : Int → Int → ℚ) (m : ℚ) : Prop :=
  (∀ x y, is_valid_position world x y = true → f y x ≤ m) ∧
  (∃ x y, is_valid_position world x y = true ∧ f y x = m)

/-- The ants of a list of colonies, in colony order and then list order. -/
def ants_in_order : List Colony → List Ant
  | [] => []
  | colony :: rest => colony.ants_head ++ ants_in_order rest

/-- The ant stands at `(x, y)` and its DEAD flag is clear. -/
def living_at (x y : Int) (ant : Ant) : Bool :=
  decide (ant.pos.x = x ∧ ant.pos.y = y ∧ ant.state &&& ANT_STATE_DEAD = 0)

/-- A test colony with the given id and ants. -/
def mk_colony (id : Int) (ants : List Ant) : Colony :=
  { id := id, nest_pos := ⟨0, 0⟩, position := ⟨0, 0⟩, food_collected := 0, total_ants := 0,
    active_ants := 0, ants_head := ants, ant_count := 0, efficiency_score := 0, color := 0,
    total_food_collected := 0, total_distance_traveled := 0, pheromone_strength := 0,
    exploration_rate := 0, territory_size := 0 }

/-- A 2x2 test world with two colonies: a dead ant and then a living one at
`(1, 1)` in the first, a living ant at `(0, 0)` and another at `(1, 1)` in the
second. -/
def colony_world : World :=
  { mk_world 2 2 (fun _ _ => 300) (fun _ _ => 0) with
    colonies := [mk_colony 0 [{ mk_ant 1 1 ANT_STATE_DEAD with id := 1 },
                              { mk_ant 1 1 ANT_STATE_SEARCHING with id := 2 }],
                 mk_colony 1 [{ mk_ant 0 0 ANT_STATE_RETURNING with id := 3, colony_id := 1 },
                              { mk_ant 1 1 ANT_STATE_SEARCHING with id := 4, colony_id := 1 }]]
    colony_count := 2 }

/-- The second world differs from the first in pheromone values only: the grid
size, the colonies with their ants, the step counter, the run and pause flags
and the render delay are equal, and so are the terrain, the food amount, the
colony id and the two presence flags of every cell. -/
def same_frame (before after : World) : Prop :=
  after.width = before.width ∧ after.height = before.height ∧
  after.colonies = before.colonies ∧ after.colony_count = before.colony_count ∧
  after.current_step = before.current_step ∧ after.is_running = before.is_running ∧
  after.paused = before.paused ∧ after.render_delay_ms = before.render_delay_ms ∧
  ∀ y x : Int,
    (after.grid y x).terrain = (before.grid y x).terrain ∧
    (after.grid y x).food_amount = (before.grid y x).food_amount ∧
    (after.grid y x).colony_id = (before.grid y x).colony_id ∧
    (after.grid y x).has_colony = (before.grid y x).has_colony ∧
    (after.grid y x).has_food = (before.grid y x).has_food

/-- The part of a grid that is not pheromone: terrain, food amount, colony id
and presence flags of every cell. -/
def ground_of (g : Int → Int → Cell) : Int → Int → TerrainType × Int × Int × Int × Int :=
  fun y x => ((g y x).terrain, (g y x).food_amount, (g y x).colony_id, (g y x).has_colony,
    (g y x).has_food)

/-! ## Rounded diffusion

The definitions above compute with exact rationals. The C code computes in
`float`: every product, quotient, sum and difference is rounded to binary32
(round to nearest, ties to even), and the constant `0.01f` is the binary32
value nearest to 1/100. The definitions below are `diffuse_pheromones` again
with a rounding function `rnd` applied after each arithmetic operation;
`round_f32` is the rounding of binary32. Values beyond the binary32 range do
not occur (no value of this program exceeds `PHEROMONE_MAX` plus one
transfer), and `round_f32` carries no infinity. The values stored in the
world before the pass are not rounded: the worlds the rounded pass is
evaluated on hold small integers, which are binary32 values. -/

/-- The number of halvings that bring `n` below 2, with `fuel` bounding the
recursion: for `fuel ≥ n` this is the position of the leading bit of `n`. -/
def log2_steps : Nat → Nat → Nat
  | 0, _ => 0
  | fuel + 1, n => if n < 2 then 0 else log2_steps fuel (n / 2) + 1

/-- The exponent `e` with `2 ^ e ≤ a < 2 ^ (e + 1)`, for `a > 0`: the
difference of the leading bit positions of numerator and denominator, or one
less. -/
def binade (a : ℚ) : Int :=
  let e0 : Int :=
    (log2_steps a.num.natAbs a.num.natAbs : Int) - (log2_steps a.den a.den : Int)
  if (2 : ℚ) ^ e0 ≤ a then e0 else e0 - 1

/-- Rounding to the nearest binary32 value, ties to even: 24 significant bits
in the binade of the argument, and the fixed spacing `2 ^ (-149)` below
`2 ^ (-126)`. -/
def round_f32 (q : ℚ) : ℚ :=
  if q = 0 then 0
  else
    let a : ℚ := if q < 0 then -q else q
    let e : Int := max (binade a) (-126)
    let ulp : ℚ := (2 : ℚ) ^ (e - 23)
    let t : ℚ := a / ulp
    let m : Int := t.num / t.den
    let r : ℚ := t - m
    let m : Int :=
      if r < 1 / 2 then m else if r > 1 / 2 then m + 1 else if m % 2 = 0 then m else m + 1
    (if q < 0 then -1 else 1) * m * ulp

/-- The update `receive_transfer` (lines 155-164) with rounded additions. -/
def receive_transfer_rounded (rnd : ℚ → ℚ) (cell : Cell) (food_transfer home_transfer : ℚ) :
    Cell :=
  let food := rnd (cell.pheromone_food + food_transfer)
  let home := rnd (cell.pheromone_home + home_transfer)
  let food := if food > PHEROMONE_MAX then PHEROMONE_MAX else food
  let home := if home > PHEROMONE_MAX then PHEROMONE_MAX else home
  { cell with pheromone_food := food, pheromone_home := home }

/-- The update `remove_transferred` (lines 170-179) with a rounded product
`transfer * neighbor_count` and a rounded subtraction. -/
def remove_transferred_rounded (rnd : ℚ → ℚ) (cell : Cell) (food_transfer home_transfer : ℚ)
    (n : Int) : Cell :=
  let food := rnd (cell.pheromone_food - rnd (food_transfer * n))
  let home := rnd (cell.pheromone_home - rnd (home_transfer * n))
  let food := if food < 0 then 0 else food
  let home := if home < 0 then 0 else home
  { cell with pheromone_food := food, pheromone_home := home }

/-- The transfer loop `transfer_to_neighbors` (lines 147-167) with rounding. -/
def transfer_to_neighbors_rounded (rnd : ℚ → ℚ) (world : World) (x y : Int)
    (food_transfer home_transfer : ℚ) (g : Int → Int → Cell) : Int → Int → Cell :=
  forNeighbors (fun dx dy g =>
    let nx := x + dx
    let ny := y + dy
    if is_valid_position world nx ny then
      setCell g ny nx (receive_transfer_rounded rnd (g ny nx) food_transfer home_transfer)
    else g) g

/-- The body `diffuse_cell` of the main loop (lines 121-180) with rounding:
the transfer is the rounded quotient of the rounded product
`temp * PHEROMONE_DIFFUSION_RATE` by the neighbour count, and the rate itself
is the rounded constant. -/
def diffuse_cell_rounded (rnd : ℚ → ℚ) (world : World) (temp_food temp_home : Int → Int → ℚ)
    (x y : Int) (g : Int → Int → Cell) : Int → Int → Cell :=
  let n := neighbor_count world x y
  if n > 0 then
    let food_transfer := rnd (rnd (temp_food y x * rnd PHEROMONE_DIFFUSION_RATE) / n)
    let home_transfer := rnd (rnd (temp_home y x * rnd PHEROMONE_DIFFUSION_RATE) / n)
    let g := transfer_to_neighbors_rounded rnd world x y food_transfer home_transfer g
    setCell g y x (remove_transferred_rounded rnd (g y x) food_transfer home_transfer n)
  else g

/-- The function `diffuse_pheromones` (lines 79-191) with rounding. -/
def diffuse_pheromones_rounded (rnd : ℚ → ℚ) (world : World) : World :=
  let temp_food : Int → Int → ℚ := fun y x => (world.grid y x).pheromone_food
  let temp_home : Int → Int → ℚ := fun y x => (world.grid y x).pheromone_home
  let grid := forRange world.height (fun y g =>
    forRange world.width (fun x g =>
      diffuse_cell_rounded rnd world temp_food temp_home x y g) g) world.grid
  { world with grid := grid }

/-- The function `diffuse_pheromones` in binary32 arithmetic, as the C code
computes it. -/
def diffuse_pheromones_f32 (world : World) : World :=
  diffuse_pheromones_rounded round_f32 world

/-- A 2x1 test world holding 0 and 1 on the food trail and 0 on the home
trail. -/
def unit_pair_world : World :=
  mk_world 2 1 (fun _ x => ((x : Int) : ℚ)) (fun _ _ => 0)

/-! ## Loop lemmas -/

theorem forRange_of_nonpos {σ : Type} (n : Int) (h : n ≤ 0) (body : Int → σ → σ) (s : σ) :
    forRange n body s = s := by
  have : n.toNat = 0 := by omega
  simp [forRange, this]

theorem forRange_succ {σ : Type} (n : Nat) (body : Int → σ → σ) (s : σ) :
    forRange ((n : Int) + 1) body s = body n (forRange n body s) := by
  have h1 : ((n : Int) + 1).toNat = n + 1 := by omega
  simp [forRange, h1, List.range_succ, List.foldl_append]

theorem forRange_zero {σ : Type} (body : Int → σ → σ) (s : σ) :
    forRange ((0 : Nat) : Int) body s = s := by
  simp [forRange]

/-- A sweep over one row that rewrites each cell from its own content. -/
theorem forRange_row (f : Cell → Cell) (W y : Int) (g : Int → Int → Cell) :
    forRange W (fun x g => setCell g y x (f (g y x))) g
      = fun y' x' => if y' = y ∧ 0 ≤ x' ∧ x' < W then f (g y' x') else g y' x' := by
  rcases le_or_lt W 0 with h | h
  · rw [forRange_of_nonpos _ h]
    funext y' x'
    have : ¬ (y' = y ∧ 0 ≤ x' ∧ x' < W) := by omega
    simp [this]
  · obtain ⟨k, rfl⟩ : ∃ k : Nat, W = k := ⟨W.toNat, by omega⟩
    clear h
    induction k with
    | zero =>
      rw [forRange_zero]
      funext y' x'
      rw [if_neg]
      omega
    | succ k ih =>
      have : ((k + 1 : Nat) : Int) = (k : Int) + 1 := by push_cast; rfl
      rw [this, forRange_succ, ih]
      funext y' x'
      simp only [setCell]
      by_cases hy : y' = y
      · subst hy
        by_cases hx : x' = (k : Int)
        · subst hx; simp
        · by_cases hx2 : 0 ≤ x' ∧ x' < (k : Int)
          · have : 0 ≤ x' ∧ x' < (k : Int) + 1 := by omega
            simp [hx, hx2, this]
          · have : ¬ (0 ≤ x' ∧ x' < (k : Int) + 1) := by omega
            simp [hx, hx2, this]
      · simp [hy]

/-- A sweep over the whole grid that rewrites each cell from its own content. -/
theorem forRange_grid (f : Cell → Cell) (H W : Int) (g : Int → Int → Cell) :
    forRange H (fun y g => forRange W (fun x g => setCell g y x (f (g y x))) g) g
      = fun y' x' => if 0 ≤ y' ∧ y' < H ∧ 0 ≤ x' ∧ x' < W then f (g y' x') else g y' x' := by
  simp only [forRange_row]
  rcases le_or_lt H 0 with h | h
  · rw [forRange_of_nonpos _ h]
    funext y' x'
    have : ¬ (0 ≤ y' ∧ y' < H ∧ 0 ≤ x' ∧ x' < W) := by omega
    simp [this]
  · obtain ⟨k, rfl⟩ : ∃ k : Nat, H = k := ⟨H.toNat, by omega⟩
    clear h
    induction k with
    | zero =>
      rw [forRange_zero]
      funext y' x'
      rw [if_neg]
      omega
    | succ k ih =>
      have : ((k + 1 : Nat) : Int) = (k : Int) + 1 := by push_cast; rfl
      rw [this, forRange_succ, ih]
      funext y' x'
      by_cases hx : 0 ≤ x' ∧ x' < W
      · by_cases hy : y' = (k : Int)
        · subst hy; simp [hx]
        · by_cases hy2 : 0 ≤ y' ∧ y' < (k : Int)
          · have : 0 ≤ y' ∧ y' < (k : Int) + 1 := by omega
            simp [hx, hy, hy2, this]
          · have : ¬ (0 ≤ y' ∧ y' < (k : Int) + 1) := by omega
            have h3 : ¬ (0 ≤ y' ∧ y' < (k : Int) ∧ 0 ≤ x' ∧ x' < W) := by omega
            have h4 : ¬ (0 ≤ y' ∧ y' < (k : Int) + 1 ∧ 0 ≤ x' ∧ x' < W) := by omega
            simp [hy, h3, h4]
      · have h3 : ¬ (0 ≤ y' ∧ y' < (k : Int) ∧ 0 ≤ x' ∧ x' < W) := by omega
        have h4 : ¬ (0 ≤ y' ∧ y' < (k : Int) + 1 ∧ 0 ≤ x' ∧ x' < W) := by omega
        have h5 : ¬ (y' = (k : Int) ∧ 0 ≤ x' ∧ x' < W) := by omega
        simp [h3, h4, h5]

theorem is_valid_position_iff (world : World) (x y : Int) :
    is_valid_position world x y = true ↔
      0 ≤ x ∧ x < world.width ∧ 0 ≤ y ∧ y < world.height := by
  simp [is_valid_position, and_assoc]

/-! ## Deposit at a position -/

theorem get_cell_of_valid (world : World) (x y : Int)
    (h : is_valid_position world x y = true) :
    get_cell world x y = some (world.grid y x) := by
  simp [get_cell, h]

theorem get_cell_of_invalid (world : World) (x y : Int)
    (h : is_valid_position world x y = false) :
    get_cell world x y = none := by
  simp [get_cell, h]

theorem is_valid_position_eq_false (world : World) (x y : Int)
    (h : x < 0 ∨ x ≥ world.width ∨ y < 0 ∨ y ≥ world.height) :
    is_valid_position world x y = false := by
  rw [← Bool.not_eq_true, is_valid_position_iff]
  omega

theorem setCell_same (g : Int → Int → Cell) (y x : Int) (c : Cell) :
    setCell g y x c y x = c := by
  simp [setCell]

theorem setCell_other (g : Int → Int → Cell) (y x y' x' : Int) (c : Cell)
    (h : ¬ (y' = y ∧ x' = x)) : setCell g y x c y' x' = g y' x' := by
  simp only [setCell, if_neg h]

/-- The named field after a deposit at an in-bounds position: the old value
plus the amount, capped from above only. -/
theorem deposit_at_field (world : World) (x y type : Int) (amount : ℚ)
    (hv : is_valid_position world x y = true)
    (ht : type = PHEROMONE_TYPE_FOOD ∨ type = PHEROMONE_TYPE_HOME) :
    field_of type ((deposit_pheromone_at_position world x y type amount).grid y x)
      = min (field_of type (world.grid y x) + amount) PHEROMONE_MAX := by
  rcases ht with rfl | rfl
  · simp only [deposit_pheromone_at_position, hv, get_cell_of_valid, field_of, setCell]
    simp only [Bool.not_true, Bool.false_eq_true, if_false, if_true, setCell_same]
    split_ifs with h
    · exact (min_eq_right (le_of_lt h)).symm
    · exact (min_eq_left (not_lt.mp h)).symm
  · have hne : PHEROMONE_TYPE_HOME ≠ PHEROMONE_TYPE_FOOD := by decide
    simp only [deposit_pheromone_at_position, hv, get_cell_of_valid, field_of, setCell, hne]
    simp only [Bool.not_true, Bool.false_eq_true, if_false, if_true, setCell_same]
    split_ifs with h
    · exact (min_eq_right (le_of_lt h)).symm
    · exact (min_eq_left (not_lt.mp h)).symm

theorem mk_world_in_range (width height : Int) (food home : Int → Int → ℚ)
    (hf : ∀ y x, 0 ≤ food y x ∧ food y x ≤ PHEROMONE_MAX)
    (hh : ∀ y x, 0 ≤ home y x ∧ home y x ≤ PHEROMONE_MAX) :
    pheromones_in_range (mk_world width height food home) := by
  intro x y _
  exact ⟨hf y x, hh y x⟩

theorem mk_world_const_in_range (width height : Int) (a b : ℚ)
    (ha : 0 ≤ a ∧ a ≤ 1000) (hb : 0 ≤ b ∧ b ≤ 1000) :
    pheromones_in_range (mk_world width height (fun _ _ => a) (fun _ _ => b)) :=
  mk_world_in_range _ _ _ _ (fun _ _ => ha) (fun _ _ => hb)

theorem pheromones_in_range.nonneg {world : World} (h : pheromones_in_range world) :
    pheromones_nonneg world :=
  fun x y hv => ⟨(h x y hv).1.1, (h x y hv).2.1⟩

theorem field_of_range {world : World} (h : pheromones_in_range world) (x y type : Int)
    (hv : is_valid_position world x y = true) :
    0 ≤ field_of type (world.grid y x) ∧ field_of type (world.grid y x) ≤ PHEROMONE_MAX := by
  unfold field_of
  split_ifs
  · exact (h x y hv).1
  · exact (h x y hv).2

/-! ## C2: the deposit clamps from above only -/

/-- C2, as stated, fails: on a 1x1 world holding 0, depositing the amount -1
on the food trail leaves the value -1, below the range `[0, PHEROMONE_MAX]`. -/
theorem deposit_at_position_negative_amount :
    pheromones_in_range (mk_world 1 1 (fun _ _ => 0) (fun _ _ => 0)) ∧
    is_valid_position (mk_world 1 1 (fun _ _ => 0) (fun _ _ => 0)) 0 0 = true ∧
    ¬ (0 ≤ field_of PHEROMONE_TYPE_FOOD
        ((deposit_pheromone_at_position (mk_world 1 1 (fun _ _ => 0) (fun _ _ => 0)) 0 0
            PHEROMONE_TYPE_FOOD (-1)).grid 0 0)) := by
  refine ⟨mk_world_const_in_range 1 1 0 0 (by norm_num) (by norm_num), by decide, ?_⟩
  rw [deposit_at_field _ _ _ _ _ (by decide) (Or.inl rfl)]
  norm_num [field_of, mk_world, PHEROMONE_MAX]

/-- C2 (amended): for a world with values in `[0, PHEROMONE_MAX]`, an in-bounds
position, either type and any amount, the named field after
`deposit_pheromone_at_position` is `min (v + amount) PHEROMONE_MAX`; it never
exceeds `PHEROMONE_MAX`, and it is non-negative exactly when `v + amount` is,
in particular for every non-negative amount. -/
theorem deposit_at_position_clamps_above (world : World) (x y type : Int) (amount : ℚ)
    (hr : pheromones_in_range world)
    (hv : is_valid_position world x y = true)
    (ht : type = PHEROMONE_TYPE_FOOD ∨ type = PHEROMONE_TYPE_HOME) :
    field_of type ((deposit_pheromone_at_position world x y type amount).grid y x)
        = min (field_of type (world.grid y x) + amount) PHEROMONE_MAX ∧
    field_of type ((deposit_pheromone_at_position world x y type amount).grid y x)
        ≤ PHEROMONE_MAX ∧
    (0 ≤ field_of type ((deposit_pheromone_at_position world x y type amount).grid y x)
        ↔ 0 ≤ field_of type (world.grid y x) + amount) ∧
    (0 ≤ amount →
      0 ≤ field_of type ((deposit_pheromone_at_position world x y type amount).grid y x)) := by
  have hmax : (0 : ℚ) ≤ PHEROMONE_MAX := by norm_num [PHEROMONE_MAX]
  have hfr := field_of_range hr x y type hv
  rw [deposit_at_field world x y type amount hv ht]
  refine ⟨rfl, min_le_right _ _, ?_, ?_⟩
  · constructor
    · intro h
      exact le_trans h (min_le_left _ _)
    · intro h
      exact le_min h hmax
  · intro ha
    exact le_min (add_nonneg hfr.1 ha) hmax

theorem deposit_at_position_clamps_above_witness :
    field_of PHEROMONE_TYPE_HOME
        ((deposit_pheromone_at_position (mk_world 2 2 (fun _ _ => 950) (fun _ _ => 950)) 1 0
            PHEROMONE_TYPE_HOME 70).grid 0 1) ≤ PHEROMONE_MAX ∧
    0 ≤ field_of PHEROMONE_TYPE_HOME
        ((deposit_pheromone_at_position (mk_world 2 2 (fun _ _ => 950) (fun _ _ => 950)) 1 0
            PHEROMONE_TYPE_HOME 70).grid 0 1) :=
  have h := deposit_at_position_clamps_above
    (mk_world 2 2 (fun _ _ => 950) (fun _ _ => 950)) 1 0 PHEROMONE_TYPE_HOME 70
    (mk_world_const_in_range 2 2 950 950 (by norm_num) (by norm_num)) (by decide)
    (Or.inr rfl)
  ⟨h.2.1, h.2.2.2 (by norm_num)⟩

/-! ## C3: the exact value of a deposit -/

/-- C3: for an in-bounds cell whose named field holds `v` in
`[0, PHEROMONE_MAX]` and an amount `A ≥ 0`, `deposit_pheromone_at_position`
leaves the field at `min (v + A) PHEROMONE_MAX`: exactly `v + A` when
`v < PHEROMONE_MAX - A`, exactly `PHEROMONE_MAX` when `v ≥ PHEROMONE_MAX`;
and `get_pheromone_intensity` then returns that value. -/
theorem deposit_at_position_exact (world : World) (x y type : Int) (v A : ℚ)
    (hv : is_valid_position world x y = true)
    (ht : type = PHEROMONE_TYPE_FOOD ∨ type = PHEROMONE_TYPE_HOME)
    (hval : field_of type (world.grid y x) = v)
    (_h0 : 0 ≤ v) (_h1 : v ≤ PHEROMONE_MAX) (hA : 0 ≤ A) :
    field_of type ((deposit_pheromone_at_position world x y type A).grid y x)
        = min (v + A) PHEROMONE_MAX ∧
    (v < PHEROMONE_MAX - A →
      field_of type ((deposit_pheromone_at_position world x y type A).grid y x) = v + A) ∧
    (v ≥ PHEROMONE_MAX →
      field_of type ((deposit_pheromone_at_position world x y type A).grid y x)
        = PHEROMONE_MAX) ∧
    get_pheromone_intensity (deposit_pheromone_at_position world x y type A) x y type
        = min (v + A) PHEROMONE_MAX := by
  have hf := deposit_at_field world x y type A hv ht
  rw [hval] at hf
  have hvalid' : is_valid_position (deposit_pheromone_at_position world x y type A) x y
      = true := by
    have hw : (deposit_pheromone_at_position world x y type A).width = world.width
        ∧ (deposit_pheromone_at_position world x y type A).height = world.height := by
      simp only [deposit_pheromone_at_position, hv, get_cell_of_valid]
      split_ifs <;> exact ⟨rfl, rfl⟩
    rw [is_valid_position_iff] at hv ⊢
    rw [hw.1, hw.2]
    exact hv
  refine ⟨hf, ?_, ?_, ?_⟩
  · intro hlt
    rw [hf]
    exact min_eq_left (by linarith)
  · intro hge
    rw [hf]
    exact min_eq_right (by linarith)
  · rw [← hf]
    rcases ht with rfl | rfl
    · simp [get_pheromone_intensity, hvalid', field_of]
    · have hne : PHEROMONE_TYPE_HOME ≠ PHEROMONE_TYPE_FOOD := by decide
      simp [get_pheromone_intensity, hvalid', field_of, hne]

theorem deposit_at_position_exact_witness :
    field_of PHEROMONE_TYPE_FOOD
        ((deposit_pheromone_at_position (mk_world 3 2 (fun _ _ => 40) (fun _ _ => 7)) 2 1
            PHEROMONE_TYPE_FOOD 25).grid 1 2) = 40 + 25 ∧
    get_pheromone_intensity
        (deposit_pheromone_at_position (mk_world 3 2 (fun _ _ => 40) (fun _ _ => 7)) 2 1
            PHEROMONE_TYPE_FOOD 25) 2 1 PHEROMONE_TYPE_FOOD = min (40 + 25) PHEROMONE_MAX :=
  have h := deposit_at_position_exact
    (mk_world 3 2 (fun _ _ => 40) (fun _ _ => 7)) 2 1 PHEROMONE_TYPE_FOOD 40 25
    (by decide) (Or.inl rfl) (by simp [field_of, mk_world]) (by norm_num)
    (by norm_num [PHEROMONE_MAX]) (by norm_num)
  ⟨h.2.1 (by norm_num [PHEROMONE_MAX]), h.2.2.2⟩

/-! ## C4: out-of-bounds deposits -/

/-- C4: for a position that is not valid (`x < 0`, `x ≥ width`, `y < 0` or
`y ≥ height`), `deposit_pheromone_at_position` returns the world unchanged for
every type and amount, and `deposit_pheromone` returns the world unchanged for
every ant standing at such a position. -/
theorem deposit_out_of_bounds_noop (world : World) (x y : Int)
    (h : x < 0 ∨ x ≥ world.width ∨ y < 0 ∨ y ≥ world.height) :
    (∀ (type : Int) (amount : ℚ),
        deposit_pheromone_at_position world x y type amount = world) ∧
    (∀ ant : Ant, ant.pos = ⟨x, y⟩ → deposit_pheromone world ant = world) := by
  have hv := is_valid_position_eq_false world x y h
  constructor
  · intro type amount
    simp [deposit_pheromone_at_position, hv]
  · intro ant hp
    simp [deposit_pheromone, hp, get_cell_of_invalid world x y hv]

theorem deposit_out_of_bounds_noop_witness :
    deposit_pheromone_at_position (mk_world 4 3 (fun _ _ => 5) (fun _ _ => 6)) 4 1
        PHEROMONE_TYPE_FOOD 10 = mk_world 4 3 (fun _ _ => 5) (fun _ _ => 6) ∧
    deposit_pheromone (mk_world 4 3 (fun _ _ => 5) (fun _ _ => 6))
        (mk_ant 4 1 ANT_STATE_SEARCHING) = mk_world 4 3 (fun _ _ => 5) (fun _ _ => 6) :=
  have h := deposit_out_of_bounds_noop (mk_world 4 3 (fun _ _ => 5) (fun _ _ => 6)) 4 1
    (Or.inr (Or.inl (by simp [mk_world])))
  ⟨h.1 PHEROMONE_TYPE_FOOD 10, h.2 (mk_ant 4 1 ANT_STATE_SEARCHING) rfl⟩

/-! ## C5: the frame of a deposit -/

/-- C5: `deposit_pheromone_at_position` at an in-bounds position `(x, y)`
leaves every other cell unchanged, and in the cell `(x, y)` it leaves the
other pheromone field, the terrain, the food amount, the colony id and the two
presence flags unchanged; the rest of the world record is unchanged too. -/
theorem deposit_at_position_frame (world : World) (x y type : Int) (amount : ℚ)
    (hv : is_valid_position world x y = true) :
    (∀ x' y' : Int, ¬ (x' = x ∧ y' = y) →
        (deposit_pheromone_at_position world x y type amount).grid y' x'
          = world.grid y' x') ∧
    (type ≠ PHEROMONE_TYPE_FOOD →
        ((deposit_pheromone_at_position world x y type amount).grid y x).pheromone_food
          = (world.grid y x).pheromone_food) ∧
    (type ≠ PHEROMONE_TYPE_HOME →
        ((deposit_pheromone_at_position world x y type amount).grid y x).pheromone_home
          = (world.grid y x).pheromone_home) ∧
    ((deposit_pheromone_at_position world x y type amount).grid y x).terrain
        = (world.grid y x).terrain ∧
    ((deposit_pheromone_at_position world x y type amount).grid y x).food_amount
        = (world.grid y x).food_amount ∧
    ((deposit_pheromone_at_position world x y type amount).grid y x).colony_id
        = (world.grid y x).colony_id ∧
    ((deposit_pheromone_at_position world x y type amount).grid y x).has_colony
        = (world.grid y x).has_colony ∧
    ((deposit_pheromone_at_position world x y type amount).grid y x).has_food
        = (world.grid y x).has_food ∧
    (deposit_pheromone_at_position world x y type amount).width = world.width ∧
    (deposit_pheromone_at_position world x y type amount).height = world.height ∧
    (deposit_pheromone_at_position world x y type amount).colonies = world.colonies := by
  simp only [deposit_pheromone_at_position, hv, get_cell_of_valid]
  simp only [Bool.not_true, Bool.false_eq_true, if_false]
  refine ⟨?_, ?_, ?_, ?_, ?_, ?_, ?_, ?_, ?_, ?_, ?_⟩
  · intro x' y' hne
    have hne' : ¬ (y' = y ∧ x' = x) := fun h => hne ⟨h.2, h.1⟩
    split_ifs <;> simp only [setCell_other _ _ _ _ _ _ hne']
  · intro ht
    rw [if_neg ht]
    split_ifs <;> simp only [setCell_same]
  · intro ht
    split_ifs <;> simp only [setCell_same]
  all_goals split_ifs <;> simp only [setCell_same]

theorem deposit_at_position_frame_witness :
    (deposit_pheromone_at_position (mk_world 4 3 (fun _ _ => 5) (fun _ _ => 6)) 1 2
        PHEROMONE_TYPE_FOOD 30).grid 2 0
      = (mk_world 4 3 (fun _ _ => 5) (fun _ _ => 6)).grid 2 0 ∧
    ((deposit_pheromone_at_position (mk_world 4 3 (fun _ _ => 5) (fun _ _ => 6)) 1 2
        PHEROMONE_TYPE_FOOD 30).grid 2 1).pheromone_home = 6 :=
  have h := deposit_at_position_frame (mk_world 4 3 (fun _ _ => 5) (fun _ _ => 6)) 1 2
    PHEROMONE_TYPE_FOOD 30 (by decide)
  ⟨h.1 0 2 (by decide), h.2.2.1 (by decide)⟩

/-! ## C6: queries are total -/

theorem get_max_of_invalid (world : World) (x y type : Int)
    (h : is_valid_position world x y = false) :
    get_max_pheromone_neighbor world x y type = 0 := by
  simp [get_max_pheromone_neighbor, h]

/-- C6: `get_pheromone_intensity` returns the stored food trail (type
`PHEROMONE_TYPE_FOOD`) or home trail (type `PHEROMONE_TYPE_HOME`) of an
in-bounds position and 0 for an out-of-bounds one, and
`get_max_pheromone_neighbor` returns 0 for every out-of-bounds position. -/
theorem queries_total (world : World) (x y : Int) :
    (is_valid_position world x y = true →
        get_pheromone_intensity world x y PHEROMONE_TYPE_FOOD
            = (world.grid y x).pheromone_food ∧
        get_pheromone_intensity world x y PHEROMONE_TYPE_HOME
            = (world.grid y x).pheromone_home) ∧
    (is_valid_position world x y = false →
        ∀ type : Int, get_pheromone_intensity world x y type = 0 ∧
          get_max_pheromone_neighbor world x y type = 0) := by
  constructor
  · intro hv
    have hne : PHEROMONE_TYPE_HOME ≠ PHEROMONE_TYPE_FOOD := by decide
    simp [get_pheromone_intensity, hv, hne]
  · intro hv type
    exact ⟨by simp [get_pheromone_intensity, hv], get_max_of_invalid world x y type hv⟩

theorem queries_total_witness :
    (get_pheromone_intensity (mk_world 2 2 (fun _ _ => 5) (fun _ _ => 6)) 1 1
        PHEROMONE_TYPE_FOOD = 5 ∧
     get_pheromone_intensity (mk_world 2 2 (fun _ _ => 5) (fun _ _ => 6)) 1 1
        PHEROMONE_TYPE_HOME = 6) ∧
    (get_pheromone_intensity (mk_world 2 2 (fun _ _ => 5) (fun _ _ => 6)) 2 1
        PHEROMONE_TYPE_HOME = 0 ∧
     get_max_pheromone_neighbor (mk_world 2 2 (fun _ _ => 5) (fun _ _ => 6)) 2 1
        PHEROMONE_TYPE_HOME = 0) :=
  ⟨(queries_total (mk_world 2 2 (fun _ _ => 5) (fun _ _ => 6)) 1 1).1 (by decide),
   (queries_total (mk_world 2 2 (fun _ _ => 5) (fun _ _ => 6)) 2 1).2 (by decide)
     PHEROMONE_TYPE_HOME⟩

/-! ## C7: the neighbourhood maximum -/

theorem forNeighbors_eq {σ : Type} (body : Int → Int → σ → σ) (s : σ) :
    forNeighbors body s = neighbor_offsets.foldl (fun acc d => body d.1 d.2 acc) s := by
  simp [forNeighbors, deltas, neighbor_offsets]

/-- A running maximum over the selected elements of a list. -/
theorem foldl_max_spec {α : Type} (P : α → Bool) (v : α → ℚ) (l : List α) (s : ℚ) :
    let r := l.foldl (fun acc d => if P d then (if v d > acc then v d else acc) else acc) s
    s ≤ r ∧ (∀ d ∈ l, P d = true → v d ≤ r) ∧
      (r = s ∨ ∃ d ∈ l, P d = true ∧ r = v d) := by
  induction l generalizing s with
  | nil => simp
  | cons a l ih =>
    simp only [List.foldl_cons]
    have h := ih (if P a then (if v a > s then v a else s) else s)
    simp only at h ⊢
    obtain ⟨h1, h2, h3⟩ := h
    have hs : s ≤ (if P a then (if v a > s then v a else s) else s) := by
      split_ifs with hp hgt
      · exact le_of_lt hgt
      · exact le_refl _
      · exact le_refl _
    refine ⟨le_trans hs h1, ?_, ?_⟩
    · intro d hd hpd
      rcases List.mem_cons.mp hd with rfl | hd
      · refine le_trans ?_ h1
        rw [if_pos hpd]
        split_ifs with hgt
        · exact le_refl _
        · exact not_lt.mp hgt
      · exact h2 d hd hpd
    · rcases h3 with h3 | ⟨d, hd, hpd, hr⟩
      · by_cases hp : P a = true
        · by_cases hgt : v a > s
          · right
            refine ⟨a, List.mem_cons_self _ _, hp, ?_⟩
            rw [h3, if_pos hp, if_pos hgt]
          · left
            rw [h3, if_pos hp, if_neg hgt]
        · left
          rw [h3, if_neg hp]
      · exact Or.inr ⟨d, List.mem_cons_of_mem _ hd, hpd, hr⟩

theorem get_max_eq_foldl (world : World) (x y type : Int)
    (hv : is_valid_position world x y = true) :
    get_max_pheromone_neighbor world x y type
      = neighbor_offsets.foldl (fun acc d =>
          if is_valid_position world (x + d.1) (y + d.2) then
            (if get_pheromone_intensity world (x + d.1) (y + d.2) type > acc
              then get_pheromone_intensity world (x + d.1) (y + d.2) type else acc)
          else acc) 0 := by
  simp only [get_max_pheromone_neighbor, hv, forNeighbors_eq]
  simp

theorem get_intensity_of_valid (world : World) (x y type : Int)
    (hv : is_valid_position world x y = true)
    (ht : type = PHEROMONE_TYPE_FOOD ∨ type = PHEROMONE_TYPE_HOME) :
    get_pheromone_intensity world x y type = field_of type (world.grid y x) := by
  have hne : PHEROMONE_TYPE_HOME ≠ PHEROMONE_TYPE_FOOD := by decide
  rcases ht with rfl | rfl <;> simp [get_pheromone_intensity, hv, field_of, hne]

theorem field_of_nonneg {world : World} (h : pheromones_nonneg world) (x y type : Int)
    (hv : is_valid_position world x y = true) :
    0 ≤ field_of type (world.grid y x) := by
  unfold field_of
  split_ifs
  · exact (h x y hv).1
  · exact (h x y hv).2

theorem mem_neighbor_offsets (dx dy : Int) :
    (dx, dy) ∈ neighbor_offsets ↔
      (-1 ≤ dx ∧ dx ≤ 1) ∧ (-1 ≤ dy ∧ dy ≤ 1) ∧ ¬ (dx = 0 ∧ dy = 0) := by
  simp only [neighbor_offsets, List.mem_cons, Prod.mk.injEq, List.mem_singleton,
    List.not_mem_nil, or_false]
  omega

/-- An in-bounds cell has no in-bounds Moore neighbour exactly on a 1x1 grid. -/
theorem no_neighbor_iff (world : World) (x y : Int)
    (hv : is_valid_position world x y = true) :
    (¬ ∃ dx dy, is_neighbor world x y dx dy) ↔ (world.width = 1 ∧ world.height = 1) := by
  rw [is_valid_position_iff] at hv
  constructor
  · intro h
    by_contra hne
    apply h
    by_cases hw : world.width = 1
    · have hh : world.height ≠ 1 := fun hh => hne ⟨hw, hh⟩
      by_cases hy : y = 0
      · exact ⟨0, 1, (mem_neighbor_offsets 0 1).2 (by omega),
          (is_valid_position_iff _ _ _).2 (by omega)⟩
      · exact ⟨0, -1, (mem_neighbor_offsets 0 (-1)).2 (by omega),
          (is_valid_position_iff _ _ _).2 (by omega)⟩
    · by_cases hx : x = 0
      · exact ⟨1, 0, (mem_neighbor_offsets 1 0).2 (by omega),
          (is_valid_position_iff _ _ _).2 (by omega)⟩
      · exact ⟨-1, 0, (mem_neighbor_offsets (-1) 0).2 (by omega),
          (is_valid_position_iff _ _ _).2 (by omega)⟩
  · rintro ⟨hw, hh⟩ ⟨dx, dy, hmem, hvalid⟩
    rw [mem_neighbor_offsets] at hmem
    rw [is_valid_position_iff] at hvalid
    omega

/-- C7: for a world with non-negative values, an in-bounds `(x, y)` and either
type, `get_max_pheromone_neighbor` is the maximum of the named field over the
in-bounds Moore neighbours: it bounds each of them, it is attained by one of
them when there is one, and it is 0 when there is none, which happens exactly
on a 1x1 grid; the value stored in the centre cell has no influence. -/
theorem max_neighbor_is_moore_max (world : World) (x y type : Int)
    (hn : pheromones_nonneg world)
    (hv : is_valid_position world x y = true)
    (ht : type = PHEROMONE_TYPE_FOOD ∨ type = PHEROMONE_TYPE_HOME) :
    (∀ dx dy, is_neighbor world x y dx dy →
        field_of type (world.grid (y + dy) (x + dx))
          ≤ get_max_pheromone_neighbor world x y type) ∧
    ((∃ dx dy, is_neighbor world x y dx dy) →
        ∃ dx dy, is_neighbor world x y dx dy ∧
          get_max_pheromone_neighbor world x y type
            = field_of type (world.grid (y + dy) (x + dx))) ∧
    ((¬ ∃ dx dy, is_neighbor world x y dx dy) →
        get_max_pheromone_neighbor world x y type = 0) ∧
    ((¬ ∃ dx dy, is_neighbor world x y dx dy) ↔ (world.width = 1 ∧ world.height = 1)) ∧
    (∀ c : Cell,
        get_max_pheromone_neighbor { world with grid := setCell world.grid y x c } x y type
          = get_max_pheromone_neighbor world x y type) := by
  have hspec := foldl_max_spec
    (fun d : Int × Int => is_valid_position world (x + d.1) (y + d.2))
    (fun d : Int × Int => get_pheromone_intensity world (x + d.1) (y + d.2) type)
    neighbor_offsets 0
  simp only at hspec
  rw [← get_max_eq_foldl world x y type hv] at hspec
  obtain ⟨_, hub, hatt⟩ := hspec
  have hbound : ∀ dx dy, is_neighbor world x y dx dy →
      field_of type (world.grid (y + dy) (x + dx))
        ≤ get_max_pheromone_neighbor world x y type := by
    intro dx dy hnb
    have := hub (dx, dy) hnb.1 hnb.2
    rwa [get_intensity_of_valid world _ _ type hnb.2 ht] at this
  refine ⟨hbound, ?_, ?_, no_neighbor_iff world x y hv, ?_⟩
  · rintro ⟨dx, dy, hnb⟩
    rcases hatt with h0 | ⟨d, hd, hpd, hr⟩
    · refine ⟨dx, dy, hnb, ?_⟩
      have h1 := hbound dx dy hnb
      have h2 := field_of_nonneg hn (x + dx) (y + dy) type hnb.2
      rw [h0] at h1 ⊢
      exact le_antisymm h2 h1
    · refine ⟨d.1, d.2, ⟨hd, hpd⟩, ?_⟩
      rw [hr, get_intensity_of_valid world _ _ type hpd ht]
  · intro hnone
    rcases hatt with h0 | ⟨d, hd, hpd, _⟩
    · exact h0
    · exact absurd ⟨d.1, d.2, hd, hpd⟩ hnone
  · intro c
    have hv' : is_valid_position { world with grid := setCell world.grid y x c } x y
        = true := hv
    rw [get_max_eq_foldl _ x y type hv', get_max_eq_foldl world x y type hv]
    apply List.foldl_ext
    intro acc d hd
    have hd' := (mem_neighbor_offsets d.1 d.2).1 hd
    have hne : ¬ (y + d.2 = y ∧ x + d.1 = x) := by omega
    have hvd : is_valid_position { world with grid := setCell world.grid y x c }
        (x + d.1) (y + d.2) = is_valid_position world (x + d.1) (y + d.2) := rfl
    have hgi : get_pheromone_intensity { world with grid := setCell world.grid y x c }
        (x + d.1) (y + d.2) type
          = get_pheromone_intensity world (x + d.1) (y + d.2) type := by
      simp only [get_pheromone_intensity, hvd, setCell_other _ _ _ _ _ _ hne]
    rw [hvd, hgi]

theorem ramp_world_nonneg : pheromones_nonneg ramp_world := by
  intro x y hv
  rw [is_valid_position_iff] at hv
  have h1 : (0 : Int) ≤ 3 * y + x := by omega
  have h2 : (0 : Int) ≤ x := hv.1
  constructor
  · show (0 : ℚ) ≤ ((3 * y + x : Int) : ℚ)
    exact_mod_cast h1
  · show (0 : ℚ) ≤ ((x : Int) : ℚ)
    exact_mod_cast h2

theorem ramp_world_in_range : pheromones_in_range ramp_world := by
  intro x y hv
  rw [is_valid_position_iff] at hv
  have hw : ramp_world.width = 3 := rfl
  have hh : ramp_world.height = 3 := rfl
  rw [hw, hh] at hv
  have h1 : (0 : Int) ≤ 3 * y + x ∧ 3 * y + x ≤ 1000 := by omega
  have h2 : (0 : Int) ≤ x ∧ x ≤ 1000 := by omega
  refine ⟨⟨?_, ?_⟩, ⟨?_, ?_⟩⟩
  · show (0 : ℚ) ≤ ((3 * y + x : Int) : ℚ)
    exact_mod_cast h1.1
  · show ((3 * y + x : Int) : ℚ) ≤ 1000
    exact_mod_cast h1.2
  · show (0 : ℚ) ≤ ((x : Int) : ℚ)
    exact_mod_cast h2.1
  · show ((x : Int) : ℚ) ≤ 1000
    exact_mod_cast h2.2

theorem max_neighbor_is_moore_max_witness :
    field_of PHEROMONE_TYPE_FOOD (ramp_world.grid (1 + 1) (1 + 1))
        ≤ get_max_pheromone_neighbor ramp_world 1 1 PHEROMONE_TYPE_FOOD ∧
    get_max_pheromone_neighbor
        { ramp_world with grid := setCell ramp_world.grid 1 1 (ramp_world.grid 0 0) }
        1 1 PHEROMONE_TYPE_FOOD
      = get_max_pheromone_neighbor ramp_world 1 1 PHEROMONE_TYPE_FOOD :=
  have h := max_neighbor_is_moore_max ramp_world 1 1 PHEROMONE_TYPE_FOOD ramp_world_nonneg
    (by decide) (Or.inl rfl)
  ⟨h.1 1 1 ⟨by decide, by decide⟩, h.2.2.2.2 (ramp_world.grid 0 0)⟩

/-- A check of `get_max_pheromone_neighbor` by evaluation: around the centre
of the ramp world the largest neighbouring food trail is 8, at `(2, 2)`. -/
theorem get_max_ramp_world :
    get_max_pheromone_neighbor ramp_world 1 1 PHEROMONE_TYPE_FOOD = 8 := by
  rw [get_max_eq_foldl _ _ _ _ (by decide)]
  norm_num [neighbor_offsets, List.foldl, is_valid_position, get_pheromone_intensity,
    ramp_world, mk_world, PHEROMONE_TYPE_FOOD]

/-! ## Row-major sweeps -/

theorem mem_cells (W H : Int) (p : Int × Int) :
    p ∈ cells W H ↔ 0 ≤ p.1 ∧ p.1 < W ∧ 0 ≤ p.2 ∧ p.2 < H := by
  simp only [cells, Finset.mem_product, Finset.mem_Ico]
  tauto

theorem mem_cells_iff_valid (world : World) (x y : Int) :
    (x, y) ∈ cells world.width world.height ↔ is_valid_position world x y = true := by
  rw [mem_cells, is_valid_position_iff]

theorem mem_visited (W H y k : Int) (p : Int × Int) :
    p ∈ visited W H y k ↔
      (0 ≤ p.1 ∧ p.1 < W ∧ 0 ≤ p.2 ∧ p.2 < H) ∧ (p.2 < y ∨ (p.2 = y ∧ p.1 < k)) := by
  simp only [visited, Finset.mem_filter, mem_cells]

theorem visited_subset (W H y k : Int) : visited W H y k ⊆ cells W H :=
  Finset.filter_subset _ _

theorem visited_succ (W H y : Int) (k : Nat) (hk : (k : Int) < W) (hy : 0 ≤ y ∧ y < H) :
    visited W H y ((k : Int) + 1) = insert ((k : Int), y) (visited W H y k) := by
  ext ⟨a, b⟩
  simp only [mem_visited, Finset.mem_insert, Prod.mk.injEq]
  omega

theorem visited_row_end (W H y : Int) : visited W H y W = visited W H (y + 1) 0 := by
  ext ⟨a, b⟩
  simp only [mem_visited]
  omega

theorem visited_zero (W H : Int) : visited W H 0 0 = ∅ := by
  ext ⟨a, b⟩
  simp only [mem_visited, Finset.not_mem_empty, iff_false]
  omega

theorem visited_all (W H : Int) (_h : 0 ≤ H) : visited W H H 0 = cells W H := by
  ext ⟨a, b⟩
  simp only [mem_visited, mem_cells]
  omega

/-- Induction along the row-major double loop: a property of the set of visited
positions and the state that holds initially and is preserved by the body at
each new in-bounds position holds at the end for the set of all positions. -/
theorem sweep_induction {σ : Type} (W H : Int) (body : Int → Int → σ → σ)
    (I : Finset (Int × Int) → σ → Prop) (s0 : σ) (h0 : I ∅ s0)
    (hstep : ∀ (S : Finset (Int × Int)) (x y : Int) (s : σ),
      0 ≤ x → x < W → 0 ≤ y → y < H → (x, y) ∉ S → S ⊆ cells W H →
      I S s → I (insert (x, y) S) (body x y s)) :
    I (cells W H) (forRange H (fun y s => forRange W (fun x s => body x y s) s) s0) := by
  have hrow : ∀ (y : Int), 0 ≤ y → y < H → ∀ s, I (visited W H y 0) s →
      I (visited W H (y + 1) 0) (forRange W (fun x s => body x y s) s) := by
    intro y hy0 hyH s hs
    rcases le_or_lt W 0 with hW | hW
    · rw [forRange_of_nonpos _ hW]
      have : visited W H (y + 1) 0 = visited W H y 0 := by
        ext ⟨a, b⟩
        simp only [mem_visited]
        omega
      rw [this]
      exact hs
    · have key : ∀ k : Nat, (k : Int) ≤ W →
          I (visited W H y k) (forRange (k : Int) (fun x s => body x y s) s) := by
        intro k
        induction k with
        | zero =>
          intro _
          rw [forRange_zero]
          exact hs
        | succ k ih =>
          intro hk
          have hk' : (k : Int) < W := by push_cast at hk; omega
          have hcast : ((k + 1 : Nat) : Int) = (k : Int) + 1 := by push_cast; rfl
          rw [hcast, forRange_succ, visited_succ W H y k hk' ⟨hy0, hyH⟩]
          refine hstep _ _ _ _ (by omega) hk' hy0 hyH ?_ (visited_subset _ _ _ _)
            (ih (by omega))
          rw [mem_visited]
          simp only
          omega
      have hfin := key W.toNat (by omega)
      have hW' : ((W.toNat : Nat) : Int) = W := by omega
      rw [hW'] at hfin
      rw [← visited_row_end]
      exact hfin
  rcases le_or_lt H 0 with hH | hH
  · rw [forRange_of_nonpos _ hH]
    have : cells W H = ∅ := by
      ext ⟨a, b⟩
      simp only [mem_cells, Finset.not_mem_empty, iff_false]
      omega
    rw [this]
    exact h0
  · have key : ∀ j : Nat, (j : Int) ≤ H →
        I (visited W H j 0)
          (forRange (j : Int) (fun y s => forRange W (fun x s => body x y s) s) s0) := by
      intro j
      induction j with
      | zero =>
        intro _
        rw [forRange_zero]
        have : visited W H ((0 : Nat) : Int) 0 = ∅ := visited_zero W H
        rw [this]
        exact h0
      | succ j ih =>
        intro hj
        have hj' : (j : Int) < H := by push_cast at hj; omega
        have hcast : ((j + 1 : Nat) : Int) = (j : Int) + 1 := by push_cast; rfl
        rw [hcast, forRange_succ]
        exact hrow j (by omega) hj' _ (ih (by omega))
    have hfin := key H.toNat (by omega)
    have hH' : ((H.toNat : Nat) : Int) = H := by omega
    rw [hH'] at hfin
    rw [← visited_all W H (by omega)]
    exact hfin

/-! ## Diffusion: the instrumented run computes the same grid -/

theorem foldl_proj {α σ τ : Type} (π : σ → τ) (f : σ → α → σ) (g : τ → α → τ)
    (h : ∀ s a, π (f s a) = g (π s) a) (l : List α) (s : σ) :
    π (l.foldl f s) = l.foldl g (π s) := by
  induction l generalizing s with
  | nil => rfl
  | cons a l ih => simp only [List.foldl_cons, ih, h]

theorem forRange_proj {σ τ : Type} (π : σ → τ) (body : Int → σ → σ) (body' : Int → τ → τ)
    (h : ∀ i s, π (body i s) = body' i (π s)) (n : Int) (s : σ) :
    π (forRange n body s) = forRange n body' (π s) := by
  unfold forRange
  exact foldl_proj π _ _ (fun s a => h a s) _ s

theorem transfer_to_neighbors_traced_fst (world : World) (x y : Int) (ft ht : ℚ)
    (r : (Int → Int → Cell) × Bool) :
    (transfer_to_neighbors_traced world x y ft ht r).1
      = transfer_to_neighbors world x y ft ht r.1 := by
  unfold transfer_to_neighbors_traced transfer_to_neighbors
  rw [forNeighbors_eq, forNeighbors_eq]
  apply foldl_proj (fun r : (Int → Int → Cell) × Bool => r.1)
  intro s a
  simp only
  split_ifs <;> rfl

theorem diffuse_cell_traced_fst (world : World) (tf th : Int → Int → ℚ) (x y : Int)
    (s : (Int → Int → Cell) × Bool × Bool) :
    (diffuse_cell_traced world tf th x y s).1 = diffuse_cell world tf th x y s.1 := by
  unfold diffuse_cell_traced diffuse_cell
  simp only
  split_ifs with hn
  · simp only [transfer_to_neighbors_traced_fst]
  · rfl

/-- The instrumented run computes the grid of `diffuse_pheromones`. -/
theorem diffuse_pheromones_traced_fst (world : World) :
    (diffuse_pheromones_traced world).1 = (diffuse_pheromones world).grid := by
  unfold diffuse_pheromones_traced diffuse_pheromones
  simp only
  apply forRange_proj (fun s : (Int → Int → Cell) × Bool × Bool => s.1)
  intro y s
  apply forRange_proj (fun s : (Int → Int → Cell) × Bool × Bool => s.1)
  intro x s
  exact diffuse_cell_traced_fst _ _ _ _ _ _

/-! ## Diffusion: one step of the main loop in closed form -/

theorem neighbor_offsets_nodup : neighbor_offsets.Nodup := by
  decide

theorem transfer_to_neighbors_traced_eq (world : World) (x y : Int) (ft ht : ℚ)
    (r : (Int → Int → Cell) × Bool) :
    transfer_to_neighbors_traced world x y ft ht r
      = neighbor_offsets.foldl (transfer_step world x y ft ht) r := by
  unfold transfer_to_neighbors_traced
  rw [forNeighbors_eq]
  rfl

theorem transfer_step_grid (world : World) (x y : Int) (ft ht : ℚ)
    (r : (Int → Int → Cell) × Bool) (d : Int × Int) (y' x' : Int) :
    (transfer_step world x y ft ht r d).1 y' x'
      = if (x' - x, y' - y) = d ∧ is_valid_position world x' y' = true
        then receive_transfer (r.1 y' x') ft ht else r.1 y' x' := by
  unfold transfer_step
  by_cases heq : (x' - x, y' - y) = d
  · have hx : x + d.1 = x' := by rw [← heq]; simp
    have hy : y + d.2 = y' := by rw [← heq]; simp
    rw [hx, hy]
    by_cases hv : is_valid_position world x' y' = true
    · simp [heq, hv, setCell_same]
    · simp [hv]
  · have hne : ¬ (y' = y + d.2 ∧ x' = x + d.1) := by
      rintro ⟨h1, h2⟩
      apply heq
      rw [h1, h2]
      simp
    have hcond : ¬ ((x' - x, y' - y) = d ∧ is_valid_position world x' y' = true) :=
      fun h => heq h.1
    simp only [hcond, if_false]
    by_cases hv : is_valid_position world (x + d.1) (y + d.2) = true
    · simp only [hv, if_true]
      exact setCell_other _ _ _ _ _ _ hne
    · simp only [hv]
      rfl

theorem transfer_step_flag (world : World) (x y : Int) (ft ht : ℚ)
    (r : (Int → Int → Cell) × Bool) (d : Int × Int) :
    (transfer_step world x y ft ht r d).2 = true ↔
      (r.2 = true ∨ (is_valid_position world (x + d.1) (y + d.2) = true ∧
        receive_caps (r.1 (y + d.2) (x + d.1)) ft ht = true)) := by
  unfold transfer_step
  by_cases hv : is_valid_position world (x + d.1) (y + d.2) = true
  · simp [hv]
  · simp [hv]

/-- The transfer loop over a duplicate-free list of offsets: every in-bounds
target receives its transfer once, and the flag records the caps. -/
theorem transfer_fold_spec (world : World) (x y : Int) (ft ht : ℚ)
    (l : List (Int × Int)) (hl : l.Nodup) (r : (Int → Int → Cell) × Bool) :
    (∀ y' x', (l.foldl (transfer_step world x y ft ht) r).1 y' x'
        = if (x' - x, y' - y) ∈ l ∧ is_valid_position world x' y' = true
          then receive_transfer (r.1 y' x') ft ht else r.1 y' x') ∧
    ((l.foldl (transfer_step world x y ft ht) r).2 = true
        ↔ (r.2 = true ∨ ∃ d ∈ l, is_valid_position world (x + d.1) (y + d.2) = true ∧
              receive_caps (r.1 (y + d.2) (x + d.1)) ft ht = true)) := by
  induction l generalizing r with
  | nil => simp
  | cons a l ih =>
    have hnd := List.nodup_cons.mp hl
    simp only [List.foldl_cons]
    obtain ⟨ih1, ih2⟩ := ih hnd.2 (transfer_step world x y ft ht r a)
    constructor
    · intro y' x'
      rw [ih1, transfer_step_grid]
      by_cases heq : (x' - x, y' - y) = a
      · subst heq
        by_cases hv : is_valid_position world x' y' = true
        · simp [hnd.1, hv]
        · simp [hv]
      · have hmem : (x' - x, y' - y) ∈ a :: l ↔ (x' - x, y' - y) ∈ l := by
          simp [heq]
        have hcond : ¬ ((x' - x, y' - y) = a ∧ is_valid_position world x' y' = true) :=
          fun h => heq h.1
        simp only [hmem, hcond, if_false]
    · rw [ih2, transfer_step_flag]
      have hother : ∀ d ∈ l, (transfer_step world x y ft ht r a).1 (y + d.2) (x + d.1)
          = r.1 (y + d.2) (x + d.1) := by
        intro d hd
        rw [transfer_step_grid, if_neg]
        rintro ⟨h, _⟩
        apply hnd.1
        have : d = a := by
          rw [← h]
          exact Prod.ext (by simp) (by simp)
        rw [← this]
        exact hd
      simp only [List.mem_cons, exists_eq_or_imp]
      constructor
      · rintro (h | ⟨d, hd, hvd, hc⟩)
        · rcases h with h | h
          · exact Or.inl h
          · exact Or.inr (Or.inl h)
        · rw [hother d hd] at hc
          exact Or.inr (Or.inr ⟨d, hd, hvd, hc⟩)
      · rintro (h | h | ⟨d, hd, hvd, hc⟩)
        · exact Or.inl (Or.inl h)
        · exact Or.inl (Or.inr h)
        · refine Or.inr ⟨d, hd, hvd, ?_⟩
          rw [hother d hd]
          exact hc

theorem diffuse_cell_traced_of_no_neighbor (world : World) (tf th : Int → Int → ℚ)
    (x y : Int) (s : (Int → Int → Cell) × Bool × Bool)
    (hn : ¬ neighbor_count world x y > 0) :
    diffuse_cell_traced world tf th x y s = s := by
  unfold diffuse_cell_traced
  simp only [hn, if_false]

/-- The step of the main loop at a cell with neighbours, on whole cells. -/
theorem diffuse_cell_traced_spec (world : World) (tf th : Int → Int → ℚ)
    (x y : Int) (s : (Int → Int → Cell) × Bool × Bool)
    (hn : neighbor_count world x y > 0) :
    (∀ y' x', (diffuse_cell_traced world tf th x y s).1 y' x'
        = if y' = y ∧ x' = x then
            remove_transferred (s.1 y x)
              (tf y x * PHEROMONE_DIFFUSION_RATE / neighbor_count world x y)
              (th y x * PHEROMONE_DIFFUSION_RATE / neighbor_count world x y)
              (neighbor_count world x y)
          else if (x' - x, y' - y) ∈ neighbor_offsets ∧ is_valid_position world x' y' = true
          then receive_transfer (s.1 y' x')
              (tf y x * PHEROMONE_DIFFUSION_RATE / neighbor_count world x y)
              (th y x * PHEROMONE_DIFFUSION_RATE / neighbor_count world x y)
          else s.1 y' x') ∧
    ((diffuse_cell_traced world tf th x y s).2.1 = true ↔
        (s.2.1 = true ∨ ∃ d ∈ neighbor_offsets,
          is_valid_position world (x + d.1) (y + d.2) = true ∧
          receive_caps (s.1 (y + d.2) (x + d.1))
            (tf y x * PHEROMONE_DIFFUSION_RATE / neighbor_count world x y)
            (th y x * PHEROMONE_DIFFUSION_RATE / neighbor_count world x y) = true)) ∧
    ((diffuse_cell_traced world tf th x y s).2.2 = true ↔
        (s.2.2 = true ∨ remove_floors (s.1 y x)
            (tf y x * PHEROMONE_DIFFUSION_RATE / neighbor_count world x y)
            (th y x * PHEROMONE_DIFFUSION_RATE / neighbor_count world x y)
            (neighbor_count world x y) = true)) := by
  obtain ⟨h1, h2⟩ := transfer_fold_spec world x y
    (tf y x * PHEROMONE_DIFFUSION_RATE / neighbor_count world x y)
    (th y x * PHEROMONE_DIFFUSION_RATE / neighbor_count world x y)
    neighbor_offsets neighbor_offsets_nodup (s.1, s.2.1)
  have hcentre : ((0 : Int), (0 : Int)) ∉ neighbor_offsets := by decide
  have hc : (List.foldl (transfer_step world x y
      (tf y x * PHEROMONE_DIFFUSION_RATE / neighbor_count world x y)
      (th y x * PHEROMONE_DIFFUSION_RATE / neighbor_count world x y))
      (s.1, s.2.1) neighbor_offsets).1 y x = s.1 y x := by
    rw [h1, if_neg]
    rintro ⟨h, _⟩
    rw [sub_self, sub_self] at h
    exact hcentre h
  unfold diffuse_cell_traced
  simp only [hn, if_true, transfer_to_neighbors_traced_eq, hc]
  refine ⟨?_, h2, ?_⟩
  · intro y' x'
    by_cases hp : y' = y ∧ x' = x
    · rw [if_pos hp, hp.1, hp.2, setCell_same]
    · rw [if_neg hp, setCell_other _ _ _ _ _ _ hp, h1]
  · simp only [Bool.or_eq_true]

theorem receive_transfer_food (c : Cell) (ft ht : ℚ) :
    (receive_transfer c ft ht).pheromone_food
      = if c.pheromone_food + ft > PHEROMONE_MAX then PHEROMONE_MAX
        else c.pheromone_food + ft := rfl

theorem receive_transfer_home (c : Cell) (ft ht : ℚ) :
    (receive_transfer c ft ht).pheromone_home
      = if c.pheromone_home + ht > PHEROMONE_MAX then PHEROMONE_MAX
        else c.pheromone_home + ht := rfl

theorem remove_transferred_food (c : Cell) (ft ht : ℚ) (n : Int) :
    (remove_transferred c ft ht n).pheromone_food
      = if c.pheromone_food - ft * n < 0 then 0 else c.pheromone_food - ft * n := rfl

theorem remove_transferred_home (c : Cell) (ft ht : ℚ) (n : Int) :
    (remove_transferred c ft ht n).pheromone_home
      = if c.pheromone_home - ht * n < 0 then 0 else c.pheromone_home - ht * n := rfl

/-- The food trail after one step of the main loop. -/
theorem diffuse_cell_traced_food (world : World) (tf th : Int → Int → ℚ)
    (x y : Int) (s : (Int → Int → Cell) × Bool × Bool) :
    food_of (diffuse_cell_traced world tf th x y s).1
      = diffuse_cell_field world tf x y (food_of s.1) := by
  funext y' x'
  by_cases hn : neighbor_count world x y > 0
  · simp only [food_of, (diffuse_cell_traced_spec world tf th x y s hn).1,
      diffuse_cell_field, hn, if_true, transfer]
    by_cases hp : y' = y ∧ x' = x
    · simp only [if_pos hp, remove_transferred_food]
    · by_cases ha : (x' - x, y' - y) ∈ neighbor_offsets ∧ is_valid_position world x' y' = true
      · simp only [if_neg hp, if_pos ha, receive_transfer_food]
      · simp only [if_neg hp, if_neg ha]
  · rw [diffuse_cell_traced_of_no_neighbor world tf th x y s hn]
    simp only [diffuse_cell_field, hn, if_false]

/-- The home trail after one step of the main loop. -/
theorem diffuse_cell_traced_home (world : World) (tf th : Int → Int → ℚ)
    (x y : Int) (s : (Int → Int → Cell) × Bool × Bool) :
    home_of (diffuse_cell_traced world tf th x y s).1
      = diffuse_cell_field world th x y (home_of s.1) := by
  funext y' x'
  by_cases hn : neighbor_count world x y > 0
  · simp only [home_of, (diffuse_cell_traced_spec world tf th x y s hn).1,
      diffuse_cell_field, hn, if_true, transfer]
    by_cases hp : y' = y ∧ x' = x
    · simp only [if_pos hp, remove_transferred_home]
    · by_cases ha : (x' - x, y' - y) ∈ neighbor_offsets ∧ is_valid_position world x' y' = true
      · simp only [if_neg hp, if_pos ha, receive_transfer_home]
      · simp only [if_neg hp, if_neg ha]
  · rw [diffuse_cell_traced_of_no_neighbor world tf th x y s hn]
    simp only [diffuse_cell_field, hn, if_false]

/-- The cap flag after one step of the main loop. -/
theorem diffuse_cell_traced_capped (world : World) (tf th : Int → Int → ℚ)
    (x y : Int) (s : (Int → Int → Cell) × Bool × Bool) :
    (diffuse_cell_traced world tf th x y s).2.1 = true ↔
      (s.2.1 = true ∨ cap_hit world tf x y (food_of s.1)
        ∨ cap_hit world th x y (home_of s.1)) := by
  by_cases hn : neighbor_count world x y > 0
  · rw [(diffuse_cell_traced_spec world tf th x y s hn).2.1]
    simp only [cap_hit, hn, true_and, receive_caps, Bool.or_eq_true, decide_eq_true_eq,
      transfer, food_of, home_of]
    constructor
    · rintro (h | ⟨d, hd, hv, hc | hc⟩)
      · exact Or.inl h
      · exact Or.inr (Or.inl ⟨d, hd, hv, hc⟩)
      · exact Or.inr (Or.inr ⟨d, hd, hv, hc⟩)
    · rintro (h | ⟨d, hd, hv, hc⟩ | ⟨d, hd, hv, hc⟩)
      · exact Or.inl h
      · exact Or.inr ⟨d, hd, hv, Or.inl hc⟩
      · exact Or.inr ⟨d, hd, hv, Or.inr hc⟩
  · rw [diffuse_cell_traced_of_no_neighbor world tf th x y s hn]
    simp only [cap_hit, hn, false_and, or_false]

/-- The floor flag after one step of the main loop. -/
theorem diffuse_cell_traced_floored (world : World) (tf th : Int → Int → ℚ)
    (x y : Int) (s : (Int → Int → Cell) × Bool × Bool) :
    (diffuse_cell_traced world tf th x y s).2.2 = true ↔
      (s.2.2 = true ∨ floor_hit world tf x y (food_of s.1)
        ∨ floor_hit world th x y (home_of s.1)) := by
  by_cases hn : neighbor_count world x y > 0
  · rw [(diffuse_cell_traced_spec world tf th x y s hn).2.2]
    simp only [floor_hit, hn, true_and, remove_floors, Bool.or_eq_true, decide_eq_true_eq,
      transfer, food_of, home_of]
  · rw [diffuse_cell_traced_of_no_neighbor world tf th x y s hn]
    simp only [floor_hit, hn, false_and, or_false]

/-! ## Neighbour counts and sums over neighbourhoods -/

theorem foldl_count {α : Type} (P : α → Bool) (l : List α) (n : Int) :
    l.foldl (fun acc d => if P d then acc + 1 else acc) n = n + (l.filter P).length := by
  induction l generalizing n with
  | nil => simp
  | cons a l ih =>
    simp only [List.foldl_cons, ih, List.filter_cons]
    split_ifs
    · simp only [List.length_cons]
      push_cast
      ring
    · rfl

theorem neighbor_count_eq (world : World) (x y : Int) :
    neighbor_count world x y
      = ((neighbor_offsets.filter
          (fun d => is_valid_position world (x + d.1) (y + d.2))).length : Int) := by
  unfold neighbor_count
  rw [forNeighbors_eq]
  have h := foldl_count (fun d : Int × Int => is_valid_position world (x + d.1) (y + d.2))
    neighbor_offsets 0
  simp only [zero_add] at h
  exact h

theorem neighbor_count_nonneg (world : World) (x y : Int) : 0 ≤ neighbor_count world x y := by
  rw [neighbor_count_eq]
  exact Int.natCast_nonneg _

theorem neighbor_count_le (world : World) (x y : Int) : neighbor_count world x y ≤ 8 := by
  rw [neighbor_count_eq]
  have h := List.length_filter_le
    (fun d : Int × Int => is_valid_position world (x + d.1) (y + d.2)) neighbor_offsets
  have h8 : neighbor_offsets.length = 8 := rfl
  omega

theorem neighbor_count_pos_of_neighbor (world : World) (x y : Int) (d : Int × Int)
    (hd : d ∈ neighbor_offsets)
    (hv : is_valid_position world (x + d.1) (y + d.2) = true) :
    neighbor_count world x y > 0 := by
  rw [neighbor_count_eq]
  have hmem : d ∈ neighbor_offsets.filter
      (fun d => is_valid_position world (x + d.1) (y + d.2)) :=
    List.mem_filter.mpr ⟨hd, hv⟩
  have := List.length_pos_of_mem hmem
  omega

theorem neighbor_count_as_sum (world : World) (x y : Int) :
    ((neighbor_count world x y : Int) : ℚ)
      = (neighbor_offsets.map (fun d =>
          if is_valid_position world (x + d.1) (y + d.2) then (1 : ℚ) else 0)).sum := by
  rw [neighbor_count_eq]
  generalize neighbor_offsets = l
  induction l with
  | nil => simp
  | cons a l ih =>
    simp only [List.filter_cons, List.map_cons, List.sum_cons]
    rw [← ih]
    split_ifs
    · simp only [List.length_cons]
      push_cast
      ring
    · simp

theorem neg_mem_neighbor_offsets (dx dy : Int) :
    (-dx, -dy) ∈ neighbor_offsets ↔ (dx, dy) ∈ neighbor_offsets := by
  rw [mem_neighbor_offsets, mem_neighbor_offsets]
  omega

/-- A sum over the in-bounds cells adjacent to `(x, y)` is a sum over the
eight offsets. -/
theorem sum_over_neighbors (world : World) (x y : Int) (F : Int → Int → ℚ) :
    (∑ p ∈ cells world.width world.height,
        if (p.1 - x, p.2 - y) ∈ neighbor_offsets then F p.2 p.1 else 0)
      = (neighbor_offsets.map (fun d =>
          if is_valid_position world (x + d.1) (y + d.2) then F (y + d.2) (x + d.1)
          else 0)).sum := by
  rw [← List.sum_toFinset _ neighbor_offsets_nodup]
  have h1 : ∀ p ∈ cells world.width world.height,
      (if (p.1 - x, p.2 - y) ∈ neighbor_offsets then F p.2 p.1 else 0)
        = ∑ d ∈ neighbor_offsets.toFinset,
            if (x + d.1, y + d.2) = p then F p.2 p.1 else 0 := by
    intro p _
    have hcongr : ∀ d ∈ neighbor_offsets.toFinset,
        (if (x + d.1, y + d.2) = p then F p.2 p.1 else 0)
          = if (p.1 - x, p.2 - y) = d then F p.2 p.1 else 0 := by
      intro d _
      have : (x + d.1, y + d.2) = p ↔ (p.1 - x, p.2 - y) = d := by
        constructor
        · intro h
          rw [← h]
          exact Prod.ext (by simp) (by simp)
        · intro h
          rw [← h]
          exact Prod.ext (by simp) (by simp)
      simp only [this]
    rw [Finset.sum_congr rfl hcongr, Finset.sum_ite_eq]
    simp only [List.mem_toFinset]
  rw [Finset.sum_congr rfl h1, Finset.sum_comm]
  apply Finset.sum_congr rfl
  intro d _
  rw [Finset.sum_ite_eq]
  simp only [mem_cells_iff_valid]

/-! ## Diffusion of one field: the step preserves the invariant -/

theorem rate_bounds : (0 : ℚ) ≤ PHEROMONE_DIFFUSION_RATE ∧ PHEROMONE_DIFFUSION_RATE ≤ 1 := by
  unfold PHEROMONE_DIFFUSION_RATE
  constructor <;> norm_num

theorem transfer_nonneg (world : World) (temp : Int → Int → ℚ) (x y : Int)
    (h : 0 ≤ temp y x) : 0 ≤ transfer world temp x y := by
  unfold transfer
  apply div_nonneg (mul_nonneg h rate_bounds.1)
  exact_mod_cast neighbor_count_nonneg world x y

theorem loss_eq (world : World) (temp : Int → Int → ℚ) (x y : Int)
    (hn : neighbor_count world x y > 0) :
    loss world temp x y = temp y x * PHEROMONE_DIFFUSION_RATE := by
  unfold loss transfer
  have hne : ((neighbor_count world x y : Int) : ℚ) ≠ 0 := by
    exact_mod_cast (ne_of_gt hn)
  field_simp

theorem loss_of_no_neighbor (world : World) (temp : Int → Int → ℚ) (x y : Int)
    (hn : ¬ neighbor_count world x y > 0) : loss world temp x y = 0 := by
  have h0 : neighbor_count world x y = 0 :=
    le_antisymm (not_lt.mp hn) (neighbor_count_nonneg world x y)
  unfold loss
  rw [h0]
  simp

theorem loss_bounds (world : World) (temp : Int → Int → ℚ) (x y : Int)
    (h : 0 ≤ temp y x) : 0 ≤ loss world temp x y ∧ loss world temp x y ≤ temp y x := by
  by_cases hn : neighbor_count world x y > 0
  · rw [loss_eq world temp x y hn]
    constructor
    · exact mul_nonneg h rate_bounds.1
    · calc temp y x * PHEROMONE_DIFFUSION_RATE ≤ temp y x * 1 :=
            mul_le_mul_of_nonneg_left rate_bounds.2 h
        _ = temp y x := mul_one _
  · rw [loss_of_no_neighbor world temp x y hn]
    exact ⟨le_refl _, h⟩

/-- The step at `(x, y)` when the source holds at least what it hands out:
the floor branch is not taken. -/
theorem diffuse_cell_field_eq (world : World) (temp : Int → Int → ℚ) (x y : Int)
    (f : Int → Int → ℚ) (hL : loss world temp x y ≤ f y x) (a b : Int) :
    diffuse_cell_field world temp x y f b a
      = if b = y ∧ a = x then f y x - loss world temp x y
        else if (a - x, b - y) ∈ neighbor_offsets ∧ is_valid_position world a b = true then
          (if f b a + transfer world temp x y > PHEROMONE_MAX then PHEROMONE_MAX
           else f b a + transfer world temp x y)
        else f b a := by
  unfold diffuse_cell_field
  by_cases hn : neighbor_count world x y > 0
  · simp only [hn, if_true]
    have hnf : ¬ (f y x - transfer world temp x y * neighbor_count world x y < 0) := by
      have : loss world temp x y = transfer world temp x y * neighbor_count world x y := rfl
      rw [← this]
      linarith
    simp only [hnf, if_false]
    rfl
  · simp only [hn, if_false]
    by_cases hp : b = y ∧ a = x
    · rw [if_pos hp, loss_of_no_neighbor world temp x y hn, hp.1, hp.2, sub_zero]
    · rw [if_neg hp, if_neg]
      rintro ⟨hmem, hv⟩
      apply hn
      apply neighbor_count_pos_of_neighbor world x y (a - x, b - y) hmem
      have h1 : x + (a - x, b - y).1 = a := by simp
      have h2 : y + (a - x, b - y).2 = b := by simp
      rw [h1, h2]
      exact hv

theorem not_floor_hit (world : World) (temp : Int → Int → ℚ) (x y : Int)
    (f : Int → Int → ℚ) (hL : loss world temp x y ≤ f y x) :
    ¬ floor_hit world temp x y f := by
  rintro ⟨_, h⟩
  have : loss world temp x y = transfer world temp x y * neighbor_count world x y := rfl
  rw [← this] at h
  linarith

theorem inflow_insert (world : World) (temp : Int → Int → ℚ) (S : Finset (Int × Int))
    (x y a b : Int) (hnot : (x, y) ∉ S) :
    inflow world temp (insert (x, y) S) a b
      = inflow world temp S a b
        + (if (a - x, b - y) ∈ neighbor_offsets then transfer world temp x y else 0) := by
  unfold inflow
  rw [Finset.sum_insert hnot]
  ring

/-- The total handed to the neighbours of `(x, y)` is `loss`. -/
theorem sum_transfer_eq_loss (world : World) (temp : Int → Int → ℚ) (x y : Int) :
    (∑ p ∈ cells world.width world.height,
        if (p.1 - x, p.2 - y) ∈ neighbor_offsets then transfer world temp x y else 0)
      = loss world temp x y := by
  rw [sum_over_neighbors world x y (fun _ _ => transfer world temp x y)]
  unfold loss
  rw [neighbor_count_as_sum, ← List.sum_map_mul_left]
  congr 1
  apply List.map_congr_left
  intro d _
  split_ifs <;> simp

theorem cap_le (v : ℚ) : (if v > PHEROMONE_MAX then PHEROMONE_MAX else v) ≤ v := by
  split_ifs with h
  · exact le_of_lt h
  · exact le_refl _

theorem cap_le_max (v : ℚ) : (if v > PHEROMONE_MAX then PHEROMONE_MAX else v) ≤ PHEROMONE_MAX := by
  split_ifs with h
  · exact le_refl _
  · exact not_lt.mp h

theorem le_cap (u v : ℚ) (h1 : u ≤ v) (h2 : u ≤ PHEROMONE_MAX) :
    u ≤ (if v > PHEROMONE_MAX then PHEROMONE_MAX else v) := by
  split_ifs <;> assumption

/-- What the step at `(x, y)` adds to the cell `p`, caps aside. -/
theorem step_delta (world : World) (temp : Int → Int → ℚ) (x y : Int)
    (f : Int → Int → ℚ) (hL : loss world temp x y ≤ f y x) (a b : Int)
    (hvp : is_valid_position world a b = true) :
    diffuse_cell_field world temp x y f b a
        ≤ f b a + ((if (a, b) = (x, y) then - loss world temp x y else 0)
            + (if (a - x, b - y) ∈ neighbor_offsets then transfer world temp x y else 0)) ∧
    (¬ cap_hit world temp x y f →
      diffuse_cell_field world temp x y f b a
        = f b a + ((if (a, b) = (x, y) then - loss world temp x y else 0)
            + (if (a - x, b - y) ∈ neighbor_offsets then transfer world temp x y else 0))) := by
  have hcentre : ((0 : Int), (0 : Int)) ∉ neighbor_offsets := by decide
  rw [diffuse_cell_field_eq world temp x y f hL]
  by_cases hp : b = y ∧ a = x
  · have hpair : (a, b) = (x, y) := by rw [hp.1, hp.2]
    have hnadj : (a - x, b - y) ∉ neighbor_offsets := by
      rw [hp.1, hp.2, sub_self, sub_self]
      exact hcentre
    rw [if_pos hp, if_pos hpair, if_neg hnadj, hp.1, hp.2]
    constructor
    · linarith
    · intro _
      ring
  · have hpair : ¬ (a, b) = (x, y) := by
      intro h
      rw [Prod.mk.injEq] at h
      exact hp ⟨h.2, h.1⟩
    rw [if_neg hp, if_neg hpair]
    by_cases hadj : (a - x, b - y) ∈ neighbor_offsets
    · rw [if_pos ⟨hadj, hvp⟩, if_pos hadj]
      constructor
      · have := cap_le (f b a + transfer world temp x y)
        linarith
      · intro hcap
        have hno : ¬ (f b a + transfer world temp x y > PHEROMONE_MAX) := by
          intro hgt
          apply hcap
          have h1 : x + (a - x, b - y).1 = a := by simp
          have h2 : y + (a - x, b - y).2 = b := by simp
          refine ⟨neighbor_count_pos_of_neighbor world x y (a - x, b - y) hadj ?_,
            (a - x, b - y), hadj, ?_, ?_⟩
          · rw [h1, h2]; exact hvp
          · rw [h1, h2]; exact hvp
          · rw [h1, h2]; exact hgt
        rw [if_neg hno]
        ring
    · rw [if_neg (fun h => hadj h.1), if_neg hadj]
      constructor
      · linarith
      · intro _
        ring

/-- The step at `(x, y)` does not add anything to the total. -/
theorem sum_delta (world : World) (temp : Int → Int → ℚ) (x y : Int)
    (hv : is_valid_position world x y = true) :
    (∑ p ∈ cells world.width world.height,
        ((if p = (x, y) then - loss world temp x y else 0)
          + (if (p.1 - x, p.2 - y) ∈ neighbor_offsets then transfer world temp x y else 0)))
      = 0 := by
  rw [Finset.sum_add_distrib, sum_transfer_eq_loss, Finset.sum_ite_eq',
    if_pos ((mem_cells_iff_valid world x y).2 hv)]
  ring

/-- One step of the main loop preserves the invariant of a field, and does not
take the floor branch. -/
theorem field_inv_step (world : World) (temp : Int → Int → ℚ)
    (htemp : ∀ x y, is_valid_position world x y = true →
      0 ≤ temp y x ∧ temp y x ≤ PHEROMONE_MAX)
    (S : Finset (Int × Int)) (f : Int → Int → ℚ) (P : Prop) (x y : Int)
    (hv : is_valid_position world x y = true) (hnot : (x, y) ∉ S)
    (hJ : field_inv world temp S f P) :
    ¬ floor_hit world temp x y f ∧
    field_inv world temp (insert (x, y) S) (diffuse_cell_field world temp x y f)
      (P ∧ ¬ cap_hit world temp x y f) := by
  have htm := htemp x y hv
  have htr := transfer_nonneg world temp x y htm.1
  have hLb := loss_bounds world temp x y htm.1
  have hfm := hJ.pending x y hv hnot
  have hL : loss world temp x y ≤ f y x := le_trans hLb.2 hfm
  have hdelta := step_delta world temp x y f hL
  have hmem : ∀ a b : Int, ((a, b) ∈ insert (x, y) S) ↔ ((a, b) = (x, y) ∨ (a, b) ∈ S) := by
    intro a b
    exact Finset.mem_insert
  have hloss_split : ∀ a b : Int,
      (if (a, b) ∈ insert (x, y) S then loss world temp a b else 0)
        = (if (a, b) ∈ S then loss world temp a b else 0)
          - (if (a, b) = (x, y) then - loss world temp x y else 0) := by
    intro a b
    by_cases hp : (a, b) = (x, y)
    · have hins : (a, b) ∈ insert (x, y) S := (hmem a b).2 (Or.inl hp)
      have hnS : (a, b) ∉ S := hp ▸ hnot
      rw [if_pos hins, if_neg hnS, if_pos hp]
      rw [Prod.mk.injEq] at hp
      rw [hp.1, hp.2]
      ring
    · by_cases hS : (a, b) ∈ S
      · rw [if_pos ((hmem a b).2 (Or.inr hS)), if_pos hS, if_neg hp]
        ring
      · have hnins : (a, b) ∉ insert (x, y) S := by
          rw [hmem]
          exact fun h => h.elim hp hS
        rw [if_neg hnins, if_neg hS, if_neg hp]
        ring
  have hsum_step : field_sum world (diffuse_cell_field world temp x y f)
      ≤ field_sum world f := by
    have h1 : field_sum world (diffuse_cell_field world temp x y f)
        ≤ ∑ p ∈ cells world.width world.height,
            (f p.2 p.1 + ((if p = (x, y) then - loss world temp x y else 0)
              + (if (p.1 - x, p.2 - y) ∈ neighbor_offsets
                  then transfer world temp x y else 0))) := by
      apply Finset.sum_le_sum
      intro p hp
      exact (hdelta p.1 p.2 ((mem_cells_iff_valid world p.1 p.2).1 hp)).1
    rw [Finset.sum_add_distrib, sum_delta world temp x y hv, add_zero] at h1
    exact h1
  refine ⟨not_floor_hit world temp x y f hL, ?_⟩
  constructor
  · intro a b hvp
    have hr := hJ.range a b hvp
    rw [diffuse_cell_field_eq world temp x y f hL]
    by_cases h1 : b = y ∧ a = x
    · rw [if_pos h1]
      constructor
      · linarith
      · have := (hJ.range x y hv).2
        linarith
    · rw [if_neg h1]
      by_cases h2 : (a - x, b - y) ∈ neighbor_offsets ∧ is_valid_position world a b = true
      · rw [if_pos h2]
        constructor
        · exact le_cap _ _ (by linarith) (by norm_num [PHEROMONE_MAX])
        · exact cap_le_max _
      · rw [if_neg h2]
        exact hr
  · intro a b hvp hnin
    have hne : ¬ (a, b) = (x, y) := fun h => hnin ((hmem a b).2 (Or.inl h))
    have hnS : (a, b) ∉ S := fun h => hnin ((hmem a b).2 (Or.inr h))
    have hp := hJ.pending a b hvp hnS
    rw [diffuse_cell_field_eq world temp x y f hL]
    have hne' : ¬ (b = y ∧ a = x) := fun h => hne (by rw [h.1, h.2])
    rw [if_neg hne']
    by_cases h2 : (a - x, b - y) ∈ neighbor_offsets ∧ is_valid_position world a b = true
    · rw [if_pos h2]
      exact le_cap _ _ (by linarith) (htemp a b hvp).2
    · rw [if_neg h2]
      exact hp
  · exact le_trans hsum_step hJ.sum_le
  · intro a b hvp
    have h1 := (hdelta a b hvp).1
    have h2 := hJ.upper a b hvp
    rw [inflow_insert world temp S x y a b hnot, hloss_split]
    linarith
  · rintro ⟨hP, hcap⟩
    have h1 : field_sum world (diffuse_cell_field world temp x y f)
        = ∑ p ∈ cells world.width world.height,
            (f p.2 p.1 + ((if p = (x, y) then - loss world temp x y else 0)
              + (if (p.1 - x, p.2 - y) ∈ neighbor_offsets
                  then transfer world temp x y else 0))) := by
      apply Finset.sum_congr rfl
      intro p hp
      exact (hdelta p.1 p.2 ((mem_cells_iff_valid world p.1 p.2).1 hp)).2 hcap
    rw [Finset.sum_add_distrib, sum_delta world temp x y hv, add_zero] at h1
    rw [h1]
    exact hJ.sum_eq hP
  · rintro ⟨hP, hcap⟩ a b hvp
    have h1 := (hdelta a b hvp).2 hcap
    have h2 := hJ.value_eq hP a b hvp
    rw [inflow_insert world temp S x y a b hnot, hloss_split]
    linarith

theorem field_inv_mono (world : World) (temp : Int → Int → ℚ) (S : Finset (Int × Int))
    (f : Int → Int → ℚ) (P Q : Prop) (hQP : Q → P) (h : field_inv world temp S f P) :
    field_inv world temp S f Q :=
  { range := h.range, pending := h.pending, sum_le := h.sum_le, upper := h.upper,
    sum_eq := fun hq => h.sum_eq (hQP hq), value_eq := fun hq => h.value_eq (hQP hq) }

theorem field_inv_init (world : World) (temp : Int → Int → ℚ)
    (htemp : ∀ x y, is_valid_position world x y = true →
      0 ≤ temp y x ∧ temp y x ≤ PHEROMONE_MAX) (P : Prop) :
    field_inv world temp ∅ temp P := by
  have h0 : ∀ x y, temp y x
      = temp y x + inflow world temp ∅ x y
        - (if (x, y) ∈ (∅ : Finset (Int × Int)) then loss world temp x y else 0) := by
    intro x y
    simp [inflow]
  exact { range := htemp, pending := fun _ _ _ _ => le_refl _, sum_le := le_refl _,
          upper := fun x y _ => le_of_eq (h0 x y), sum_eq := fun _ => rfl,
          value_eq := fun _ x y _ => h0 x y }

/-- What a cell receives from all the cells is what it receives from its
in-bounds Moore neighbours. -/
theorem inflow_cells (world : World) (temp : Int → Int → ℚ) (a b : Int) :
    inflow world temp (cells world.width world.height) a b = received world temp a b := by
  unfold inflow received
  rw [← sum_over_neighbors world a b (fun y x => transfer world temp x y)]
  apply Finset.sum_congr rfl
  intro m _
  have h : (a - m.1, b - m.2) ∈ neighbor_offsets ↔ (m.1 - a, m.2 - b) ∈ neighbor_offsets := by
    rw [← neg_mem_neighbor_offsets (m.1 - a) (m.2 - b), neg_sub, neg_sub]
  simp only [h]

theorem inflow_mono (world : World) (temp : Int → Int → ℚ)
    (htemp : ∀ x y, is_valid_position world x y = true → 0 ≤ temp y x)
    (S : Finset (Int × Int)) (hS : S ⊆ cells world.width world.height) (a b : Int) :
    inflow world temp S a b ≤ received world temp a b := by
  rw [← inflow_cells]
  unfold inflow
  apply Finset.sum_le_sum_of_subset_of_nonneg hS
  intro m hm _
  split_ifs
  · exact transfer_nonneg world temp m.1 m.2
      (htemp m.1 m.2 ((mem_cells_iff_valid world m.1 m.2).1 hm))
  · exact le_refl _

/-- When no cell can exceed the ceiling by what it receives, the step at
`(x, y)` takes no cap branch. -/
theorem not_cap_hit (world : World) (temp : Int → Int → ℚ)
    (htemp : ∀ x y, is_valid_position world x y = true → 0 ≤ temp y x)
    (hroom : ∀ x y, is_valid_position world x y = true →
      temp y x + received world temp x y ≤ PHEROMONE_MAX)
    (S : Finset (Int × Int)) (f : Int → Int → ℚ) (P : Prop) (x y : Int)
    (hv : is_valid_position world x y = true) (hnot : (x, y) ∉ S)
    (hS : S ⊆ cells world.width world.height)
    (hJ : field_inv world temp S f P) :
    ¬ cap_hit world temp x y f := by
  rintro ⟨_, d, hd, hvd, hgt⟩
  have hup := hJ.upper (x + d.1) (y + d.2) hvd
  have hloss : 0 ≤ (if (x + d.1, y + d.2) ∈ S then loss world temp (x + d.1) (y + d.2)
      else 0) := by
    split_ifs
    · exact (loss_bounds world temp _ _ (htemp _ _ hvd)).1
    · exact le_refl _
  have hins : insert (x, y) S ⊆ cells world.width world.height := by
    intro p hp
    rcases Finset.mem_insert.mp hp with rfl | hp
    · exact (mem_cells_iff_valid world x y).2 hv
    · exact hS hp
  have hmono := inflow_mono world temp htemp (insert (x, y) S) hins (x + d.1) (y + d.2)
  rw [inflow_insert world temp S x y _ _ hnot] at hmono
  have hadj : (x + d.1 - x, y + d.2 - y) ∈ neighbor_offsets := by
    have : (x + d.1 - x, y + d.2 - y) = d := Prod.ext (by simp) (by simp)
    rw [this]
    exact hd
  rw [if_pos hadj] at hmono
  have := hroom (x + d.1) (y + d.2) hvd
  linarith

/-! ## Diffusion: the invariant of the whole pass -/

/-- The invariant of the main loop at the end of `diffuse_pheromones`, for
both fields, with the flags of the instrumented run: the floor branch is
never taken, and no cap branch is taken when both fields have room. -/
theorem diffuse_traced_inv (world : World) (hr : pheromones_in_range world) :
    field_inv world (food_of world.grid) (cells world.width world.height)
      (food_of (diffuse_pheromones_traced world).1)
      ((diffuse_pheromones_traced world).2.1 = false) ∧
    field_inv world (home_of world.grid) (cells world.width world.height)
      (home_of (diffuse_pheromones_traced world).1)
      ((diffuse_pheromones_traced world).2.1 = false) ∧
    (diffuse_pheromones_traced world).2.2 = false ∧
    (has_room world (food_of world.grid) → has_room world (home_of world.grid) →
      (diffuse_pheromones_traced world).2.1 = false) := by
  have hfood : ∀ x y, is_valid_position world x y = true →
      0 ≤ food_of world.grid y x ∧ food_of world.grid y x ≤ PHEROMONE_MAX :=
    fun x y hv => (hr x y hv).1
  have hhome : ∀ x y, is_valid_position world x y = true →
      0 ≤ home_of world.grid y x ∧ home_of world.grid y x ≤ PHEROMONE_MAX :=
    fun x y hv => (hr x y hv).2
  unfold diffuse_pheromones_traced
  simp only
  apply sweep_induction world.width world.height
    (fun x y s => diffuse_cell_traced world (fun y x => (world.grid y x).pheromone_food)
      (fun y x => (world.grid y x).pheromone_home) x y s)
    (fun S s =>
      field_inv world (food_of world.grid) S (food_of s.1) (s.2.1 = false) ∧
      field_inv world (home_of world.grid) S (home_of s.1) (s.2.1 = false) ∧
      s.2.2 = false ∧
      (has_room world (food_of world.grid) → has_room world (home_of world.grid) →
        s.2.1 = false))
  · exact ⟨field_inv_init world _ hfood _, field_inv_init world _ hhome _, rfl,
      fun _ _ => rfl⟩
  · intro S x y s hx0 hxW hy0 hyH hnot hS ⟨hJf, hJh, hfl, hcap⟩
    have hv : is_valid_position world x y = true :=
      (is_valid_position_iff world x y).2 ⟨hx0, hxW, hy0, hyH⟩
    obtain ⟨hnf_food, hstep_food⟩ :=
      field_inv_step world (food_of world.grid) hfood S (food_of s.1) _ x y hv hnot hJf
    obtain ⟨hnf_home, hstep_home⟩ :=
      field_inv_step world (home_of world.grid) hhome S (home_of s.1) _ x y hv hnot hJh
    have hcapped := diffuse_cell_traced_capped world (food_of world.grid)
      (home_of world.grid) x y s
    have hfloored := diffuse_cell_traced_floored world (food_of world.grid)
      (home_of world.grid) x y s
    have hfoodeq := diffuse_cell_traced_food world (food_of world.grid)
      (home_of world.grid) x y s
    have hhomeeq := diffuse_cell_traced_home world (food_of world.grid)
      (home_of world.grid) x y s
    change field_inv world (food_of world.grid) (insert (x, y) S)
        (food_of (diffuse_cell_traced world (food_of world.grid) (home_of world.grid)
          x y s).1)
        ((diffuse_cell_traced world (food_of world.grid) (home_of world.grid)
          x y s).2.1 = false) ∧
      field_inv world (home_of world.grid) (insert (x, y) S)
        (home_of (diffuse_cell_traced world (food_of world.grid) (home_of world.grid)
          x y s).1)
        ((diffuse_cell_traced world (food_of world.grid) (home_of world.grid)
          x y s).2.1 = false) ∧
      (diffuse_cell_traced world (food_of world.grid) (home_of world.grid) x y s).2.2
        = false ∧
      (has_room world (food_of world.grid) → has_room world (home_of world.grid) →
        (diffuse_cell_traced world (food_of world.grid) (home_of world.grid) x y s).2.1
          = false)
    have hflag : (diffuse_cell_traced world (food_of world.grid) (home_of world.grid)
        x y s).2.1 = false →
        s.2.1 = false ∧ ¬ cap_hit world (food_of world.grid) x y (food_of s.1)
          ∧ ¬ cap_hit world (home_of world.grid) x y (home_of s.1) := by
      intro h
      have hnot' : ¬ (s.2.1 = true ∨ cap_hit world (food_of world.grid) x y (food_of s.1)
          ∨ cap_hit world (home_of world.grid) x y (home_of s.1)) := by
        rw [← hcapped, h]
        exact Bool.false_ne_true
      refine ⟨?_, fun hc => hnot' (Or.inr (Or.inl hc)), fun hc => hnot' (Or.inr (Or.inr hc))⟩
      cases hs : s.2.1
      · rfl
      · exact absurd (Or.inl hs) hnot'
    refine ⟨?_, ?_, ?_, ?_⟩
    · rw [hfoodeq]
      exact field_inv_mono world _ _ _ _ _ (fun h => ⟨(hflag h).1, (hflag h).2.1⟩) hstep_food
    · rw [hhomeeq]
      exact field_inv_mono world _ _ _ _ _ (fun h => ⟨(hflag h).1, (hflag h).2.2⟩) hstep_home
    · have hnot' : ¬ ((diffuse_cell_traced world (food_of world.grid) (home_of world.grid)
          x y s).2.2 = true) := by
        rw [hfloored, hfl]
        rintro (h | h | h)
        · exact Bool.false_ne_true h
        · exact hnf_food h
        · exact hnf_home h
      exact Bool.eq_false_iff.mpr hnot'
    · intro hroomf hroomh
      have h1 := not_cap_hit world (food_of world.grid) (fun x y hv => (hfood x y hv).1)
        hroomf S (food_of s.1) _ x y hv hnot hS hJf
      have h2 := not_cap_hit world (home_of world.grid) (fun x y hv => (hhome x y hv).1)
        hroomh S (home_of s.1) _ x y hv hnot hS hJh
      have hnot' : ¬ ((diffuse_cell_traced world (food_of world.grid) (home_of world.grid)
          x y s).2.1 = true) := by
        rw [hcapped, hcap hroomf hroomh]
        rintro (h | h | h)
        · exact Bool.false_ne_true h
        · exact h1 h
        · exact h2 h
      exact Bool.eq_false_iff.mpr hnot'

/-! ## Closed forms of the whole-grid passes -/

theorem evaporate_grid (world : World) (y x : Int) :
    (evaporate_pheromones world).grid y x
      = if is_valid_position world x y = true then evaporate_cell (world.grid y x)
        else world.grid y x := by
  unfold evaporate_pheromones
  simp only [forRange_grid, is_valid_position_iff]
  congr 1
  apply propext
  constructor <;> intro h <;> omega

theorem reset_grid (world : World) (y x : Int) :
    (reset_pheromones world).grid y x
      = if is_valid_position world x y = true then
          { world.grid y x with pheromone_food := PHEROMONE_INITIAL,
                                pheromone_home := PHEROMONE_INITIAL }
        else world.grid y x := by
  have h := forRange_grid
    (fun c : Cell => { c with pheromone_food := PHEROMONE_INITIAL
                              pheromone_home := PHEROMONE_INITIAL })
    world.height world.width world.grid
  unfold reset_pheromones
  simp only at h ⊢
  rw [h]
  simp only [is_valid_position_iff]
  congr 1
  apply propext
  constructor <;> intro h <;> omega

/-- The maxima found by the first loop nest of `normalize_pheromones`: they
are non-negative, bound every in-bounds value, and each is 0 or attained. -/
theorem find_max_spec (world : World) :
    (0 ≤ (find_max world).1 ∧ 0 ≤ (find_max world).2) ∧
    (∀ x y, is_valid_position world x y = true →
      (world.grid y x).pheromone_food ≤ (find_max world).1 ∧
      (world.grid y x).pheromone_home ≤ (find_max world).2) ∧
    ((find_max world).1 = 0 ∨ ∃ x y, is_valid_position world x y = true ∧
      (world.grid y x).pheromone_food = (find_max world).1) ∧
    ((find_max world).2 = 0 ∨ ∃ x y, is_valid_position world x y = true ∧
      (world.grid y x).pheromone_home = (find_max world).2) := by
  have key := sweep_induction world.width world.height
    (fun x y (m : ℚ × ℚ) =>
      ((if (world.grid y x).pheromone_food > m.1 then (world.grid y x).pheromone_food
        else m.1),
       (if (world.grid y x).pheromone_home > m.2 then (world.grid y x).pheromone_home
        else m.2)))
    (fun S m =>
      (0 ≤ m.1 ∧ 0 ≤ m.2) ∧
      (∀ p ∈ S, (world.grid p.2 p.1).pheromone_food ≤ m.1 ∧
        (world.grid p.2 p.1).pheromone_home ≤ m.2) ∧
      (m.1 = 0 ∨ ∃ x y, is_valid_position world x y = true ∧
        (world.grid y x).pheromone_food = m.1) ∧
      (m.2 = 0 ∨ ∃ x y, is_valid_position world x y = true ∧
        (world.grid y x).pheromone_home = m.2))
    (0, 0)
    ⟨⟨le_refl _, le_refl _⟩, fun p hp => absurd hp (Finset.not_mem_empty p),
      Or.inl rfl, Or.inl rfl⟩
    (by
      intro S x y m hx0 hxW hy0 hyH _ _ ⟨⟨hm1, hm2⟩, hbound, hatt1, hatt2⟩
      have hv : is_valid_position world x y = true :=
        (is_valid_position_iff world x y).2 ⟨hx0, hxW, hy0, hyH⟩
      have hle1 : m.1 ≤ (if (world.grid y x).pheromone_food > m.1
          then (world.grid y x).pheromone_food else m.1) := by
        split_ifs with h
        · exact le_of_lt h
        · exact le_refl _
      have hle2 : m.2 ≤ (if (world.grid y x).pheromone_home > m.2
          then (world.grid y x).pheromone_home else m.2) := by
        split_ifs with h
        · exact le_of_lt h
        · exact le_refl _
      refine ⟨⟨le_trans hm1 hle1, le_trans hm2 hle2⟩, ?_, ?_, ?_⟩
      · intro p hp
        rcases Finset.mem_insert.mp hp with rfl | hp
        · constructor
          · simp only
            split_ifs with h
            · exact le_refl _
            · exact not_lt.mp h
          · simp only
            split_ifs with h
            · exact le_refl _
            · exact not_lt.mp h
        · exact ⟨le_trans (hbound p hp).1 hle1, le_trans (hbound p hp).2 hle2⟩
      · simp only
        split_ifs with h
        · exact Or.inr ⟨x, y, hv, rfl⟩
        · exact hatt1
      · simp only
        split_ifs with h
        · exact Or.inr ⟨x, y, hv, rfl⟩
        · exact hatt2)
  obtain ⟨h1, h2, h3, h4⟩ := key
  exact ⟨h1, fun x y hv => h2 (x, y) ((mem_cells_iff_valid world x y).2 hv), h3, h4⟩

theorem normalize_grid (world : World) (y x : Int) :
    (normalize_pheromones world).grid y x
      = if is_valid_position world x y = true then
          { world.grid y x with
            pheromone_food :=
              if (find_max world).1 > 0 then
                ((world.grid y x).pheromone_food / (find_max world).1) * PHEROMONE_MAX
              else (world.grid y x).pheromone_food,
            pheromone_home :=
              if (find_max world).2 > 0 then
                ((world.grid y x).pheromone_home / (find_max world).2) * PHEROMONE_MAX
              else (world.grid y x).pheromone_home }
        else world.grid y x := by
  have hf := fun g => forRange_grid
    (fun c : Cell =>
      { c with pheromone_food := (c.pheromone_food / (find_max world).1) * PHEROMONE_MAX })
    world.height world.width g
  have hh := fun g => forRange_grid
    (fun c : Cell =>
      { c with pheromone_home := (c.pheromone_home / (find_max world).2) * PHEROMONE_MAX })
    world.height world.width g
  unfold normalize_pheromones
  simp only at hf hh ⊢
  simp only [hf, hh]
  have hiff : (0 ≤ y ∧ y < world.height ∧ 0 ≤ x ∧ x < world.width)
      ↔ is_valid_position world x y = true := by
    rw [is_valid_position_iff]
    constructor <;> intro h <;> omega
  by_cases hv : is_valid_position world x y = true
  · have hv' := hiff.2 hv
    by_cases h1 : (find_max world).1 > 0 <;> by_cases h2 : (find_max world).2 > 0 <;>
      simp only [h1, h2, hv, hv', if_true, if_false, and_self]
  · have hv' : ¬ (0 ≤ y ∧ y < world.height ∧ 0 ≤ x ∧ x < world.width) :=
      fun h => hv (hiff.1 h)
    by_cases h1 : (find_max world).1 > 0 <;> by_cases h2 : (find_max world).2 > 0 <;>
      simp only [h1, h2, hv, hv', if_true, if_false, Bool.false_eq_true]

/-! ## C1: the range invariant -/

theorem evaporate_in_range (world : World) (hr : pheromones_in_range world) :
    pheromones_in_range (evaporate_pheromones world) := by
  intro x y hv
  have hv' : is_valid_position world x y = true := hv
  obtain ⟨⟨hf0, hf1⟩, ⟨hh0, hh1⟩⟩ := hr x y hv'
  rw [evaporate_grid, if_pos hv']
  unfold evaporate_cell
  simp only [PHEROMONE_EVAPORATION_RATE, PHEROMONE_MAX] at *
  refine ⟨?_, ?_⟩
  · split_ifs
    · exact ⟨le_refl _, by norm_num⟩
    · constructor <;> linarith
  · split_ifs
    · exact ⟨le_refl _, by norm_num⟩
    · constructor <;> linarith

theorem reset_in_range (world : World) : pheromones_in_range (reset_pheromones world) := by
  intro x y hv
  have hv' : is_valid_position world x y = true := hv
  rw [reset_grid, if_pos hv']
  simp only [PHEROMONE_INITIAL, PHEROMONE_MAX]
  norm_num

theorem scale_in_range (v m : ℚ) (h0 : 0 ≤ v) (h1 : v ≤ m) (hm : 0 < m) :
    0 ≤ v / m * PHEROMONE_MAX ∧ v / m * PHEROMONE_MAX ≤ PHEROMONE_MAX := by
  have hmax : (0 : ℚ) ≤ PHEROMONE_MAX := by norm_num [PHEROMONE_MAX]
  have hq0 : 0 ≤ v / m := div_nonneg h0 (le_of_lt hm)
  have hq1 : v / m ≤ 1 := (div_le_one hm).2 h1
  constructor
  · exact mul_nonneg hq0 hmax
  · calc v / m * PHEROMONE_MAX ≤ 1 * PHEROMONE_MAX := mul_le_mul_of_nonneg_right hq1 hmax
      _ = PHEROMONE_MAX := one_mul _

theorem normalize_in_range (world : World) (hn : pheromones_nonneg world) :
    pheromones_in_range (normalize_pheromones world) := by
  intro x y hv
  have hv' : is_valid_position world x y = true := hv
  obtain ⟨hf0, hh0⟩ := hn x y hv'
  obtain ⟨⟨hm1, hm2⟩, hbound, _, _⟩ := find_max_spec world
  obtain ⟨hb1, hb2⟩ := hbound x y hv'
  have hmax : (0 : ℚ) ≤ PHEROMONE_MAX := by norm_num [PHEROMONE_MAX]
  rw [normalize_grid, if_pos hv']
  simp only
  constructor
  · split_ifs with h
    · exact scale_in_range _ _ hf0 hb1 h
    · have h0 : (world.grid y x).pheromone_food = 0 :=
        le_antisymm (le_trans hb1 (not_lt.mp h)) hf0
      rw [h0]
      exact ⟨le_refl _, hmax⟩
  · split_ifs with h
    · exact scale_in_range _ _ hh0 hb2 h
    · have h0 : (world.grid y x).pheromone_home = 0 :=
        le_antisymm (le_trans hb2 (not_lt.mp h)) hh0
      rw [h0]
      exact ⟨le_refl _, hmax⟩

theorem cap_eq_min (v : ℚ) :
    (if v > PHEROMONE_MAX then PHEROMONE_MAX else v) = min v PHEROMONE_MAX := by
  split_ifs with h
  · exact (min_eq_right (le_of_lt h)).symm
  · exact (min_eq_left (not_lt.mp h)).symm

theorem setCell_self (g : Int → Int → Cell) (y x : Int) : setCell g y x (g y x) = g := by
  funext y' x'
  unfold setCell
  split_ifs with h
  · rw [h.1, h.2]
  · rfl

/-- The grid after `deposit_pheromone` for an ant standing in bounds. -/
theorem deposit_pheromone_of_valid (world : World) (ant : Ant)
    (hva : is_valid_position world ant.pos.x ant.pos.y = true) :
    deposit_pheromone world ant
      = { world with grid := (setCell world.grid ant.pos.y ant.pos.x
            (deposit_cell ant.state (world.grid ant.pos.y ant.pos.x))) } := by
  unfold deposit_pheromone deposit_cell
  rw [get_cell_of_valid world _ _ hva]
  simp only [cap_eq_min]
  by_cases h1 : ant.state &&& ANT_STATE_SEARCHING ≠ 0
  · simp only [h1, if_true, ne_eq, not_false_eq_true]
  · by_cases h2 : ant.state &&& ANT_STATE_RETURNING ≠ 0
    · simp only [h1, h2, if_true, if_false, ne_eq, not_false_eq_true]
    · simp only [h1, h2, if_false, setCell_self]

theorem deposit_pheromone_of_invalid (world : World) (ant : Ant)
    (hva : is_valid_position world ant.pos.x ant.pos.y = false) :
    deposit_pheromone world ant = world := by
  unfold deposit_pheromone
  rw [get_cell_of_invalid world _ _ hva]

theorem deposit_cell_in_range (state : Nat) (cell : Cell)
    (hf : 0 ≤ cell.pheromone_food ∧ cell.pheromone_food ≤ PHEROMONE_MAX)
    (hh : 0 ≤ cell.pheromone_home ∧ cell.pheromone_home ≤ PHEROMONE_MAX) :
    (0 ≤ (deposit_cell state cell).pheromone_food ∧
      (deposit_cell state cell).pheromone_food ≤ PHEROMONE_MAX) ∧
    (0 ≤ (deposit_cell state cell).pheromone_home ∧
      (deposit_cell state cell).pheromone_home ≤ PHEROMONE_MAX) := by
  have hdep : (0 : ℚ) ≤ PHEROMONE_DEPOSIT_AMOUNT := by norm_num [PHEROMONE_DEPOSIT_AMOUNT]
  have hmax : (0 : ℚ) ≤ PHEROMONE_MAX := by norm_num [PHEROMONE_MAX]
  unfold deposit_cell
  split_ifs
  · exact ⟨hf, le_min (add_nonneg hh.1 hdep) hmax, min_le_right _ _⟩
  · exact ⟨⟨le_min (add_nonneg hf.1 hdep) hmax, min_le_right _ _⟩, hh⟩
  · exact ⟨hf, hh⟩

theorem deposit_in_range (world : World) (ant : Ant) (hr : pheromones_in_range world) :
    pheromones_in_range (deposit_pheromone world ant) := by
  by_cases hva : is_valid_position world ant.pos.x ant.pos.y = true
  · rw [deposit_pheromone_of_valid world ant hva]
    intro x y hv
    have hv' : is_valid_position world x y = true := hv
    simp only
    by_cases hp : y = ant.pos.y ∧ x = ant.pos.x
    · rw [hp.1, hp.2, setCell_same]
      exact deposit_cell_in_range ant.state (world.grid ant.pos.y ant.pos.x)
        (hr ant.pos.x ant.pos.y hva).1 (hr ant.pos.x ant.pos.y hva).2
    · rw [setCell_other _ _ _ _ _ _ hp]
      exact hr x y hv'
  · have hva' : is_valid_position world ant.pos.x ant.pos.y = false := by
      simpa using hva
    rw [deposit_pheromone_of_invalid world ant hva']
    exact hr

theorem diffuse_in_range (world : World) (hr : pheromones_in_range world) :
    pheromones_in_range (diffuse_pheromones world) := by
  obtain ⟨hf, hh, _, _⟩ := diffuse_traced_inv world hr
  intro x y hv
  have hv' : is_valid_position world x y = true := hv
  rw [← diffuse_pheromones_traced_fst]
  exact ⟨hf.range x y hv', hh.range x y hv'⟩

/-- C1: for a world whose food-trail and home-trail values all lie in
`[0, PHEROMONE_MAX]`, each of `evaporate_pheromones`, `diffuse_pheromones`,
`normalize_pheromones`, `reset_pheromones` and `deposit_pheromone` (for any
ant) returns a world whose values all lie in `[0, PHEROMONE_MAX]`. -/
theorem pheromone_range_invariant (world : World) (hr : pheromones_in_range world) :
    pheromones_in_range (evaporate_pheromones world) ∧
    pheromones_in_range (diffuse_pheromones world) ∧
    pheromones_in_range (normalize_pheromones world) ∧
    pheromones_in_range (reset_pheromones world) ∧
    (∀ ant : Ant, pheromones_in_range (deposit_pheromone world ant)) :=
  ⟨evaporate_in_range world hr, diffuse_in_range world hr,
   normalize_in_range world hr.nonneg, reset_in_range world,
   fun ant => deposit_in_range world ant hr⟩

theorem pheromone_range_invariant_witness :
    pheromones_in_range (evaporate_pheromones ramp_world) ∧
    pheromones_in_range (diffuse_pheromones ramp_world) ∧
    pheromones_in_range (normalize_pheromones ramp_world) ∧
    pheromones_in_range (reset_pheromones ramp_world) ∧
    pheromones_in_range (deposit_pheromone ramp_world (mk_ant 1 1 ANT_STATE_RETURNING)) :=
  have h := pheromone_range_invariant ramp_world ramp_world_in_range
  ⟨h.1, h.2.1, h.2.2.1, h.2.2.2.1, h.2.2.2.2 (mk_ant 1 1 ANT_STATE_RETURNING)⟩

/-! ## Diffusion, one field at a time -/

theorem diffuse_cell_food (world : World) (tf th : Int → Int → ℚ) (x y : Int)
    (g : Int → Int → Cell) :
    food_of (diffuse_cell world tf th x y g) = diffuse_cell_field world tf x y (food_of g) := by
  have h := diffuse_cell_traced_food world tf th x y (g, false, false)
  rw [diffuse_cell_traced_fst] at h
  exact h

theorem diffuse_cell_home (world : World) (tf th : Int → Int → ℚ) (x y : Int)
    (g : Int → Int → Cell) :
    home_of (diffuse_cell world tf th x y g) = diffuse_cell_field world th x y (home_of g) := by
  have h := diffuse_cell_traced_home world tf th x y (g, false, false)
  rw [diffuse_cell_traced_fst] at h
  exact h

/-- The food trail after `diffuse_pheromones` is the sweep of the one-field
step over the food trail. -/
theorem diffuse_food (world : World) :
    food_of (diffuse_pheromones world).grid
      = forRange world.height (fun y f =>
          forRange world.width (fun x f =>
            diffuse_cell_field world (food_of world.grid) x y f) f) (food_of world.grid) := by
  unfold diffuse_pheromones
  simp only
  apply forRange_proj food_of
  intro y g
  apply forRange_proj food_of
  intro x g
  exact diffuse_cell_food world _ _ x y g

/-- The home trail after `diffuse_pheromones` is the sweep of the one-field
step over the home trail. -/
theorem diffuse_home (world : World) :
    home_of (diffuse_pheromones world).grid
      = forRange world.height (fun y f =>
          forRange world.width (fun x f =>
            diffuse_cell_field world (home_of world.grid) x y f) f) (home_of world.grid) := by
  unfold diffuse_pheromones
  simp only
  apply forRange_proj home_of
  intro y g
  apply forRange_proj home_of
  intro x g
  exact diffuse_cell_home world _ _ x y g

theorem forRange_one {σ : Type} (body : Int → σ → σ) (s : σ) :
    forRange 1 body s = body 0 s := by
  have h := forRange_succ 0 body s
  rw [forRange_zero] at h
  simpa using h

theorem forRange_two {σ : Type} (body : Int → σ → σ) (s : σ) :
    forRange 2 body s = body 1 (body 0 s) := by
  have h := forRange_succ 1 body s
  have h1 : ((1 : Nat) : Int) + 1 = 2 := rfl
  have h2 : ((1 : Nat) : Int) = 1 := rfl
  rw [h1, h2, forRange_one] at h
  exact h

/-! ## Diffusion evaluated on a saturated 2x1 grid -/

theorem diffuse_saturated_pair :
    ((diffuse_pheromones (mk_world 2 1 (fun _ _ => 1000) (fun _ _ => 0))).grid 0 0).pheromone_food
      = 1000 ∧
    ((diffuse_pheromones (mk_world 2 1 (fun _ _ => 1000) (fun _ _ => 0))).grid 0 1).pheromone_food
      = 990 := by
  have h := diffuse_food (mk_world 2 1 (fun _ _ => 1000) (fun _ _ => 0))
  have hh : (mk_world 2 1 (fun _ _ => 1000) (fun _ _ => 0)).height = 1 := rfl
  have hw : (mk_world 2 1 (fun _ _ => 1000) (fun _ _ => 0)).width = 2 := rfl
  rw [hh, hw, forRange_one, forRange_two] at h
  have n0 : neighbor_count (mk_world 2 1 (fun _ _ => 1000) (fun _ _ => 0)) 0 0 = 1 := by
    decide
  have n1 : neighbor_count (mk_world 2 1 (fun _ _ => 1000) (fun _ _ => 0)) 1 0 = 1 := by
    decide
  have e0 := congrFun (congrFun h 0) 0
  have e1 := congrFun (congrFun h 0) 1
  simp only [food_of] at e0 e1
  have hf : ∀ y x : Int,
      food_of (mk_world 2 1 (fun _ _ => 1000) (fun _ _ => 0)).grid y x = 1000 :=
    fun _ _ => rfl
  have hv : ∀ x y : Int, is_valid_position (mk_world 2 1 (fun _ _ => 1000) (fun _ _ => 0)) x y
      = (decide (0 ≤ x) && decide (x < 2) && decide (0 ≤ y) && decide (y < 1)) :=
    fun _ _ => rfl
  rw [e0, e1]
  simp only [diffuse_cell_field, transfer, n0, n1, hf, hv]
  constructor <;>
  norm_num [neighbor_offsets, PHEROMONE_MAX, PHEROMONE_DIFFUSION_RATE]

/-! ## C8: diffusion is the synchronous snapshot update, in exact arithmetic -/

/-- At the ceiling the exact pass depends on the scan order: on the 2x1 world
holding 1000 in both cells (its own mirror image) the row-major pass leaves
1000 in the left cell and 990 in the right one, so the result is not its own
mirror image. -/
theorem diffusion_mirror_saturated :
    pheromones_in_range (mk_world 2 1 (fun _ _ => 1000) (fun _ _ => 0)) ∧
    ((diffuse_pheromones (mirror_world (mk_world 2 1 (fun _ _ => 1000) (fun _ _ => 0)))).grid
        0 0).pheromone_food = 1000 ∧
    ((mirror_world (diffuse_pheromones (mk_world 2 1 (fun _ _ => 1000) (fun _ _ => 0)))).grid
        0 0).pheromone_food = 990 ∧
    ((diffuse_pheromones (mirror_world (mk_world 2 1 (fun _ _ => 1000) (fun _ _ => 0)))).grid
        0 0).pheromone_food
      ≠ ((mirror_world (diffuse_pheromones (mk_world 2 1 (fun _ _ => 1000) (fun _ _ => 0)))).grid
        0 0).pheromone_food := by
  have hm : mirror_world (mk_world 2 1 (fun _ _ => 1000) (fun _ _ => 0))
      = mk_world 2 1 (fun _ _ => 1000) (fun _ _ => 0) := rfl
  have h1 : ((diffuse_pheromones (mirror_world
      (mk_world 2 1 (fun _ _ => 1000) (fun _ _ => 0)))).grid 0 0).pheromone_food = 1000 := by
    rw [hm]
    exact diffuse_saturated_pair.1
  have h2 : ((mirror_world (diffuse_pheromones
      (mk_world 2 1 (fun _ _ => 1000) (fun _ _ => 0)))).grid 0 0).pheromone_food = 990 :=
    diffuse_saturated_pair.2
  refine ⟨mk_world_const_in_range 2 1 1000 0 (by norm_num) (by norm_num), h1, h2, ?_⟩
  rw [h1, h2]
  norm_num

/-- C11: `evaporate_pheromones` replaces the food-trail and the home-trail
value `v` of every in-bounds cell by `v * (1 - PHEROMONE_EVAPORATION_RATE)` if
that product is at least 0.1 and by 0 otherwise, each cell and each field on
its own. -/
theorem evaporation_rule (world : World) (x y : Int)
    (hv : is_valid_position world x y = true) :
    ((evaporate_pheromones world).grid y x).pheromone_food
      = (if (world.grid y x).pheromone_food * (1 - PHEROMONE_EVAPORATION_RATE) ≥ 1 / 10
         then (world.grid y x).pheromone_food * (1 - PHEROMONE_EVAPORATION_RATE) else 0) ∧
    ((evaporate_pheromones world).grid y x).pheromone_home
      = (if (world.grid y x).pheromone_home * (1 - PHEROMONE_EVAPORATION_RATE) ≥ 1 / 10
         then (world.grid y x).pheromone_home * (1 - PHEROMONE_EVAPORATION_RATE) else 0) := by
  rw [evaporate_grid, if_pos hv]
  unfold evaporate_cell
  simp only [ge_iff_le]
  constructor
  · split_ifs with h1 h2 h2
    · exact absurd h2 (not_le.mpr h1)
    · rfl
    · rfl
    · exact absurd (le_of_not_lt h1) h2
  · split_ifs with h1 h2 h2
    · exact absurd h2 (not_le.mpr h1)
    · rfl
    · rfl
    · exact absurd (le_of_not_lt h1) h2

theorem evaporation_rule_witness :
    ((evaporate_pheromones ramp_world).grid 2 1).pheromone_food
      = (if (ramp_world.grid 2 1).pheromone_food * (1 - PHEROMONE_EVAPORATION_RATE) ≥ 1 / 10
         then (ramp_world.grid 2 1).pheromone_food * (1 - PHEROMONE_EVAPORATION_RATE)
         else 0) ∧
    ((evaporate_pheromones ramp_world).grid 2 1).pheromone_home
      = (if (ramp_world.grid 2 1).pheromone_home * (1 - PHEROMONE_EVAPORATION_RATE) ≥ 1 / 10
         then (ramp_world.grid 2 1).pheromone_home * (1 - PHEROMONE_EVAPORATION_RATE)
         else 0) :=
  evaporation_rule ramp_world 1 2 (by decide)

/-- A check of `evaporate_pheromones` by evaluation: in the ramp world the
cell `(1, 2)` holds 7 on the food trail, which becomes 6.86. -/
theorem evaporate_ramp_world :
    ((evaporate_pheromones ramp_world).grid 2 1).pheromone_food = 686 / 100 := by
  rw [evaporate_grid, if_pos (by decide)]
  norm_num [evaporate_cell, ramp_world, mk_world, PHEROMONE_EVAPORATION_RATE]

/-! ## C12: evaporation never increases a value -/

theorem evaporate_valid (world : World) (n : Nat) (x y : Int) :
    is_valid_position (evaporate_pheromones^[n] world) x y = is_valid_position world x y := by
  induction n with
  | zero => rfl
  | succ n ih =>
    rw [Function.iterate_succ_apply']
    exact ih

theorem evaporate_value_le (v : ℚ) (h0 : 0 ≤ v) :
    0 ≤ (if v * (1 - PHEROMONE_EVAPORATION_RATE) < 1 / 10 then 0
         else v * (1 - PHEROMONE_EVAPORATION_RATE)) ∧
    (if v * (1 - PHEROMONE_EVAPORATION_RATE) < 1 / 10 then 0
     else v * (1 - PHEROMONE_EVAPORATION_RATE)) ≤ v := by
  simp only [PHEROMONE_EVAPORATION_RATE]
  split_ifs
  · exact ⟨le_refl _, h0⟩
  · constructor <;> linarith

/-- After any number of evaporation passes every in-bounds value lies between
0 and the value it started from. -/
theorem evaporate_iterate_le (world : World) (hn : pheromones_nonneg world) (n : Nat)
    (x y : Int) (hv : is_valid_position world x y = true) :
    (0 ≤ ((evaporate_pheromones^[n] world).grid y x).pheromone_food ∧
      ((evaporate_pheromones^[n] world).grid y x).pheromone_food
        ≤ (world.grid y x).pheromone_food) ∧
    (0 ≤ ((evaporate_pheromones^[n] world).grid y x).pheromone_home ∧
      ((evaporate_pheromones^[n] world).grid y x).pheromone_home
        ≤ (world.grid y x).pheromone_home) := by
  induction n with
  | zero => exact ⟨⟨(hn x y hv).1, le_refl _⟩, ⟨(hn x y hv).2, le_refl _⟩⟩
  | succ n ih =>
    have hv' : is_valid_position (evaporate_pheromones^[n] world) x y = true := by
      rw [evaporate_valid]
      exact hv
    rw [Function.iterate_succ_apply', evaporate_grid, if_pos hv']
    obtain ⟨⟨hf0, hf1⟩, ⟨hh0, hh1⟩⟩ := ih
    have hf := evaporate_value_le _ hf0
    have hh := evaporate_value_le _ hh0
    exact ⟨⟨hf.1, le_trans hf.2 hf1⟩, ⟨hh.1, le_trans hh.2 hh1⟩⟩

/-- C12: for a world with non-negative pheromone values and any number `n` of
successive `evaporate_pheromones` calls, every in-bounds value `v'` after the
calls satisfies `0 ≤ v' ≤ v` for its value `v` before them, and a value that
is 0 is still 0. -/
theorem evaporation_never_increases (world : World) (hn : pheromones_nonneg world) (n : Nat)
    (x y : Int) (hv : is_valid_position world x y = true) :
    (0 ≤ ((evaporate_pheromones^[n] world).grid y x).pheromone_food ∧
      ((evaporate_pheromones^[n] world).grid y x).pheromone_food
        ≤ (world.grid y x).pheromone_food) ∧
    (0 ≤ ((evaporate_pheromones^[n] world).grid y x).pheromone_home ∧
      ((evaporate_pheromones^[n] world).grid y x).pheromone_home
        ≤ (world.grid y x).pheromone_home) ∧
    ((world.grid y x).pheromone_food = 0 →
      ((evaporate_pheromones^[n] world).grid y x).pheromone_food = 0) ∧
    ((world.grid y x).pheromone_home = 0 →
      ((evaporate_pheromones^[n] world).grid y x).pheromone_home = 0) := by
  obtain ⟨hf, hh⟩ := evaporate_iterate_le world hn n x y hv
  refine ⟨hf, hh, ?_, ?_⟩
  · intro h0
    rw [h0] at hf
    exact le_antisymm hf.2 hf.1
  · intro h0
    rw [h0] at hh
    exact le_antisymm hh.2 hh.1

theorem evaporation_never_increases_witness :
    (0 ≤ ((evaporate_pheromones^[3] ramp_world).grid 2 1).pheromone_food ∧
      ((evaporate_pheromones^[3] ramp_world).grid 2 1).pheromone_food
        ≤ (ramp_world.grid 2 1).pheromone_food) ∧
    ((evaporate_pheromones^[3] ramp_world).grid 0 0).pheromone_food = 0 :=
  ⟨(evaporation_never_increases ramp_world ramp_world_nonneg 3 1 2 (by decide)).1,
   (evaporation_never_increases ramp_world ramp_world_nonneg 3 0 0 (by decide)).2.2.1
     (by simp [ramp_world, mk_world])⟩

/-! ## C13: normalisation -/

/-- The maximum found for the food trail is the global maximum of a
non-negative food trail. -/
theorem find_max_food_eq (world : World) (m : ℚ)
    (h0 : ∀ x y, is_valid_position world x y = true → 0 ≤ (world.grid y x).pheromone_food)
    (hm : is_field_max world (food_of world.grid) m) : (find_max world).1 = m := by
  obtain ⟨_, hbound, hatt, _⟩ := find_max_spec world
  obtain ⟨hle, x, y, hv, hxy⟩ := hm
  apply le_antisymm
  · rcases hatt with h | ⟨a, b, hab, heq⟩
    · rw [h, ← hxy]
      exact h0 x y hv
    · rw [← heq]
      exact hle a b hab
  · rw [← hxy]
    exact (hbound x y hv).1

/-- The maximum found for the home trail is the global maximum of a
non-negative home trail. -/
theorem find_max_home_eq (world : World) (m : ℚ)
    (h0 : ∀ x y, is_valid_position world x y = true → 0 ≤ (world.grid y x).pheromone_home)
    (hm : is_field_max world (home_of world.grid) m) : (find_max world).2 = m := by
  obtain ⟨_, hbound, _, hatt⟩ := find_max_spec world
  obtain ⟨hle, x, y, hv, hxy⟩ := hm
  apply le_antisymm
  · rcases hatt with h | ⟨a, b, hab, heq⟩
    · rw [h, ← hxy]
      exact h0 x y hv
    · rw [← heq]
      exact hle a b hab
  · rw [← hxy]
    exact (hbound x y hv).2

theorem normalize_food (world : World) (x y : Int)
    (hv : is_valid_position world x y = true) :
    ((normalize_pheromones world).grid y x).pheromone_food
      = if (find_max world).1 > 0 then
          ((world.grid y x).pheromone_food / (find_max world).1) * PHEROMONE_MAX
        else (world.grid y x).pheromone_food := by
  rw [normalize_grid, if_pos hv]

theorem normalize_home (world : World) (x y : Int)
    (hv : is_valid_position world x y = true) :
    ((normalize_pheromones world).grid y x).pheromone_home
      = if (find_max world).2 > 0 then
          ((world.grid y x).pheromone_home / (find_max world).2) * PHEROMONE_MAX
        else (world.grid y x).pheromone_home := by
  rw [normalize_grid, if_pos hv]

theorem valid_congr (w1 w2 : World) (hw : w2.width = w1.width) (hh : w2.height = w1.height)
    (x y : Int) : is_valid_position w2 x y = is_valid_position w1 x y := by
  unfold is_valid_position
  rw [hw, hh]

/-- The maximum found for the food trail depends on the food trail only. -/
theorem find_max_food_congr (w1 w2 : World) (hw : w2.width = w1.width)
    (hh : w2.height = w1.height)
    (hf : ∀ x y, is_valid_position w1 x y = true →
      (w2.grid y x).pheromone_food = (w1.grid y x).pheromone_food) :
    (find_max w2).1 = (find_max w1).1 := by
  obtain ⟨⟨h10, _⟩, hb1, ha1, _⟩ := find_max_spec w1
  obtain ⟨⟨h20, _⟩, hb2, ha2, _⟩ := find_max_spec w2
  have hvc := valid_congr w1 w2 hw hh
  apply le_antisymm
  · rcases ha2 with h | ⟨a, b, hab, heq⟩
    · rw [h]
      exact h10
    · rw [hvc] at hab
      rw [← heq, hf a b hab]
      exact (hb1 a b hab).1
  · rcases ha1 with h | ⟨a, b, hab, heq⟩
    · rw [h]
      exact h20
    · rw [← heq, ← hf a b hab]
      exact (hb2 a b (by rw [hvc]; exact hab)).1

/-- The maximum found for the home trail depends on the home trail only. -/
theorem find_max_home_congr (w1 w2 : World) (hw : w2.width = w1.width)
    (hh : w2.height = w1.height)
    (hf : ∀ x y, is_valid_position w1 x y = true →
      (w2.grid y x).pheromone_home = (w1.grid y x).pheromone_home) :
    (find_max w2).2 = (find_max w1).2 := by
  obtain ⟨⟨_, h10⟩, hb1, _, ha1⟩ := find_max_spec w1
  obtain ⟨⟨_, h20⟩, hb2, _, ha2⟩ := find_max_spec w2
  have hvc := valid_congr w1 w2 hw hh
  apply le_antisymm
  · rcases ha2 with h | ⟨a, b, hab, heq⟩
    · rw [h]
      exact h10
    · rw [hvc] at hab
      rw [← heq, hf a b hab]
      exact (hb1 a b hab).2
  · rcases ha1 with h | ⟨a, b, hab, heq⟩
    · rw [h]
      exact h20
    · rw [← heq, ← hf a b hab]
      exact (hb2 a b (by rw [hvc]; exact hab)).2

/-- C13: for a world with non-negative values, `normalize_pheromones` leaves a
field whose global maximum is 0 unchanged and replaces every value `v` of a
field whose global maximum is `m > 0` by `(v / m) * PHEROMONE_MAX`, so that the
new global maximum is `PHEROMONE_MAX`; this holds for the food and for the
home field, and the result for one field is the same in every world of the
same size that holds the same values in that field. -/
theorem normalize_rescales (world : World) (hn : pheromones_nonneg world) :
    (∀ m, is_field_max world (food_of world.grid) m →
      (m = 0 → ∀ x y, is_valid_position world x y = true →
        ((normalize_pheromones world).grid y x).pheromone_food
          = (world.grid y x).pheromone_food) ∧
      (m > 0 →
        (∀ x y, is_valid_position world x y = true →
          ((normalize_pheromones world).grid y x).pheromone_food
            = ((world.grid y x).pheromone_food / m) * PHEROMONE_MAX) ∧
        is_field_max world (food_of (normalize_pheromones world).grid) PHEROMONE_MAX)) ∧
    (∀ m, is_field_max world (home_of world.grid) m →
      (m = 0 → ∀ x y, is_valid_position world x y = true →
        ((normalize_pheromones world).grid y x).pheromone_home
          = (world.grid y x).pheromone_home) ∧
      (m > 0 →
        (∀ x y, is_valid_position world x y = true →
          ((normalize_pheromones world).grid y x).pheromone_home
            = ((world.grid y x).pheromone_home / m) * PHEROMONE_MAX) ∧
        is_field_max world (home_of (normalize_pheromones world).grid) PHEROMONE_MAX)) ∧
    (∀ other : World, other.width = world.width → other.height = world.height →
      (∀ x y, is_valid_position world x y = true →
        (other.grid y x).pheromone_food = (world.grid y x).pheromone_food) →
      ∀ x y, is_valid_position world x y = true →
        ((normalize_pheromones other).grid y x).pheromone_food
          = ((normalize_pheromones world).grid y x).pheromone_food) ∧
    (∀ other : World, other.width = world.width → other.height = world.height →
      (∀ x y, is_valid_position world x y = true →
        (other.grid y x).pheromone_home = (world.grid y x).pheromone_home) →
      ∀ x y, is_valid_position world x y = true →
        ((normalize_pheromones other).grid y x).pheromone_home
          = ((normalize_pheromones world).grid y x).pheromone_home) := by
  refine ⟨?_, ?_, ?_, ?_⟩
  · intro m hm
    have hfm := find_max_food_eq world m (fun x y hv => (hn x y hv).1) hm
    constructor
    · intro h0 x y hv
      rw [normalize_food world x y hv, hfm, h0, if_neg (lt_irrefl _)]
    · intro hpos
      have hval : ∀ x y, is_valid_position world x y = true →
          ((normalize_pheromones world).grid y x).pheromone_food
            = ((world.grid y x).pheromone_food / m) * PHEROMONE_MAX := by
        intro x y hv
        rw [normalize_food world x y hv, hfm, if_pos hpos]
      refine ⟨hval, ?_, ?_⟩
      · intro x y hv
        show ((normalize_pheromones world).grid y x).pheromone_food ≤ PHEROMONE_MAX
        rw [hval x y hv]
        exact (scale_in_range _ _ (hn x y hv).1 (hm.1 x y hv) hpos).2
      · obtain ⟨x, y, hv, hxy⟩ := hm.2
        refine ⟨x, y, hv, ?_⟩
        show ((normalize_pheromones world).grid y x).pheromone_food = PHEROMONE_MAX
        have hxy' : (world.grid y x).pheromone_food = m := hxy
        rw [hval x y hv, hxy', div_self (ne_of_gt hpos), one_mul]
  · intro m hm
    have hfm := find_max_home_eq world m (fun x y hv => (hn x y hv).2) hm
    constructor
    · intro h0 x y hv
      rw [normalize_home world x y hv, hfm, h0, if_neg (lt_irrefl _)]
    · intro hpos
      have hval : ∀ x y, is_valid_position world x y = true →
          ((normalize_pheromones world).grid y x).pheromone_home
            = ((world.grid y x).pheromone_home / m) * PHEROMONE_MAX := by
        intro x y hv
        rw [normalize_home world x y hv, hfm, if_pos hpos]
      refine ⟨hval, ?_, ?_⟩
      · intro x y hv
        show ((normalize_pheromones world).grid y x).pheromone_home ≤ PHEROMONE_MAX
        rw [hval x y hv]
        exact (scale_in_range _ _ (hn x y hv).2 (hm.1 x y hv) hpos).2
      · obtain ⟨x, y, hv, hxy⟩ := hm.2
        refine ⟨x, y, hv, ?_⟩
        show ((normalize_pheromones world).grid y x).pheromone_home = PHEROMONE_MAX
        have hxy' : (world.grid y x).pheromone_home = m := hxy
        rw [hval x y hv, hxy', div_self (ne_of_gt hpos), one_mul]
  · intro other hw hh hf x y hv
    have hv' : is_valid_position other x y = true := by
      rw [valid_congr world other hw hh]
      exact hv
    rw [normalize_food world x y hv, normalize_food other x y hv',
      find_max_food_congr world other hw hh hf, hf x y hv]
  · intro other hw hh hf x y hv
    have hv' : is_valid_position other x y = true := by
      rw [valid_congr world other hw hh]
      exact hv
    rw [normalize_home world x y hv, normalize_home other x y hv',
      find_max_home_congr world other hw hh hf, hf x y hv]

theorem ramp_world_food_max : is_field_max ramp_world (food_of ramp_world.grid) 8 := by
  constructor
  · intro x y hv
    rw [is_valid_position_iff] at hv
    have hw : ramp_world.width = 3 := rfl
    have hh : ramp_world.height = 3 := rfl
    rw [hw, hh] at hv
    have h1 : 3 * y + x ≤ 8 := by omega
    show ((3 * y + x : Int) : ℚ) ≤ 8
    exact_mod_cast h1
  · refine ⟨2, 2, by decide, ?_⟩
    show (((3 : Int) * 2 + 2 : Int) : ℚ) = 8
    norm_num

theorem normalize_rescales_witness :
    ((normalize_pheromones ramp_world).grid 1 1).pheromone_food
      = ((ramp_world.grid 1 1).pheromone_food / 8) * PHEROMONE_MAX ∧
    is_field_max ramp_world (food_of (normalize_pheromones ramp_world).grid) PHEROMONE_MAX :=
  have h := ((normalize_rescales ramp_world ramp_world_nonneg).1 8 ramp_world_food_max).2
    (by norm_num)
  ⟨h.1 1 1 (by decide), h.2⟩

/-! ## C14: a searching ant lays home trail -/

theorem deposit_cell_searching (state : Nat) (cell : Cell)
    (hs : state &&& ANT_STATE_SEARCHING ≠ 0) :
    deposit_cell state cell
      = { cell with
          pheromone_home := (min (cell.pheromone_home + PHEROMONE_DEPOSIT_AMOUNT)
            PHEROMONE_MAX) } := by
  unfold deposit_cell
  rw [if_pos hs]

theorem deposit_cell_returning (state : Nat) (cell : Cell)
    (hs : ¬ state &&& ANT_STATE_SEARCHING ≠ 0) (hr : state &&& ANT_STATE_RETURNING ≠ 0) :
    deposit_cell state cell
      = { cell with
          pheromone_food := (min (cell.pheromone_food + PHEROMONE_DEPOSIT_AMOUNT)
            PHEROMONE_MAX) } := by
  unfold deposit_cell
  rw [if_neg hs, if_pos hr]

theorem deposit_cell_idle (state : Nat) (cell : Cell)
    (hs : ¬ state &&& ANT_STATE_SEARCHING ≠ 0) (hr : ¬ state &&& ANT_STATE_RETURNING ≠ 0) :
    deposit_cell state cell = cell := by
  unfold deposit_cell
  rw [if_neg hs, if_neg hr]

theorem searching_ant_home_value (world : World) (ant : Ant)
    (hs : ant.state &&& ANT_STATE_SEARCHING ≠ 0)
    (hv : is_valid_position world ant.pos.x ant.pos.y = true) :
    ((deposit_pheromone world ant).grid ant.pos.y ant.pos.x).pheromone_home
      = min ((world.grid ant.pos.y ant.pos.x).pheromone_home + PHEROMONE_DEPOSIT_AMOUNT)
          PHEROMONE_MAX := by
  have h := deposit_pheromone_of_valid world ant hv
  rw [deposit_cell_searching ant.state _ hs] at h
  rw [h]
  simp only [setCell_same]

/-- C14: for an ant with the SEARCHING flag set standing on an in-bounds cell,
`deposit_pheromone` returns the world in which that cell's home trail is
`min (old + PHEROMONE_DEPOSIT_AMOUNT) PHEROMONE_MAX` and everything else is as
before: the other fields of the cell, the other cells, and the rest of the
world record. -/
theorem searching_ant_lays_home_trail (world : World) (ant : Ant)
    (hs : ant.state &&& ANT_STATE_SEARCHING ≠ 0)
    (hv : is_valid_position world ant.pos.x ant.pos.y = true) :
    deposit_pheromone world ant
      = { world with grid := (setCell world.grid ant.pos.y ant.pos.x
            { world.grid ant.pos.y ant.pos.x with
              pheromone_home := (min ((world.grid ant.pos.y ant.pos.x).pheromone_home
                + PHEROMONE_DEPOSIT_AMOUNT) PHEROMONE_MAX) }) } ∧
    ((deposit_pheromone world ant).grid ant.pos.y ant.pos.x).pheromone_home
      = min ((world.grid ant.pos.y ant.pos.x).pheromone_home + PHEROMONE_DEPOSIT_AMOUNT)
          PHEROMONE_MAX ∧
    ((deposit_pheromone world ant).grid ant.pos.y ant.pos.x).pheromone_food
      = (world.grid ant.pos.y ant.pos.x).pheromone_food ∧
    (∀ x y : Int, ¬ (y = ant.pos.y ∧ x = ant.pos.x) →
      (deposit_pheromone world ant).grid y x = world.grid y x) := by
  have h := deposit_pheromone_of_valid world ant hv
  rw [deposit_cell_searching ant.state _ hs] at h
  refine ⟨h, ?_, ?_, ?_⟩
  · rw [h]
    simp only [setCell_same]
  · rw [h]
    simp only [setCell_same]
  · intro x y hne
    rw [h]
    exact setCell_other _ _ _ _ _ _ hne

theorem searching_ant_lays_home_trail_witness :
    ((deposit_pheromone ramp_world (mk_ant 2 1 (ANT_STATE_SEARCHING ||| ANT_STATE_FOLLOWING))).grid
        1 2).pheromone_home
      = min ((ramp_world.grid 1 2).pheromone_home + PHEROMONE_DEPOSIT_AMOUNT) PHEROMONE_MAX ∧
    ((deposit_pheromone ramp_world (mk_ant 2 1 (ANT_STATE_SEARCHING ||| ANT_STATE_FOLLOWING))).grid
        1 2).pheromone_food = (ramp_world.grid 1 2).pheromone_food :=
  have h := searching_ant_lays_home_trail ramp_world
    (mk_ant 2 1 (ANT_STATE_SEARCHING ||| ANT_STATE_FOLLOWING)) (by decide) (by decide)
  ⟨h.2.1, h.2.2.1⟩

/-! ## C15: a returning ant lays food trail -/

/-- C15, as stated, fails: an ant with both the RETURNING and the SEARCHING
flag takes the first branch of `deposit_pheromone` and lays home trail; on a
1x1 world holding 0 the food trail stays 0 instead of becoming 100. -/
theorem returning_and_searching_ant :
    (mk_ant 0 0 (ANT_STATE_RETURNING ||| ANT_STATE_SEARCHING)).state
        &&& ANT_STATE_RETURNING ≠ 0 ∧
    is_valid_position (mk_world 1 1 (fun _ _ => 0) (fun _ _ => 0)) 0 0 = true ∧
    ((deposit_pheromone (mk_world 1 1 (fun _ _ => 0) (fun _ _ => 0))
        (mk_ant 0 0 (ANT_STATE_RETURNING ||| ANT_STATE_SEARCHING))).grid 0 0).pheromone_food
      = 0 ∧
    ((deposit_pheromone (mk_world 1 1 (fun _ _ => 0) (fun _ _ => 0))
        (mk_ant 0 0 (ANT_STATE_RETURNING ||| ANT_STATE_SEARCHING))).grid 0 0).pheromone_food
      ≠ min (((mk_world 1 1 (fun _ _ => 0) (fun _ _ => 0)).grid 0 0).pheromone_food
          + PHEROMONE_DEPOSIT_AMOUNT) PHEROMONE_MAX := by
  have hs : (mk_ant 0 0 (ANT_STATE_RETURNING ||| ANT_STATE_SEARCHING)).state
      &&& ANT_STATE_SEARCHING ≠ 0 := by decide
  have hv : is_valid_position (mk_world 1 1 (fun _ _ => 0) (fun _ _ => 0))
      (mk_ant 0 0 (ANT_STATE_RETURNING ||| ANT_STATE_SEARCHING)).pos.x
      (mk_ant 0 0 (ANT_STATE_RETURNING ||| ANT_STATE_SEARCHING)).pos.y = true := by decide
  have h := deposit_pheromone_of_valid _ _ hv
  rw [deposit_cell_searching _ _ hs] at h
  have h0 : ((deposit_pheromone (mk_world 1 1 (fun _ _ => 0) (fun _ _ => 0))
      (mk_ant 0 0 (ANT_STATE_RETURNING ||| ANT_STATE_SEARCHING))).grid 0 0).pheromone_food
      = 0 := by
    rw [h]
    rfl
  refine ⟨by decide, by decide, h0, ?_⟩
  rw [h0]
  norm_num [mk_world, PHEROMONE_DEPOSIT_AMOUNT, PHEROMONE_MAX]

/-- C15 (amended): for an ant with the RETURNING flag set and the SEARCHING
flag clear, whatever its other flags, standing on an in-bounds cell,
`deposit_pheromone` sets that cell's food trail to
`min (old + PHEROMONE_DEPOSIT_AMOUNT) PHEROMONE_MAX`. -/
theorem returning_ant_lays_food_trail (world : World) (ant : Ant)
    (hr : ant.state &&& ANT_STATE_RETURNING ≠ 0)
    (hs : ant.state &&& ANT_STATE_SEARCHING = 0)
    (hv : is_valid_position world ant.pos.x ant.pos.y = true) :
    ((deposit_pheromone world ant).grid ant.pos.y ant.pos.x).pheromone_food
      = min ((world.grid ant.pos.y ant.pos.x).pheromone_food + PHEROMONE_DEPOSIT_AMOUNT)
          PHEROMONE_MAX := by
  have h := deposit_pheromone_of_valid world ant hv
  rw [deposit_cell_returning ant.state _ (fun hne => hne hs) hr] at h
  rw [h]
  simp only [setCell_same]

theorem returning_ant_lays_food_trail_witness :
    ((deposit_pheromone ramp_world
        (mk_ant 2 1 (ANT_STATE_RETURNING ||| ANT_STATE_CARRYING))).grid 1 2).pheromone_food
      = min ((ramp_world.grid 1 2).pheromone_food + PHEROMONE_DEPOSIT_AMOUNT)
          PHEROMONE_MAX :=
  returning_ant_lays_food_trail ramp_world
    (mk_ant 2 1 (ANT_STATE_RETURNING ||| ANT_STATE_CARRYING)) (by decide) (by decide)
    (by decide)

/-! ## C16: the deposit ignores the history of the ant -/

theorem deposit_cell_congr (s1 s2 : Nat) (cell : Cell)
    (hs : s1 &&& ANT_STATE_SEARCHING ≠ 0 ↔ s2 &&& ANT_STATE_SEARCHING ≠ 0)
    (hr : s1 &&& ANT_STATE_RETURNING ≠ 0 ↔ s2 &&& ANT_STATE_RETURNING ≠ 0) :
    deposit_cell s1 cell = deposit_cell s2 cell := by
  by_cases h1 : s1 &&& ANT_STATE_SEARCHING ≠ 0
  · rw [deposit_cell_searching s1 cell h1, deposit_cell_searching s2 cell (hs.1 h1)]
  · have h1' : ¬ s2 &&& ANT_STATE_SEARCHING ≠ 0 := fun h => h1 (hs.2 h)
    by_cases h2 : s1 &&& ANT_STATE_RETURNING ≠ 0
    · rw [deposit_cell_returning s1 cell h1 h2,
        deposit_cell_returning s2 cell h1' (hr.1 h2)]
    · have h2' : ¬ s2 &&& ANT_STATE_RETURNING ≠ 0 := fun h => h2 (hr.2 h)
      rw [deposit_cell_idle s1 cell h1 h2, deposit_cell_idle s2 cell h1' h2']

/-- C16: two ants that stand at the same position and agree on the SEARCHING
flag and on the RETURNING flag make `deposit_pheromone` return the same
world, whatever their other fields and flags. -/
theorem deposit_ignores_history (world : World) (a b : Ant)
    (hpos : a.pos = b.pos)
    (hs : a.state &&& ANT_STATE_SEARCHING ≠ 0 ↔ b.state &&& ANT_STATE_SEARCHING ≠ 0)
    (hr : a.state &&& ANT_STATE_RETURNING ≠ 0 ↔ b.state &&& ANT_STATE_RETURNING ≠ 0) :
    deposit_pheromone world a = deposit_pheromone world b := by
  by_cases hv : is_valid_position world a.pos.x a.pos.y = true
  · have hv' : is_valid_position world b.pos.x b.pos.y = true := by
      rw [← hpos]
      exact hv
    rw [deposit_pheromone_of_valid world a hv, deposit_pheromone_of_valid world b hv',
      ← hpos, deposit_cell_congr a.state b.state _ hs hr]
  · have hv0 : is_valid_position world a.pos.x a.pos.y = false := by
      simpa using hv
    have hv0' : is_valid_position world b.pos.x b.pos.y = false := by
      rw [← hpos]
      exact hv0
    rw [deposit_pheromone_of_invalid world a hv0, deposit_pheromone_of_invalid world b hv0']

theorem deposit_ignores_history_witness :
    deposit_pheromone ramp_world (mk_ant 1 1 (ANT_STATE_SEARCHING ||| ANT_STATE_TIRED))
      = deposit_pheromone ramp_world
          { mk_ant 1 1 (ANT_STATE_SEARCHING ||| ANT_STATE_SCOUT) with
            pheromone_strength := 7, steps_taken := 250, energy := 12, food_carrying := 1,
            exploration_rate := 1 / 2,
            path_history := [{ pos := ⟨0, 0⟩, position := ⟨0, 0⟩, pheromone_strength := 3 }] } :=
  deposit_ignores_history ramp_world _ _ rfl (by decide) (by decide)

/-! ## C17: reset clears the field -/

theorem get_intensity_reset (world : World) (x y type : Int) :
    get_pheromone_intensity (reset_pheromones world) x y type = 0 := by
  unfold get_pheromone_intensity
  by_cases hv : is_valid_position (reset_pheromones world) x y = true
  · have hv' : is_valid_position world x y = true := hv
    simp only [hv, Bool.not_true, Bool.false_eq_true, if_false, reset_grid, hv', if_true,
      PHEROMONE_INITIAL]
    split_ifs <;> rfl
  · have hv0 : is_valid_position (reset_pheromones world) x y = false := by
      simpa using hv
    simp only [hv0, Bool.not_false, if_true]

/-- C17: after `reset_pheromones` the food trail and the home trail of every
in-bounds cell equal `PHEROMONE_INITIAL = 0`, and `get_pheromone_intensity`
and `get_max_pheromone_neighbor` return 0 for every position and type. -/
theorem reset_clears_field (world : World) :
    PHEROMONE_INITIAL = 0 ∧
    (∀ x y, is_valid_position world x y = true →
      ((reset_pheromones world).grid y x).pheromone_food = PHEROMONE_INITIAL ∧
      ((reset_pheromones world).grid y x).pheromone_home = PHEROMONE_INITIAL) ∧
    (∀ x y type : Int, get_pheromone_intensity (reset_pheromones world) x y type = 0) ∧
    (∀ x y type : Int, get_max_pheromone_neighbor (reset_pheromones world) x y type = 0) := by
  refine ⟨rfl, ?_, get_intensity_reset world, ?_⟩
  · intro x y hv
    rw [reset_grid, if_pos hv]
    exact ⟨rfl, rfl⟩
  · intro x y type
    by_cases hv : is_valid_position (reset_pheromones world) x y = true
    · have hspec := foldl_max_spec
        (fun d : Int × Int => is_valid_position (reset_pheromones world) (x + d.1) (y + d.2))
        (fun d : Int × Int =>
          get_pheromone_intensity (reset_pheromones world) (x + d.1) (y + d.2) type)
        neighbor_offsets 0
      simp only at hspec
      rw [← get_max_eq_foldl (reset_pheromones world) x y type hv] at hspec
      rcases hspec.2.2 with h | ⟨d, _, _, h⟩
      · exact h
      · rw [h]
        exact get_intensity_reset world _ _ type
    · have hv0 : is_valid_position (reset_pheromones world) x y = false := by
        simpa using hv
      exact get_max_of_invalid _ x y type hv0

theorem reset_clears_field_witness :
    ((reset_pheromones ramp_world).grid 2 2).pheromone_food = PHEROMONE_INITIAL ∧
    ((reset_pheromones ramp_world).grid 2 2).pheromone_home = PHEROMONE_INITIAL :=
  (reset_clears_field ramp_world).2.1 2 2 (by decide)

/-! ## C18: dead ants and deposits -/

/-- C18, as stated, fails: `deposit_pheromone` never looks at the DEAD flag; an
ant with the DEAD and the SEARCHING flag on a 1x1 world holding 0 raises the
home trail to 100. -/
theorem dead_searching_ant_deposits :
    (mk_ant 0 0 (ANT_STATE_DEAD ||| ANT_STATE_SEARCHING)).state &&& ANT_STATE_DEAD ≠ 0 ∧
    ((deposit_pheromone (mk_world 1 1 (fun _ _ => 0) (fun _ _ => 0))
        (mk_ant 0 0 (ANT_STATE_DEAD ||| ANT_STATE_SEARCHING))).grid 0 0).pheromone_home
      = 100 ∧
    deposit_pheromone (mk_world 1 1 (fun _ _ => 0) (fun _ _ => 0))
        (mk_ant 0 0 (ANT_STATE_DEAD ||| ANT_STATE_SEARCHING))
      ≠ mk_world 1 1 (fun _ _ => 0) (fun _ _ => 0) := by
  have hs : (mk_ant 0 0 (ANT_STATE_DEAD ||| ANT_STATE_SEARCHING)).state
      &&& ANT_STATE_SEARCHING ≠ 0 := by decide
  have hv : is_valid_position (mk_world 1 1 (fun _ _ => 0) (fun _ _ => 0))
      (mk_ant 0 0 (ANT_STATE_DEAD ||| ANT_STATE_SEARCHING)).pos.x
      (mk_ant 0 0 (ANT_STATE_DEAD ||| ANT_STATE_SEARCHING)).pos.y = true := by decide
  have h := (searching_ant_home_value _ _ hs hv)
  have h100 : ((deposit_pheromone (mk_world 1 1 (fun _ _ => 0) (fun _ _ => 0))
      (mk_ant 0 0 (ANT_STATE_DEAD ||| ANT_STATE_SEARCHING))).grid 0 0).pheromone_home
      = 100 := by
    rw [show ((deposit_pheromone (mk_world 1 1 (fun _ _ => 0) (fun _ _ => 0))
      (mk_ant 0 0 (ANT_STATE_DEAD ||| ANT_STATE_SEARCHING))).grid 0 0).pheromone_home
      = min (((mk_world 1 1 (fun _ _ => 0) (fun _ _ => 0)).grid 0 0).pheromone_home
          + PHEROMONE_DEPOSIT_AMOUNT) PHEROMONE_MAX from h]
    norm_num [mk_world, PHEROMONE_DEPOSIT_AMOUNT, PHEROMONE_MAX]
  refine ⟨by decide, h100, ?_⟩
  intro heq
  rw [heq] at h100
  norm_num [mk_world] at h100

/-- C18 (amended): for an ant whose DEAD flag is set and whose SEARCHING and
RETURNING flags are both clear, whatever its other flags, `deposit_pheromone`
returns the world unchanged. -/
theorem dead_idle_ant_makes_no_deposit (world : World) (ant : Ant)
    (_hd : ant.state &&& ANT_STATE_DEAD ≠ 0)
    (hs : ant.state &&& ANT_STATE_SEARCHING = 0)
    (hr : ant.state &&& ANT_STATE_RETURNING = 0) :
    deposit_pheromone world ant = world := by
  by_cases hv : is_valid_position world ant.pos.x ant.pos.y = true
  · rw [deposit_pheromone_of_valid world ant hv,
      deposit_cell_idle ant.state _ (fun h => h hs) (fun h => h hr), setCell_self]
  · have hv0 : is_valid_position world ant.pos.x ant.pos.y = false := by
      simpa using hv
    exact deposit_pheromone_of_invalid world ant hv0

theorem dead_idle_ant_makes_no_deposit_witness :
    deposit_pheromone ramp_world (mk_ant 1 1 (ANT_STATE_DEAD ||| ANT_STATE_CARRYING))
      = ramp_world :=
  dead_idle_ant_makes_no_deposit ramp_world
    (mk_ant 1 1 (ANT_STATE_DEAD ||| ANT_STATE_CARRYING)) (by decide) (by decide) (by decide)

/-! ## C19: which ant is rendered -/

theorem first_living_at_eq_find (x y : Int) (l : List Ant) :
    first_living_at x y l = l.find? (living_at x y) := by
  induction l with
  | nil => rfl
  | cons a l ih =>
    unfold first_living_at
    rw [List.find?_cons, ih]
    by_cases h : a.pos.x = x ∧ a.pos.y = y ∧ ¬ (a.state &&& ANT_STATE_DEAD ≠ 0)
    · have hl : living_at x y a = true := by
        unfold living_at
        rw [decide_eq_true_eq]
        exact ⟨h.1, h.2.1, not_not.mp h.2.2⟩
      rw [if_pos h, hl]
    · have hl : living_at x y a = false := by
        unfold living_at
        rw [decide_eq_false_iff_not]
        intro h'
        exact h ⟨h'.1, h'.2.1, not_not.mpr h'.2.2⟩
      rw [if_neg h, hl]

theorem search_colonies_eq_find (x y : Int) (cs : List Colony) :
    search_colonies x y cs = (ants_in_order cs).find? (living_at x y) := by
  induction cs with
  | nil => rfl
  | cons c cs ih =>
    unfold search_colonies ants_in_order
    rw [List.find?_append, ← first_living_at_eq_find, ih]
    cases first_living_at x y c.ants_head <;> rfl

/-- C19: the ant `render_cell` hands to `render_ant` is the first ant, in
colony order and then list order, that stands at `(x, y)` without the DEAD
flag; an ant is drawn (with its own symbol and its colony's colour) if and
only if such an ant exists, and otherwise the terrain or the pheromone
intensity of the cell is drawn. -/
theorem render_cell_draws_first_living_ant (cell : Cell) (x y : Int) (world : World) :
    (render_cell cell x y world).ant
      = (ants_in_order (active_colonies world)).find? (living_at x y) ∧
    ((render_cell cell x y world).ant.isSome = true ↔
      ∃ a ∈ ants_in_order (active_colonies world), living_at x y a = true) ∧
    (∀ a, (render_cell cell x y world).ant = some a →
      (render_cell cell x y world).symbol = get_ant_symbol a ∧
      (render_cell cell x y world).color = get_colony_color a.colony_id) ∧
    ((render_cell cell x y world).ant = none →
      ((render_cell cell x y world).symbol = get_terrain_symbol cell.terrain ∧
        (render_cell cell x y world).color = get_terrain_color cell.terrain) ∨
      ((render_cell cell x y world).symbol
          = get_pheromone_symbol (max cell.pheromone_food cell.pheromone_home) ∧
        (render_cell cell x y world).color
          = get_pheromone_color (max cell.pheromone_food cell.pheromone_home))) := by
  have hfind := search_colonies_eq_find x y (active_colonies world)
  have hmax : (if cell.pheromone_food > cell.pheromone_home then cell.pheromone_food
      else cell.pheromone_home) = max cell.pheromone_food cell.pheromone_home := by
    split_ifs with h
    · exact (max_eq_left (le_of_lt h)).symm
    · exact (max_eq_right (not_lt.mp h)).symm
  have hant : (render_cell cell x y world).ant
      = (ants_in_order (active_colonies world)).find? (living_at x y) := by
    rw [← hfind]
    unfold render_cell
    simp only
    cases search_colonies x y (active_colonies world) with
    | some a => rfl
    | none =>
      simp only
      split_ifs <;> rfl
  refine ⟨hant, ?_, ?_, ?_⟩
  · rw [hant, List.find?_isSome]
  · intro a ha
    have hs : search_colonies x y (active_colonies world) = some a := by
      rw [hfind, ← hant, ha]
    unfold render_cell
    simp only [hs, and_self]
  · intro hnone
    have hs : search_colonies x y (active_colonies world) = none := by
      rw [hfind, ← hant, hnone]
    unfold render_cell
    simp only [hs, hmax]
    split_ifs
    · exact Or.inr ⟨rfl, rfl⟩
    · exact Or.inl ⟨rfl, rfl⟩
    · exact Or.inl ⟨rfl, rfl⟩

/-- A check of `render_cell` by evaluation: at `(1, 1)` of the colony world the
dead ant 1 is skipped and ant 2 of the same colony is drawn, not ant 4 of the
next colony. -/
theorem render_colony_world :
    ((render_cell (colony_world.grid 1 1) 1 1 colony_world).ant.map (fun a => a.id))
      = some 2 ∧
    (render_cell (colony_world.grid 1 1) 1 1 colony_world).color = COLOR_BRIGHT_RED := by
  constructor <;> rfl

theorem render_cell_draws_first_living_ant_witness :
    (render_cell (colony_world.grid 0 1) 1 0 colony_world).ant = none ∧
    (((render_cell (colony_world.grid 0 1) 1 0 colony_world).symbol
          = get_terrain_symbol (colony_world.grid 0 1).terrain ∧
        (render_cell (colony_world.grid 0 1) 1 0 colony_world).color
          = get_terrain_color (colony_world.grid 0 1).terrain) ∨
      ((render_cell (colony_world.grid 0 1) 1 0 colony_world).symbol
          = get_pheromone_symbol (max (colony_world.grid 0 1).pheromone_food
              (colony_world.grid 0 1).pheromone_home) ∧
        (render_cell (colony_world.grid 0 1) 1 0 colony_world).color
          = get_pheromone_color (max (colony_world.grid 0 1).pheromone_food
              (colony_world.grid 0 1).pheromone_home))) :=
  have h := render_cell_draws_first_living_ant (colony_world.grid 0 1) 1 0 colony_world
  have hnone : (render_cell (colony_world.grid 0 1) 1 0 colony_world).ant = none :=
    h.1.trans rfl
  ⟨hnone, h.2.2.2 hnone⟩

/-! ## C20: colony colours -/

/-- C20 fails on the code: `get_colony_color` returns `COLOR_BRIGHT_RED` both
for colony 0 and for colony 7, although its own comment promises different
colours for different colonies. -/
theorem colony_colors_collide :
    get_colony_color 0 = COLOR_BRIGHT_RED ∧ get_colony_color 7 = COLOR_BRIGHT_RED ∧
    (0 : Int) ≠ 7 ∧ get_colony_color 0 = get_colony_color 7 := by
  decide

/-- Apart from colony 7, the colonies 0 to 6 have pairwise different colours. -/
theorem colony_colors_distinct_below_7 (a b : Int) (ha : 0 ≤ a ∧ a ≤ 6) (hb : 0 ≤ b ∧ b ≤ 6)
    (hab : a ≠ b) : get_colony_color a ≠ get_colony_color b := by
  obtain ⟨ha0, ha6⟩ := ha
  obtain ⟨hb0, hb6⟩ := hb
  interval_cases a <;> interval_cases b <;> first | exact absurd rfl hab | decide

/-! ## C21: trails die out -/

theorem evaporate_value_step (v B : ℚ) (h0 : 0 ≤ v) (hB : v ≤ B) :
    (if v * (1 - PHEROMONE_EVAPORATION_RATE) < 1 / 10 then 0
      else v * (1 - PHEROMONE_EVAPORATION_RATE)) ≤ B * (1 - PHEROMONE_EVAPORATION_RATE) ∧
    ((if v * (1 - PHEROMONE_EVAPORATION_RATE) < 1 / 10 then 0
      else v * (1 - PHEROMONE_EVAPORATION_RATE)) = 0 ∨
     1 / 10 ≤ (if v * (1 - PHEROMONE_EVAPORATION_RATE) < 1 / 10 then 0
      else v * (1 - PHEROMONE_EVAPORATION_RATE))) := by
  have hr : (0 : ℚ) ≤ 1 - PHEROMONE_EVAPORATION_RATE := by
    norm_num [PHEROMONE_EVAPORATION_RATE]
  have hB0 : 0 ≤ B := le_trans h0 hB
  split_ifs with h
  · exact ⟨mul_nonneg hB0 hr, Or.inl rfl⟩
  · exact ⟨mul_le_mul_of_nonneg_right hB hr, Or.inr (not_lt.mp h)⟩

/-- After `n` evaporation passes every in-bounds value is at most
`PHEROMONE_MAX * (1 - PHEROMONE_EVAPORATION_RATE) ^ n`, and from the first
pass on it is 0 or at least 0.1. -/
theorem evaporate_iterate_bound (world : World) (hr : pheromones_in_range world) (n : Nat)
    (x y : Int) (hv : is_valid_position world x y = true) :
    (((evaporate_pheromones^[n] world).grid y x).pheromone_food
        ≤ PHEROMONE_MAX * (1 - PHEROMONE_EVAPORATION_RATE) ^ n ∧
      (0 < n → ((evaporate_pheromones^[n] world).grid y x).pheromone_food = 0 ∨
        1 / 10 ≤ ((evaporate_pheromones^[n] world).grid y x).pheromone_food)) ∧
    (((evaporate_pheromones^[n] world).grid y x).pheromone_home
        ≤ PHEROMONE_MAX * (1 - PHEROMONE_EVAPORATION_RATE) ^ n ∧
      (0 < n → ((evaporate_pheromones^[n] world).grid y x).pheromone_home = 0 ∨
        1 / 10 ≤ ((evaporate_pheromones^[n] world).grid y x).pheromone_home)) := by
  induction n with
  | zero =>
    simp only [Function.iterate_zero, id_eq, pow_zero, mul_one, lt_irrefl, false_implies,
      and_true]
    exact ⟨(hr x y hv).1.2, (hr x y hv).2.2⟩
  | succ n ih =>
    have hv' : is_valid_position (evaporate_pheromones^[n] world) x y = true := by
      rw [evaporate_valid]
      exact hv
    have hnn := evaporate_iterate_le world hr.nonneg n x y hv
    rw [Function.iterate_succ_apply', evaporate_grid, if_pos hv', pow_succ, ← mul_assoc]
    have hf := evaporate_value_step _ _ hnn.1.1 ih.1.1
    have hh := evaporate_value_step _ _ hnn.2.1 ih.2.1
    exact ⟨⟨hf.1, fun _ => hf.2⟩, ⟨hh.1, fun _ => hh.2⟩⟩

theorem decay_500 : PHEROMONE_MAX * (1 - PHEROMONE_EVAPORATION_RATE) ^ 500 < 1 / 10 := by
  norm_num [PHEROMONE_MAX, PHEROMONE_EVAPORATION_RATE]

/-- Once `PHEROMONE_MAX * (1 - PHEROMONE_EVAPORATION_RATE) ^ n` is below 0.1,
`n` evaporation passes leave nothing. -/
theorem evaporate_iterate_zero (world : World) (hr : pheromones_in_range world) (n : Nat)
    (hn : 0 < n) (hd : PHEROMONE_MAX * (1 - PHEROMONE_EVAPORATION_RATE) ^ n < 1 / 10)
    (x y : Int) (hv : is_valid_position world x y = true) :
    ((evaporate_pheromones^[n] world).grid y x).pheromone_food = 0 ∧
    ((evaporate_pheromones^[n] world).grid y x).pheromone_home = 0 := by
  obtain ⟨⟨hf, hf'⟩, ⟨hh, hh'⟩⟩ := evaporate_iterate_bound world hr n x y hv
  constructor
  · rcases hf' hn with h | h
    · exact h
    · exact absurd (lt_of_le_of_lt (le_trans h hf) hd) (lt_irrefl _)
  · rcases hh' hn with h | h
    · exact h
    · exact absurd (lt_of_le_of_lt (le_trans h hh) hd) (lt_irrefl _)

/-- C21: for a world with values in `[0, PHEROMONE_MAX]`, after 500 successive
`evaporate_pheromones` calls the food trail and the home trail of every
in-bounds cell are exactly 0. -/
theorem trails_die_out (world : World) (hr : pheromones_in_range world)
    (x y : Int) (hv : is_valid_position world x y = true) :
    ((evaporate_pheromones^[500] world).grid y x).pheromone_food = 0 ∧
    ((evaporate_pheromones^[500] world).grid y x).pheromone_home = 0 :=
  evaporate_iterate_zero world hr 500 (Nat.succ_pos 499) decay_500 x y hv

theorem trails_die_out_witness :
    ((evaporate_pheromones^[500] (mk_world 2 2 (fun _ _ => 1000) (fun _ _ => 37))).grid
        1 0).pheromone_food = 0 ∧
    ((evaporate_pheromones^[500] (mk_world 2 2 (fun _ _ => 1000) (fun _ _ => 37))).grid
        1 0).pheromone_home = 0 :=
  trails_die_out (mk_world 2 2 (fun _ _ => 1000) (fun _ _ => 37))
    (mk_world_const_in_range 2 2 1000 37 (by norm_num) (by norm_num)) 0 1 (by decide)

/-! ## C22: normalisation is idempotent -/

theorem world_eq_of_grid (w1 w2 : World) (hw : w1.width = w2.width)
    (hh : w1.height = w2.height) (hg : w1.grid = w2.grid) (hc : w1.colonies = w2.colonies)
    (hn : w1.colony_count = w2.colony_count) (hs : w1.current_step = w2.current_step)
    (hr : w1.is_running = w2.is_running) (hp : w1.paused = w2.paused)
    (hd : w1.render_delay_ms = w2.render_delay_ms) : w1 = w2 := by
  cases w1
  cases w2
  simp only at hw hh hg hc hn hs hr hp hd
  subst hw hh hg hc hn hs hr hp hd
  rfl

/-- The food maximum found after a normalisation is `PHEROMONE_MAX` when the
maximum found before was positive. -/
theorem find_max_food_normalized (world : World) (hn : pheromones_nonneg world)
    (hpos : (find_max world).1 > 0) :
    (find_max (normalize_pheromones world)).1 = PHEROMONE_MAX := by
  obtain ⟨_, hbound, hatt, _⟩ := find_max_spec world
  have hnn := (normalize_in_range world hn).nonneg
  apply find_max_food_eq (normalize_pheromones world) PHEROMONE_MAX
    (fun x y hv => (hnn x y hv).1)
  constructor
  · intro x y hv
    exact ((normalize_in_range world hn) x y hv).1.2
  · rcases hatt with h | ⟨x, y, hv, heq⟩
    · rw [h] at hpos
      exact absurd hpos (lt_irrefl _)
    · refine ⟨x, y, hv, ?_⟩
      show ((normalize_pheromones world).grid y x).pheromone_food = PHEROMONE_MAX
      rw [normalize_food world x y hv, if_pos hpos, heq, div_self (ne_of_gt hpos), one_mul]

/-- The home maximum found after a normalisation is `PHEROMONE_MAX` when the
maximum found before was positive. -/
theorem find_max_home_normalized (world : World) (hn : pheromones_nonneg world)
    (hpos : (find_max world).2 > 0) :
    (find_max (normalize_pheromones world)).2 = PHEROMONE_MAX := by
  obtain ⟨_, hbound, _, hatt⟩ := find_max_spec world
  have hnn := (normalize_in_range world hn).nonneg
  apply find_max_home_eq (normalize_pheromones world) PHEROMONE_MAX
    (fun x y hv => (hnn x y hv).2)
  constructor
  · intro x y hv
    exact ((normalize_in_range world hn) x y hv).2.2
  · rcases hatt with h | ⟨x, y, hv, heq⟩
    · rw [h] at hpos
      exact absurd hpos (lt_irrefl _)
    · refine ⟨x, y, hv, ?_⟩
      show ((normalize_pheromones world).grid y x).pheromone_home = PHEROMONE_MAX
      rw [normalize_home world x y hv, if_pos hpos, heq, div_self (ne_of_gt hpos), one_mul]

theorem rescale_by_max (v : ℚ) : v / PHEROMONE_MAX * PHEROMONE_MAX = v := by
  have h : PHEROMONE_MAX ≠ 0 := by norm_num [PHEROMONE_MAX]
  field_simp

theorem normalize_twice_food (world : World) (hn : pheromones_nonneg world) (x y : Int)
    (hv : is_valid_position world x y = true) :
    ((normalize_pheromones (normalize_pheromones world)).grid y x).pheromone_food
      = ((normalize_pheromones world).grid y x).pheromone_food := by
  have hv' : is_valid_position (normalize_pheromones world) x y = true := hv
  rw [normalize_food (normalize_pheromones world) x y hv']
  by_cases hpos : (find_max world).1 > 0
  · rw [find_max_food_normalized world hn hpos, rescale_by_max]
    split_ifs <;> rfl
  · have hsame : (find_max (normalize_pheromones world)).1 = (find_max world).1 := by
      apply find_max_food_congr world (normalize_pheromones world) rfl rfl
      intro a b hab
      rw [normalize_food world a b hab, if_neg hpos]
    rw [hsame, if_neg hpos]

theorem normalize_twice_home (world : World) (hn : pheromones_nonneg world) (x y : Int)
    (hv : is_valid_position world x y = true) :
    ((normalize_pheromones (normalize_pheromones world)).grid y x).pheromone_home
      = ((normalize_pheromones world).grid y x).pheromone_home := by
  have hv' : is_valid_position (normalize_pheromones world) x y = true := hv
  rw [normalize_home (normalize_pheromones world) x y hv']
  by_cases hpos : (find_max world).2 > 0
  · rw [find_max_home_normalized world hn hpos, rescale_by_max]
    split_ifs <;> rfl
  · have hsame : (find_max (normalize_pheromones world)).2 = (find_max world).2 := by
      apply find_max_home_congr world (normalize_pheromones world) rfl rfl
      intro a b hab
      rw [normalize_home world a b hab, if_neg hpos]
    rw [hsame, if_neg hpos]

theorem cell_eq_of_fields (c1 c2 : Cell) (ht : c1.terrain = c2.terrain)
    (hf : c1.pheromone_food = c2.pheromone_food) (hh : c1.pheromone_home = c2.pheromone_home)
    (ha : c1.food_amount = c2.food_amount) (hc : c1.colony_id = c2.colony_id)
    (h1 : c1.has_colony = c2.has_colony) (h2 : c1.has_food = c2.has_food) : c1 = c2 := by
  cases c1
  cases c2
  simp only at ht hf hh ha hc h1 h2
  subst ht hf hh ha hc h1 h2
  rfl

/-- C22: for a world with non-negative values, applying `normalize_pheromones`
twice gives the same world as applying it once. -/
theorem normalize_idempotent (world : World) (hn : pheromones_nonneg world) :
    normalize_pheromones (normalize_pheromones world) = normalize_pheromones world := by
  refine world_eq_of_grid (normalize_pheromones (normalize_pheromones world))
    (normalize_pheromones world) rfl rfl ?_ rfl rfl rfl rfl rfl rfl
  funext y x
  by_cases hv : is_valid_position world x y = true
  · have hv' : is_valid_position (normalize_pheromones world) x y = true := hv
    apply cell_eq_of_fields
    · rw [normalize_grid (normalize_pheromones world), if_pos hv']
    · exact normalize_twice_food world hn x y hv
    · exact normalize_twice_home world hn x y hv
    · rw [normalize_grid (normalize_pheromones world), if_pos hv']
    · rw [normalize_grid (normalize_pheromones world), if_pos hv']
    · rw [normalize_grid (normalize_pheromones world), if_pos hv']
    · rw [normalize_grid (normalize_pheromones world), if_pos hv']
  · have hv' : ¬ is_valid_position (normalize_pheromones world) x y = true := hv
    rw [normalize_grid (normalize_pheromones world), if_neg hv']

theorem normalize_idempotent_witness :
    normalize_pheromones (normalize_pheromones ramp_world) = normalize_pheromones ramp_world :=
  normalize_idempotent ramp_world ramp_world_nonneg

/-! ## C23: field operations change only pheromone values -/

theorem forRange_const {σ : Type} (n : Int) (s : σ) : forRange n (fun _ s => s) s = s := by
  unfold forRange
  induction List.range n.toNat with
  | nil => rfl
  | cons a l ih => simp

/-- One step of the main loop of `diffuse_pheromones` leaves the ground of
every cell as it was. -/
theorem diffuse_cell_ground (world : World) (tf th : Int → Int → ℚ) (x y : Int)
    (g : Int → Int → Cell) :
    ground_of (diffuse_cell world tf th x y g) = ground_of g := by
  rw [← diffuse_cell_traced_fst world tf th x y (g, false, false)]
  funext y' x'
  unfold ground_of
  by_cases hn : neighbor_count world x y > 0
  · rw [(diffuse_cell_traced_spec world tf th x y (g, false, false) hn).1]
    by_cases hp : y' = y ∧ x' = x
    · rw [if_pos hp, hp.1, hp.2]
      rfl
    · rw [if_neg hp]
      split_ifs <;> rfl
  · rw [diffuse_cell_traced_of_no_neighbor world tf th x y (g, false, false) hn]

theorem diffuse_ground (world : World) :
    ground_of (diffuse_pheromones world).grid = ground_of world.grid := by
  have h : ground_of (diffuse_pheromones world).grid
      = forRange world.height (fun _ s => forRange world.width (fun _ s => s) s)
          (ground_of world.grid) := by
    unfold diffuse_pheromones
    simp only
    apply forRange_proj ground_of
    intro y g
    apply forRange_proj ground_of
    intro x g
    exact diffuse_cell_ground world _ _ x y g
  rw [h]
  simp only [forRange_const]

theorem same_frame_of_ground (before after : World) (hw : after.width = before.width)
    (hh : after.height = before.height) (hc : after.colonies = before.colonies)
    (hn : after.colony_count = before.colony_count)
    (hs : after.current_step = before.current_step)
    (hr : after.is_running = before.is_running) (hp : after.paused = before.paused)
    (hd : after.render_delay_ms = before.render_delay_ms)
    (hg : ∀ y x, ground_of after.grid y x = ground_of before.grid y x) :
    same_frame before after := by
  refine ⟨hw, hh, hc, hn, hs, hr, hp, hd, ?_⟩
  intro y x
  have h := hg y x
  simp only [ground_of, Prod.mk.injEq] at h
  exact h

/-- C23: each of `evaporate_pheromones`, `diffuse_pheromones`,
`reset_pheromones` and `normalize_pheromones` leaves the grid width and
height, the terrain, food amount, colony id and presence flags of every
cell, the colonies with their ants, the step counter, the run and pause flags
and the render delay unchanged. -/
theorem field_operations_frame (world : World) :
    same_frame world (evaporate_pheromones world) ∧
    same_frame world (diffuse_pheromones world) ∧
    same_frame world (reset_pheromones world) ∧
    same_frame world (normalize_pheromones world) := by
  refine ⟨?_, ?_, ?_, ?_⟩
  · apply same_frame_of_ground world (evaporate_pheromones world) rfl rfl rfl rfl rfl rfl rfl rfl
    intro y x
    unfold ground_of
    rw [evaporate_grid]
    split_ifs <;> rfl
  · apply same_frame_of_ground world (diffuse_pheromones world) rfl rfl rfl rfl rfl rfl rfl rfl
    intro y x
    rw [diffuse_ground]
  · apply same_frame_of_ground world (reset_pheromones world) rfl rfl rfl rfl rfl rfl rfl rfl
    intro y x
    unfold ground_of
    rw [reset_grid]
    split_ifs <;> rfl
  · apply same_frame_of_ground world (normalize_pheromones world) rfl rfl rfl rfl rfl rfl rfl rfl
    intro y x
    unfold ground_of
    rw [normalize_grid]
    split_ifs <;> rfl

/-! ## Diffusion in binary32

The exact statements about diffusion (C8, C9, C10) are statements of exact
arithmetic. The theorems below evaluate the rounded pass, which is what the C
code computes, on small worlds. -/

/-- With no rounding the rounded pass is `diffuse_pheromones`. -/
theorem diffuse_pheromones_rounded_id : diffuse_pheromones_rounded id = diffuse_pheromones :=
  rfl

/-- Checks of `round_f32` by evaluation: `0.01f`, values that are binary32
numbers already, the two kinds of tie, a value with 25 significant bits, a
repeating fraction of either sign, and the subnormal range. -/
theorem round_f32_examples :
    round_f32 (1 / 100) = 5368709 / 536870912 ∧
    round_f32 1000 = 1000 ∧ round_f32 0 = 0 ∧
    round_f32 (5368709 / 536870912) = 5368709 / 536870912 ∧
    round_f32 (1 + 1 / 2 ^ 24) = 1 ∧
    round_f32 (1 + 3 / 2 ^ 24) = 1 + 1 / 2 ^ 22 ∧
    round_f32 16777217 = 16777216 ∧
    round_f32 (1 / 3) = 11184811 / 33554432 ∧
    round_f32 (-(1 / 3)) = -(11184811 / 33554432) ∧
    round_f32 (1 / 2 ^ 150) = 0 ∧
    round_f32 (3 / 2 ^ 150) = 1 / 2 ^ 148 := by
  decide!

/-- The rounded pass on the 2x1 world holding 0 and 1: the right cell hands
out `0.01f`, the left cell receives exactly that, and the right cell keeps
the binary32 value nearest to `1 - 0.01f`, which lies above it. -/
theorem diffuse_f32_unit_pair :
    ((diffuse_pheromones_f32 unit_pair_world).grid 0 0).pheromone_food
      = 5368709 / 536870912 ∧
    ((diffuse_pheromones_f32 unit_pair_world).grid 0 1).pheromone_food
      = 4152361 / 4194304 := by
  decide!

/-- The rounded pass on the ramp world, food trail of the top row. -/
theorem diffuse_f32_ramp_top_row :
    ((diffuse_pheromones_f32 ramp_world).grid 0 0).pheromone_food
      = 13958643 / 1073741824 ∧
    ((diffuse_pheromones_f32 ramp_world).grid 0 1).pheromone_food = 8536807 / 8388608 ∧
    ((diffuse_pheromones_f32 ramp_world).grid 0 2).pheromone_food
      = 16752051 / 8388608 := by
  decide!

end AntColony
